import Mathlib

/-!
# ArchiLeapVR: entity store, handles and the edit history

A shallow embedding of the level editor's entity store (`Map`), its generational
handles (`EntityUID`) and the undo / redo machinery of the input actors
(`HandController`, `Player`), followed by theorems about them.

Conventions of the embedding

* `unsigned int` values are natural numbers reduced modulo `2 ^ 32`.
* `float` values are rationals, so the arithmetic is exact: the code modelled here
  copies, compares, adds and scales them, and `roundf` and `fabsf` are the functions of
  the C library over the rationals.
* An `Entity*` is an address (`Ptr`); `0` is `nullptr`.  The objects themselves live in
  `Map.heap`.  `new` takes the next address, which is never handed out again, and
  `delete` ends the lifetime of the object at an address.
* Reading or writing through a pointer whose object has been deleted, and deleting it a
  second time, is undefined behaviour in C++.  Every function that can do so returns an
  `Option`, and `none` stands for that undefined behaviour.
* Rendering (with the hover and selection flags that only colour it), user-interface
  widgets, audio, haptics and timers are left out.
-/

namespace ArchiLeap

/-! ## Machine integers and vectors -/

/-- Reduction of a natural number to the range of `unsigned int`. -/
def u32 (n : Nat) : Nat := n % 2 ^ 32

/-- Embeds `Vec3` of the engine, over exact arithmetic. -/
structure Vec3 where
  x : ℚ
  y : ℚ
  z : ℚ
deriving DecidableEq

/-- Embeds `Vec3::ZERO`. -/
def Vec3.ZERO : Vec3 := ⟨0, 0, 0⟩

/-- Embeds `EulerAngles` of the engine, over exact arithmetic. -/
structure EulerAngles where
  m_yawDegrees : ℚ
  m_pitchDegrees : ℚ
  m_rollDegrees : ℚ
deriving DecidableEq

/-- Embeds `EulerAngles::ZERO`. -/
def EulerAngles.ZERO : EulerAngles := ⟨0, 0, 0⟩

/-- Embeds `Vec3::operator+`. -/
def Vec3.add (a b : Vec3) : Vec3 := ⟨a.x + b.x, a.y + b.y, a.z + b.z⟩

/-- Embeds `Vec3::operator-`. -/
def Vec3.sub (a b : Vec3) : Vec3 := ⟨a.x - b.x, a.y - b.y, a.z - b.z⟩

/-- Embeds `Vec3::operator*` with a scalar. -/
def Vec3.scale (a : Vec3) (k : ℚ) : Vec3 := ⟨a.x * k, a.y * k, a.z * k⟩

/-- Modelled from the spec: the engine constant `Vec3::EAST`, whose declaration is not
part of the game sources; the axis lock keeps the X, Y or Z component of the delta
along the world axes, so `EAST` is the unit vector of X. -/
def Vec3.EAST : Vec3 := ⟨1, 0, 0⟩

/-- Modelled from the spec: the engine constant `Vec3::NORTH`, the unit vector of Y. -/
def Vec3.NORTH : Vec3 := ⟨0, 1, 0⟩

/-- Modelled from the spec: the engine constant `Vec3::SKYWARD`, the unit vector of Z. -/
def Vec3.SKYWARD : Vec3 := ⟨0, 0, 1⟩

/-- The C library function `roundf` over exact arithmetic: the nearest integer, halfway
cases away from zero. -/
def roundf (q : ℚ) : ℚ :=
  if 0 ≤ q then ((Rat.floor (q + 1 / 2) : Int) : ℚ) else -((Rat.floor (-q + 1 / 2) : Int) : ℚ)

/-- The C library function `fabsf` over exact arithmetic. -/
def fabsf (q : ℚ) : ℚ := if 0 ≤ q then q else -q

/-- Embeds `MODEL_SCALE` of `GameCommon.hpp`. -/
def MODEL_SCALE : ℚ := 2

/-! ## EntityUID (`EntityUID.hpp`, `EntityUID.cpp`) -/

/-- Embeds `ENTITYUID_INVALID`. -/
def ENTITYUID_INVALID : Nat := 0xFFFFFFFF

/-- Embeds `class EntityUID`: one `unsigned int`. -/
structure EntityUID where
  m_uid : Nat
deriving DecidableEq

/-- Embeds `EntityUID::EntityUID(unsigned int index, unsigned int salt)`:
`m_uid(index << 16 | salt)` in 32-bit unsigned arithmetic. -/
def EntityUID.fromIndexSalt (index salt : Nat) : EntityUID :=
  ⟨u32 (u32 index <<< 16) ||| u32 salt⟩

/-- Embeds `EntityUID::GetIndex`: `(m_uid & 0xFFFF0000) >> 16`. -/
def EntityUID.GetIndex (u : EntityUID) : Nat :=
  (u.m_uid &&& 0xFFFF0000) >>> 16

/-- Embeds `EntityUID::INVALID`, built as `EntityUID{0xFFFF, 0xFFFF}`. -/
def EntityUID.INVALID : EntityUID := EntityUID.fromIndexSalt 0xFFFF 0xFFFF

/-- Embeds `EntityUID::operator==`. -/
def EntityUID.eq (a b : EntityUID) : Bool := a.m_uid == b.m_uid

/-- Embeds `EntityUID::operator!=`. -/
def EntityUID.ne (a b : EntityUID) : Bool := a.m_uid != b.m_uid

/-! ## Entities (`GameCommon.hpp`, `Entity.hpp`, `Activator.hpp`, `Activatable.hpp`) -/

/-- Embeds `enum class EntityType`. -/
inductive EntityType where
  | NONE | TILE_GRASS | TILE_DIRT | LEVER | DOOR | BUTTON | MOVING_PLATFORM
  | COIN | CRATE | ENEMY_ORC | FLAG | NUM
deriving DecidableEq

/-- The kinds whose class derives from `Activator` (`Button`, `Lever`). -/
def EntityType.isActivator (t : EntityType) : Bool :=
  t == EntityType.BUTTON || t == EntityType.LEVER

/-- The kinds whose class derives from `Activatable` (`Door`, `MovingPlatform`). -/
def EntityType.isActivatable (t : EntityType) : Bool :=
  t == EntityType.DOOR || t == EntityType.MOVING_PLATFORM

/-- An address of an `Entity` object; `0` is `nullptr`. -/
abbrev Ptr := Nat

/-- The data members of `Entity` that the editor reads and writes, together with the one
member each of the subclasses `Activator` (`m_activatableUID`) and `Activatable`
(`m_activatorUID`); a kind that is neither simply never has that member touched. -/
structure Entity where
  m_uid : EntityUID
  m_position : Vec3
  m_orientation : EulerAngles
  m_scale : ℚ
  m_type : EntityType
  m_activatableUID : EntityUID := EntityUID.INVALID
  m_activatorUID : EntityUID := EntityUID.INVALID
deriving DecidableEq

/-! ## The map (`Map.hpp`, `Map.cpp`) -/

/-- The members of `Map` used by the editor, with the heap of entity objects the
map owns.  `heap[a]` is the object at address `a + 1`, or `none` once it has been
deleted.  `rngYaw` is the stream of values `g_rng->RollRandomFloatInRange(0, 360)` will
return (the generator is engine code). -/
structure Map where
  heap : List (Option Entity) := []
  m_entities : List Ptr := []
  m_playerStart : Ptr := 0
  m_entityUIDSalt : Nat := 0
  m_isUnsaved : Bool := false
  m_isPulsingActivatables : Bool := false
  m_isPulsingActivators : Bool := false
  m_selectedEntity : Ptr := 0
  rngYaw : List ℚ := []
deriving DecidableEq

/-- The object a pointer refers to, `none` for `nullptr` and for a deleted object. -/
def Map.deref (m : Map) (p : Ptr) : Option Entity :=
  match p with
  | 0 => none
  | a + 1 => (m.heap.get? a).join

/-- A write through a pointer: replaces the object at `p` by `f` of it. -/
def Map.modify (m : Map) (p : Ptr) (f : Entity → Entity) : Option Map :=
  match m.deref p with
  | none => none
  | some e => some { m with heap := m.heap.set (p - 1) (some (f e)) }

/-- The expression `new T(...)`: the object is placed at the next address. -/
def Map.alloc (m : Map) (e : Entity) : Map × Ptr :=
  ({ m with heap := m.heap ++ [some e] }, m.heap.length + 1)

/-- The expression `delete p`: a no-op on `nullptr`, undefined on a deleted object. -/
def Map.delete (m : Map) (p : Ptr) : Option Map :=
  match p with
  | 0 => some m
  | a + 1 =>
    match m.deref (a + 1) with
    | none => none
    | some _ => some { m with heap := m.heap.set a none }

/-- The constructors of the entity classes, as far as they set the members of
`Entity`: `Entity::Entity` stores its arguments, `Lever`, `Door`, `MovingPlatform`,
`Enemy_Orc` and `Goal` then overwrite `m_scale` with `MODEL_SCALE`, and `Coin` overwrites
the yaw with a random roll.  `Tile` takes its kind from the definition it is given
(`Block1x1` is grass, any other is dirt). -/
def constructEntity (type : EntityType) (uid : EntityUID) (position : Vec3)
    (orientation : EulerAngles) (scale : ℚ) (roll : ℚ) : Option Entity :=
  let base : Entity :=
    { m_uid := uid, m_position := position, m_orientation := orientation,
      m_scale := scale, m_type := type }
  match type with
  | EntityType.TILE_GRASS => some base
  | EntityType.TILE_DIRT => some base
  | EntityType.LEVER => some { base with m_scale := MODEL_SCALE }
  | EntityType.BUTTON => some base
  | EntityType.DOOR => some { base with m_scale := MODEL_SCALE }
  | EntityType.MOVING_PLATFORM => some { base with m_scale := MODEL_SCALE }
  | EntityType.COIN =>
    some { base with m_orientation := { orientation with m_yawDegrees := roll } }
  | EntityType.CRATE => some base
  | EntityType.ENEMY_ORC => some { base with m_scale := MODEL_SCALE }
  | EntityType.FLAG => some { base with m_scale := MODEL_SCALE }
  | EntityType.NONE => none
  | EntityType.NUM => none

/-- Embeds `Map::CreateEntityOfTypeWithUID`: `nullptr` for a kind outside the switch. -/
def Map.CreateEntityOfTypeWithUID (m : Map) (type : EntityType) (uid : EntityUID)
    (position : Vec3) (orientation : EulerAngles) (scale : ℚ) : Map × Ptr :=
  match constructEntity type uid position orientation scale (m.rngYaw.headD 0) with
  | none => (m, 0)
  | some e =>
    let m1 := if type = EntityType.COIN then { m with rngYaw := m.rngYaw.tail } else m
    m1.alloc e

/-- The loop at the head of `Map::CreateEntityOfType`: the first index whose slot is
null, or the size of the collection when there is none. -/
def firstEmptySlot : List Ptr → Nat
  | [] => 0
  | p :: rest => if p = 0 then 0 else firstEmptySlot rest + 1

/-- Embeds `Map::CreateEntityOfType`: the handle is built from the first empty slot and the
salt counter, the counter is incremented, and the object is constructed (not yet
stored in the collection). -/
def Map.CreateEntityOfType (m : Map) (type : EntityType) (position : Vec3)
    (orientation : EulerAngles) (scale : ℚ) : Map × Ptr :=
  let entityIndex := firstEmptySlot m.m_entities
  let uid := EntityUID.fromIndexSalt entityIndex m.m_entityUIDSalt
  let m1 := { m with m_entityUIDSalt := u32 (m.m_entityUIDSalt + 1) }
  m1.CreateEntityOfTypeWithUID type uid position orientation scale

/-- Embeds `Map::SpawnNewEntityOfType`: a created entity is stored in the slot its handle names
when that slot exists, and appended otherwise. -/
def Map.SpawnNewEntityOfType (m : Map) (type : EntityType) (position : Vec3)
    (orientation : EulerAngles) (scale : ℚ) : Option (Map × Ptr) :=
  let r := m.CreateEntityOfType type position orientation scale
  let m1 := r.1
  let entity := r.2
  if entity = 0 then some (m1, entity)
  else
    match m1.deref entity with
    | none => none
    | some e =>
      if e.m_uid.GetIndex < m1.m_entities.length then
        some ({ m1 with m_entities := m1.m_entities.set e.m_uid.GetIndex entity }, entity)
      else
        some ({ m1 with m_entities := m1.m_entities ++ [entity] }, entity)

/-- The loop of `Map::RemoveEntityFromMap`: the first slot holding `entity`. -/
def findSlot (entity : Ptr) : List Ptr → Option Nat
  | [] => none
  | p :: rest => if p = entity then some 0 else (findSlot entity rest).map (· + 1)

/-- Embeds `Map::RemoveEntityFromMap`: pointers are compared, never followed; the entity found
is deleted and its slot set to null. -/
def Map.RemoveEntityFromMap (m : Map) (entity : Ptr) : Option (Map × Bool) :=
  if entity = 0 then some (m, false)
  else
    match findSlot entity m.m_entities with
    | none => some (m, false)
    | some entityIndex =>
      match m.delete entity with
      | none => none
      | some m1 => some ({ m1 with m_entities := m1.m_entities.set entityIndex 0 }, true)

/-- Embeds `Map::GetEntityFromUID(EntityUID)`. -/
def Map.GetEntityFromUID (m : Map) (uid : EntityUID) : Option Ptr :=
  if uid.eq EntityUID.INVALID then some 0
  else
    match m.deref m.m_playerStart with
    | none => none
    | some playerStart =>
      if uid.eq playerStart.m_uid then some m.m_playerStart
      else
        let entityIndex := uid.GetIndex
        if entityIndex ≥ m.m_entities.length then some 0
        else
          let entity := m.m_entities.getD entityIndex 0
          if entity = 0 then some 0
          else
            match m.deref entity with
            | none => none
            | some e => if e.m_uid.eq uid then some entity else some 0

/-- The integers `lo, lo + 1, ..., hi` visited by `for (int i = lo; i <= hi; i++)`. -/
def intRange (lo hi : Int) : List Int :=
  (List.range (hi - lo + 1).toNat).map (fun k => lo + (k : Int))

/-- Embeds `Map::NEW_MAP_HALF_DIMENSIONS`. -/
def NEW_MAP_HALF_DIMENSIONS : Int := 5

/-- Embeds `Map::InitializeTiles`: a grass tile on every cell of the square floor. -/
def Map.InitializeTiles (m : Map) : Option Map :=
  (intRange (-NEW_MAP_HALF_DIMENSIONS) NEW_MAP_HALF_DIMENSIONS).foldlM
    (fun m1 xPos =>
      (intRange (-NEW_MAP_HALF_DIMENSIONS) NEW_MAP_HALF_DIMENSIONS).foldlM
        (fun m2 yPos =>
          (m2.SpawnNewEntityOfType EntityType.TILE_GRASS ⟨xPos, yPos, -1⟩
            EulerAngles.ZERO 1).map Prod.fst)
        m1)
    m

/-- Embeds `PlayerStart::PlayerStart`: an entity of kind `NONE` and scale `1`. -/
def constructPlayerStart (uid : EntityUID) (position : Vec3)
    (orientation : EulerAngles) : Entity :=
  { m_uid := uid, m_position := position, m_orientation := orientation,
    m_scale := 1, m_type := EntityType.NONE }

/-- Embeds `Map::Map(Game*)`, the constructor of a new map: the player start takes the handle
built from the (empty) collection size and the salt counter, then the floor is laid.
The argument gives the random rolls still to come. -/
def Map.construct (rolls : List ℚ) : Option Map :=
  let m : Map := { rngYaw := rolls }
  let entityIndex := u32 m.m_entities.length
  let uid := EntityUID.fromIndexSalt entityIndex m.m_entityUIDSalt
  let m1 := { m with m_entityUIDSalt := u32 (m.m_entityUIDSalt + 1) }
  let r := m1.alloc (constructPlayerStart uid Vec3.ZERO EulerAngles.ZERO)
  ({ r.1 with m_playerStart := r.2 } : Map).InitializeTiles

/-- One entity record of a map file, as `Entity::AppendToBuffer` and its overrides
write it; `linkedUID` is the partner handle an activator or activatable appends. -/
structure SavedEntity where
  type : EntityType
  uid : Nat
  position : Vec3
  orientation : EulerAngles
  scale : ℚ
  linkedUID : Nat := ENTITYUID_INVALID
deriving DecidableEq

/-- The content of a map file after the header: the player start record and one
record per slot, `none` for the byte `0xFF` that marks an empty slot. -/
structure MapFile where
  playerStart : SavedEntity
  entities : List (Option SavedEntity)
deriving DecidableEq

/-- The record `Entity::AppendToBuffer` (with the overrides of `Activator` and
`Activatable`) writes for an entity. -/
def Entity.AppendToBuffer (e : Entity) : SavedEntity :=
  { type := e.m_type, uid := e.m_uid.m_uid, position := e.m_position,
    orientation := e.m_orientation, scale := e.m_scale,
    linkedUID :=
      if e.m_type.isActivator then e.m_activatableUID.m_uid
      else if e.m_type.isActivatable then e.m_activatorUID.m_uid
      else ENTITYUID_INVALID }

/-- Embeds `Map::Event_SaveMap`: the file written for the current map. -/
def Map.Event_SaveMap (m : Map) : Option MapFile :=
  match m.deref m.m_playerStart with
  | none => none
  | some ps =>
    (m.m_entities.mapM (fun p =>
        if p = 0 then some none
        else (m.deref p).map (fun e => some e.AppendToBuffer))).map
      (fun records => { playerStart := ps.AppendToBuffer, entities := records })

/-- The body of the loop of `Map::LoadFromFile` for one record. -/
def Map.loadEntity (m : Map) (record : Option SavedEntity) : Option Map :=
  match record with
  | none => some { m with m_entities := m.m_entities ++ [0] }
  | some r =>
    let c := m.CreateEntityOfTypeWithUID r.type ⟨r.uid⟩ r.position r.orientation r.scale
    let m1 := c.1
    let entity := c.2
    let linked : Option Map :=
      if r.type.isActivator then
        m1.modify entity (fun e => { e with m_activatableUID := ⟨r.linkedUID⟩ })
      else if r.type.isActivatable then
        m1.modify entity (fun e => { e with m_activatorUID := ⟨r.linkedUID⟩ })
      else some m1
    linked.map (fun m2 => { m2 with m_entities := m2.m_entities ++ [entity] })

/-- Embeds `Map::Map(Game*, std::string, MapMode)` with `Map::LoadFromFile`: the player
start and every entity keep the handle stored in the file; `m_entityUIDSalt` is not
assigned and so keeps its initial value `0`. -/
def Map.LoadFromFile (file : MapFile) (rolls : List ℚ) : Option Map :=
  let m : Map := { rngYaw := rolls }
  let ps := constructPlayerStart ⟨file.playerStart.uid⟩ file.playerStart.position
    file.playerStart.orientation
  let r := m.alloc { ps with m_scale := file.playerStart.scale }
  file.entities.foldlM Map.loadEntity ({ r.1 with m_playerStart := r.2 } : Map)

/-- The loops of `Map::TogglePulseActivatables`, `Map::TogglePulseActivators` and
`Map::SetSelectedEntity` follow every non-null pointer of the collection; this is
whether all of them refer to live objects. -/
def Map.slotsLive (m : Map) : Bool :=
  m.m_entities.all (fun p => p == 0 || (m.deref p).isSome)

/-- Embeds `Map::TogglePulseActivatables` (the pulse timers themselves are left out). -/
def Map.TogglePulseActivatables (m : Map) : Option Map :=
  if m.slotsLive then some { m with m_isPulsingActivatables := !m.m_isPulsingActivatables }
  else none

/-- Embeds `Map::TogglePulseActivators` (the pulse timers themselves are left out). -/
def Map.TogglePulseActivators (m : Map) : Option Map :=
  if m.slotsLive then some { m with m_isPulsingActivators := !m.m_isPulsingActivators }
  else none

/-- Embeds `Map::SetSelectedEntity`.  The flag `m_isSelected` it clears on the player
start and on every entity of the collection, and sets on the selected entity, only
colours the rendering and is left out; the dereferences that reach it are kept. -/
def Map.SetSelectedEntity (m : Map) (selectedEntity : Ptr) : Option Map :=
  if (m.deref m.m_playerStart).isSome ∧ m.slotsLive = true ∧
      (selectedEntity = 0 ∨ (m.deref selectedEntity).isSome) then
    some { m with m_selectedEntity := selectedEntity }
  else none

/-- The expression `dynamic_cast<Activator*>(GetEntityFromUID(uid))`. -/
def Map.activatorFromUID (m : Map) (uid : EntityUID) : Option Ptr :=
  match m.GetEntityFromUID uid with
  | none => none
  | some p =>
    if p = 0 then some 0
    else
      match m.deref p with
      | none => none
      | some e => if e.m_type.isActivator then some p else some 0

/-- The expression `dynamic_cast<Activatable*>(GetEntityFromUID(uid))`. -/
def Map.activatableFromUID (m : Map) (uid : EntityUID) : Option Ptr :=
  match m.GetEntityFromUID uid with
  | none => none
  | some p =>
    if p = 0 then some 0
    else
      match m.deref p with
      | none => none
      | some e => if e.m_type.isActivatable then some p else some 0

/-- The statement `if (p) p->member = value;`: a write through `p` unless it is null. -/
def Map.modifyIfNonNull (m : Map) (p : Ptr) (f : Entity → Entity) : Option Map :=
  if p = 0 then some m else m.modify p f

/-- The body shared by the two branches of `Map::LinkEntities`, once the activator and
the activatable have been told apart: the previous partners are unlinked, then the two
entities are linked to each other. -/
def Map.linkPair (m : Map) (activator activatable : Ptr) : Option Map := do
  let b ← m.deref activatable
  let prevActivator ← m.activatorFromUID b.m_activatorUID
  let m1 ← m.modifyIfNonNull prevActivator
    (fun e => { e with m_activatableUID := EntityUID.INVALID })
  let a ← m1.deref activator
  let prevActivatable ← m1.activatableFromUID a.m_activatableUID
  let m2 ← m1.modifyIfNonNull prevActivatable
    (fun e => { e with m_activatorUID := EntityUID.INVALID })
  let b2 ← m2.deref activatable
  let m3 ← m2.modify activator (fun e => { e with m_activatableUID := b2.m_uid })
  let a3 ← m3.deref activator
  m3.modify activatable (fun e => { e with m_activatorUID := a3.m_uid })

/-- Embeds `Map::LinkEntities`. -/
def Map.LinkEntities (m : Map) (entity1 entity2 : Ptr) : Option Map := do
  let m0 ←
    if m.m_isPulsingActivatables then m.TogglePulseActivatables
    else if m.m_isPulsingActivators then m.TogglePulseActivators
    else some m
  let e1 ← m0.deref entity1
  if e1.m_type = EntityType.BUTTON ∨ e1.m_type = EntityType.LEVER then
    let e2 ← m0.deref entity2
    if e2.m_type = EntityType.DOOR ∨ e2.m_type = EntityType.MOVING_PLATFORM then
      m0.linkPair entity1 entity2
    else some m0
  else if e1.m_type = EntityType.DOOR ∨ e1.m_type = EntityType.MOVING_PLATFORM then
    let e2 ← m0.deref entity2
    if e2.m_type = EntityType.BUTTON ∨ e2.m_type = EntityType.LEVER then
      m0.linkPair entity2 entity1
    else some m0
  else some m0

/-! ## Action records and the actors (`GameCommon.hpp`, `HandController`, `Player`) -/

/-- Embeds `enum class ActionType`. -/
inductive ActionType where
  | NONE | CREATE | TRANSLATE | ROTATE | SCALE | CLONE | SELECT | LINK | DELETE | NUM
deriving DecidableEq

/-- Embeds `struct Action`, with the default member initialisers of the source. -/
structure Action where
  m_actionType : ActionType := ActionType.NONE
  m_createdEntities : List Ptr := []
  m_createdEntityPositions : List Vec3 := []
  m_createdEntityOrientations : List EulerAngles := []
  m_createdEntityScales : List ℚ := []
  m_actionEntity : Ptr := 0
  m_actionEntityPreviousPosition : Vec3 := Vec3.ZERO
  m_actionEntityPreviousOrientation : EulerAngles := EulerAngles.ZERO
  m_actionEntityPreviousScale : ℚ := 1
  m_activator : Ptr := 0
  m_prevLinkedActivatable : EntityUID := EntityUID.INVALID
  m_activatable : Ptr := 0
  m_prevLinkedActivator : EntityUID := EntityUID.INVALID
deriving DecidableEq

/-- Embeds `enum class AxisLockDirection`. -/
inductive AxisLockDirection where
  | NONE | X | Y | Z | NUM
deriving DecidableEq

/-- Embeds `enum class XRHand` of the engine. -/
inductive XRHand where
  | NONE | LEFT | RIGHT
deriving DecidableEq

/-- The editing members of `HandController`.  A `std::stack` is a list whose head is
the top. -/
structure HandController where
  m_hand : XRHand := XRHand.NONE
  m_raycastPosition : Vec3 := Vec3.ZERO
  m_selectedEntityType : EntityType := EntityType.NONE
  m_entitySpawnStartPosition : Vec3 := Vec3.ZERO
  m_entitySpawnEndPosition : Vec3 := Vec3.ZERO
  m_hoveredEntity : Ptr := 0
  m_selectedEntity : Ptr := 0
  m_selectedEntityPosition : Vec3 := Vec3.ZERO
  m_selectedEntityOrientation : EulerAngles := EulerAngles.ZERO
  m_selectedEntityScale : ℚ := 1
  m_axisLockDirection : AxisLockDirection := AxisLockDirection.NONE
  m_isResponsibleForScaling : Bool := false
  m_undoActionStack : List Action := []
  m_redoActionStack : List Action := []
  m_actionState : ActionType := ActionType.NONE
deriving DecidableEq

/-- The editing members of `Player` (the mouse and keyboard actor), with the two hand
controllers it owns. -/
structure Player where
  m_leftController : HandController := { m_hand := XRHand.LEFT }
  m_rightController : HandController := { m_hand := XRHand.RIGHT }
  m_linkingEntity : Ptr := 0
  m_selectedEntityType : EntityType := EntityType.NONE
  m_hoveredEntity : Ptr := 0
  m_selectedEntity : Ptr := 0
  m_selectedEntityPosition : Vec3 := Vec3.ZERO
  m_selectedEntityOrientation : EulerAngles := EulerAngles.ZERO
  m_selectedEntityScale : ℚ := 1
  m_raycastPosition : Vec3 := Vec3.ZERO
  m_axisLockDirection : AxisLockDirection := AxisLockDirection.NONE
  m_entitySpawnStartPosition : Vec3 := Vec3.ZERO
  m_entitySpawnEndPosition : Vec3 := Vec3.ZERO
  m_mouseActionState : ActionType := ActionType.NONE
  m_undoActionStack : List Action := []
  m_redoActionStack : List Action := []
deriving DecidableEq

/-! ### Undo -/

/-- One round of the `CREATE` case of `UndoLastAction`: the entity's pointer and
its current transform are appended to the redo record, then the entity is removed. -/
def undoCreateStep (entity : Ptr) (redoAction : Action) (m : Map) : Option (Action × Map) :=
  match m.deref entity with
  | none => none
  | some e =>
    let redo1 : Action :=
      { redoAction with
        m_createdEntities := redoAction.m_createdEntities ++ [entity],
        m_createdEntityPositions := redoAction.m_createdEntityPositions ++ [e.m_position],
        m_createdEntityOrientations :=
          redoAction.m_createdEntityOrientations ++ [e.m_orientation],
        m_createdEntityScales := redoAction.m_createdEntityScales ++ [e.m_scale] }
    (m.RemoveEntityFromMap entity).map (fun r => (redo1, r.1))

/-- The `for` loop of the `CREATE` case of `UndoLastAction`. -/
def undoCreateLoop : List Ptr → Action → Map → Option (Action × Map)
  | [], redoAction, m => some (redoAction, m)
  | entity :: rest, redoAction, m =>
    match undoCreateStep entity redoAction m with
    | none => none
    | some r => undoCreateLoop rest r.1 r.2

/-- The cases `TRANSLATE`, `ROTATE`, `SCALE`, `CREATE`, `CLONE` and `DELETE` of the
`switch` in `UndoLastAction`, whose text is the same in `HandController.cpp` and in
`Player.cpp`.  The result is the record pushed onto the redo stack, if the kind has a
case at all, and the map afterwards. -/
def undoSwitch (lastAction : Action) (m : Map) : Option (Option Action × Map) :=
  match lastAction.m_actionType with
  | ActionType.TRANSLATE =>
    match m.deref lastAction.m_actionEntity with
    | none => none
    | some e =>
      let redoAction : Action :=
        { m_actionType := ActionType.TRANSLATE,
          m_actionEntity := lastAction.m_actionEntity,
          m_actionEntityPreviousPosition := e.m_position }
      (m.modify lastAction.m_actionEntity
          (fun x => { x with m_position := lastAction.m_actionEntityPreviousPosition })).map
        (fun m1 => (some redoAction, m1))
  | ActionType.ROTATE =>
    match m.deref lastAction.m_actionEntity with
    | none => none
    | some e =>
      let redoAction : Action :=
        { m_actionType := ActionType.ROTATE,
          m_actionEntity := lastAction.m_actionEntity,
          m_actionEntityPreviousOrientation := e.m_orientation }
      (m.modify lastAction.m_actionEntity
          (fun x =>
            { x with m_orientation := lastAction.m_actionEntityPreviousOrientation })).map
        (fun m1 => (some redoAction, m1))
  | ActionType.SCALE =>
    match m.deref lastAction.m_actionEntity with
    | none => none
    | some e =>
      let redoAction : Action :=
        { m_actionType := ActionType.SCALE,
          m_actionEntity := lastAction.m_actionEntity,
          m_actionEntityPreviousScale := e.m_scale }
      (m.modify lastAction.m_actionEntity
          (fun x => { x with m_scale := lastAction.m_actionEntityPreviousScale })).map
        (fun m1 => (some redoAction, m1))
  | ActionType.CREATE =>
    let redoAction : Action := { m_actionType := ActionType.DELETE }
    if lastAction.m_createdEntities.isEmpty then
      (undoCreateStep lastAction.m_actionEntity redoAction m).map
        (fun r => (some r.1, r.2))
    else
      (undoCreateLoop lastAction.m_createdEntities redoAction m).map
        (fun r => (some r.1, r.2))
  | ActionType.CLONE =>
    match m.deref lastAction.m_actionEntity with
    | none => none
    | some e =>
      let redoAction : Action :=
        { m_actionType := ActionType.DELETE,
          m_actionEntity := lastAction.m_actionEntity,
          m_actionEntityPreviousPosition := e.m_position,
          m_actionEntityPreviousOrientation := e.m_orientation,
          m_actionEntityPreviousScale := e.m_scale }
      (m.RemoveEntityFromMap lastAction.m_actionEntity).map
        (fun r => (some redoAction, r.1))
  | ActionType.DELETE =>
    match m.deref lastAction.m_actionEntity with
    | none => none
    | some e =>
      (m.SpawnNewEntityOfType e.m_type lastAction.m_actionEntityPreviousPosition
          lastAction.m_actionEntityPreviousOrientation
          lastAction.m_actionEntityPreviousScale).map
        (fun r =>
          (some { m_actionType := ActionType.CREATE, m_actionEntity := r.2 }, r.1))
  | _ => some (none, m)

/-- The redo stack after the `switch`: one record pushed, or none. -/
def pushRecord (record : Option Action) (stack : List Action) : List Action :=
  match record with
  | none => stack
  | some a => a :: stack

/-- Embeds `HandController::UndoLastAction`.  Its `switch` has no `LINK` case. -/
def HandController.UndoLastAction (h : HandController) (m : Map) :
    Option (HandController × Map) :=
  match h.m_undoActionStack with
  | [] => some (h, m)
  | lastAction :: rest =>
    (undoSwitch lastAction m).map (fun r =>
      ({ h with m_undoActionStack := rest,
                m_redoActionStack := pushRecord r.1 h.m_redoActionStack }, r.2))

/-- The `LINK` case of `Player::UndoLastAction`. -/
def undoLink (lastAction : Action) (m : Map) : Option (Action × Map) := do
  let activator ← m.deref lastAction.m_activator
  let activatable ← m.deref lastAction.m_activatable
  let redoAction : Action :=
    { m_actionType := ActionType.LINK,
      m_activator := lastAction.m_activator,
      m_activatable := lastAction.m_activatable,
      m_prevLinkedActivatable := activator.m_activatableUID,
      m_prevLinkedActivator := activatable.m_activatorUID }
  let m1 ← m.modify lastAction.m_activator
    (fun x => { x with m_activatableUID := lastAction.m_prevLinkedActivatable })
  let m2 ← m1.modify lastAction.m_activatable
    (fun x => { x with m_activatorUID := lastAction.m_prevLinkedActivator })
  pure (redoAction, m2)

/-- Embeds `Player::UndoLastAction`. -/
def Player.UndoLastAction (p : Player) (m : Map) : Option (Player × Map) :=
  match p.m_undoActionStack with
  | [] => some (p, m)
  | lastAction :: rest =>
    match lastAction.m_actionType with
    | ActionType.LINK =>
      (undoLink lastAction m).map (fun r =>
        ({ p with m_undoActionStack := rest,
                  m_redoActionStack := r.1 :: p.m_redoActionStack }, r.2))
    | _ =>
      (undoSwitch lastAction m).map (fun r =>
        ({ p with m_undoActionStack := rest,
                  m_redoActionStack := pushRecord r.1 p.m_redoActionStack }, r.2))

/-! ### Redo -/

/-- The `for` loop of the `CREATE` case of `RedoLastAction`.  `Player.cpp` follows
`RemoveEntityFromMap(entity)` by `delete entity`; `HandController.cpp` does not. -/
def redoCreateLoop (deleteAfterRemove : Bool) : List Ptr → Map → Option Map
  | [], m => some m
  | entity :: rest, m =>
    match m.RemoveEntityFromMap entity with
    | none => none
    | some r =>
      if deleteAfterRemove then
        match r.1.delete entity with
        | none => none
        | some m1 => redoCreateLoop deleteAfterRemove rest m1
      else redoCreateLoop deleteAfterRemove rest r.1

/-- The `for` loop of the `DELETE` case of `RedoLastAction`: the kind is read
through the recorded pointer, the transform from the parallel vectors. -/
def redoDeleteLoop :
    List Ptr → List Vec3 → List EulerAngles → List ℚ → Map → Option Map
  | [], _, _, _, m => some m
  | entity :: es, position :: ps, orientation :: os, scale :: ss, m =>
    match m.deref entity with
    | none => none
    | some e =>
      match m.SpawnNewEntityOfType e.m_type position orientation scale with
      | none => none
      | some r => redoDeleteLoop es ps os ss r.1
  | _ :: _, _, _, _, _ => none

/-- The cases `TRANSLATE`, `ROTATE`, `SCALE`, `CREATE`, `CLONE` and `DELETE` of the
`switch` in `RedoLastAction`; `deleteAfterRemove` is true for `Player.cpp`. -/
def redoSwitch (deleteAfterRemove : Bool) (lastAction : Action) (m : Map) : Option Map :=
  match lastAction.m_actionType with
  | ActionType.TRANSLATE =>
    m.modify lastAction.m_actionEntity
      (fun x => { x with m_position := lastAction.m_actionEntityPreviousPosition })
  | ActionType.ROTATE =>
    m.modify lastAction.m_actionEntity
      (fun x => { x with m_orientation := lastAction.m_actionEntityPreviousOrientation })
  | ActionType.SCALE =>
    m.modify lastAction.m_actionEntity
      (fun x => { x with m_scale := lastAction.m_actionEntityPreviousScale })
  | ActionType.CREATE =>
    if lastAction.m_createdEntities.isEmpty then
      redoCreateLoop deleteAfterRemove [lastAction.m_actionEntity] m
    else
      redoCreateLoop deleteAfterRemove lastAction.m_createdEntities m
  | ActionType.CLONE =>
    (m.RemoveEntityFromMap lastAction.m_actionEntity).map Prod.fst
  | ActionType.DELETE =>
    if lastAction.m_createdEntities.isEmpty then
      match m.deref lastAction.m_actionEntity with
      | none => none
      | some e =>
        (m.SpawnNewEntityOfType e.m_type lastAction.m_actionEntityPreviousPosition
            lastAction.m_actionEntityPreviousOrientation
            lastAction.m_actionEntityPreviousScale).map Prod.fst
    else
      redoDeleteLoop lastAction.m_createdEntities lastAction.m_createdEntityPositions
        lastAction.m_createdEntityOrientations lastAction.m_createdEntityScales m
  | _ => some m

/-- Embeds `HandController::RedoLastAction`. -/
def HandController.RedoLastAction (h : HandController) (m : Map) :
    Option (HandController × Map) :=
  match h.m_redoActionStack with
  | [] => some (h, m)
  | lastAction :: rest =>
    (redoSwitch false lastAction m).map (fun m1 => ({ h with m_redoActionStack := rest }, m1))

/-- The `LINK` case of `Player::RedoLastAction`. -/
def redoLink (lastAction : Action) (m : Map) : Option Map := do
  let m1 ← m.modify lastAction.m_activator
    (fun x => { x with m_activatableUID := lastAction.m_prevLinkedActivatable })
  m1.modify lastAction.m_activatable
    (fun x => { x with m_activatorUID := lastAction.m_prevLinkedActivator })

/-- Embeds `Player::RedoLastAction`. -/
def Player.RedoLastAction (p : Player) (m : Map) : Option (Player × Map) :=
  match p.m_redoActionStack with
  | [] => some (p, m)
  | lastAction :: rest =>
    match lastAction.m_actionType with
    | ActionType.LINK =>
      (redoLink lastAction m).map (fun m1 => ({ p with m_redoActionStack := rest }, m1))
    | _ =>
      (redoSwitch true lastAction m).map
        (fun m1 => ({ p with m_redoActionStack := rest }, m1))

/-! ### The gestures that push records -/

/-- The cast `(int)x` of a `float`: truncation towards zero. -/
def truncToInt (q : ℚ) : Int := if 0 ≤ q then Rat.floor q else -Rat.floor (-q)

/-- The cells visited by the three nested `for` loops of `SpawnEntities`, in order. -/
def spawnCells (a b : Vec3) : List Vec3 :=
  (intRange (truncToInt (min a.x b.x)) (truncToInt (max a.x b.x))).flatMap (fun xPos =>
    (intRange (truncToInt (min a.y b.y)) (truncToInt (max a.y b.y))).flatMap (fun yPos =>
      (intRange (truncToInt (min a.z b.z)) (truncToInt (max a.z b.z))).map (fun zPos =>
        (⟨xPos, yPos, zPos⟩ : Vec3))))

/-- The innermost statement of `SpawnEntities`, run over the cells: an entity is
spawned with no rotation and scale `1`, and the pointer returned is recorded. -/
def spawnLoop (type : EntityType) : List Vec3 → Action → Map → Option (Action × Map)
  | [], spawnAction, m => some (spawnAction, m)
  | cell :: rest, spawnAction, m =>
    match m.SpawnNewEntityOfType type cell EulerAngles.ZERO 1 with
    | none => none
    | some r =>
      spawnLoop type rest
        { spawnAction with m_createdEntities := spawnAction.m_createdEntities ++ [r.2] } r.1

/-- Embeds `HandController::SpawnEntities`. -/
def HandController.SpawnEntities (h : HandController) (m : Map) :
    Option (HandController × Map) :=
  if h.m_selectedEntityType = EntityType.NONE then some (h, m)
  else
    (spawnLoop h.m_selectedEntityType
        (spawnCells h.m_entitySpawnStartPosition h.m_entitySpawnEndPosition)
        { m_actionType := ActionType.CREATE } m).map
      (fun r =>
        ({ h with m_undoActionStack := r.1 :: h.m_undoActionStack,
                  m_selectedEntity := 0,
                  m_selectedEntityType := EntityType.NONE,
                  m_entitySpawnStartPosition := h.m_raycastPosition,
                  m_entitySpawnEndPosition := h.m_raycastPosition },
         { r.2 with m_isUnsaved := true }))

/-- Embeds `Player::SpawnEntities`. -/
def Player.SpawnEntities (p : Player) (m : Map) : Option (Player × Map) :=
  if p.m_selectedEntityType = EntityType.NONE then some (p, m)
  else
    (spawnLoop p.m_selectedEntityType
        (spawnCells p.m_entitySpawnStartPosition p.m_entitySpawnEndPosition)
        { m_actionType := ActionType.CREATE } m).map
      (fun r =>
        ({ p with m_undoActionStack := r.1 :: p.m_undoActionStack,
                  m_selectedEntity := 0,
                  m_selectedEntityType := EntityType.NONE,
                  m_entitySpawnStartPosition := p.m_raycastPosition,
                  m_entitySpawnEndPosition := p.m_raycastPosition },
         { r.2 with m_isUnsaved := true }))

/-- The expression `EntityType(((int)m_selectedEntityType + 1) % (int)EntityType::NUM)`
of the create mode. -/
def EntityType.cycleNext : EntityType → EntityType
  | EntityType.NONE => EntityType.TILE_GRASS
  | EntityType.TILE_GRASS => EntityType.TILE_DIRT
  | EntityType.TILE_DIRT => EntityType.LEVER
  | EntityType.LEVER => EntityType.DOOR
  | EntityType.DOOR => EntityType.BUTTON
  | EntityType.BUTTON => EntityType.MOVING_PLATFORM
  | EntityType.MOVING_PLATFORM => EntityType.COIN
  | EntityType.COIN => EntityType.CRATE
  | EntityType.CRATE => EntityType.ENEMY_ORC
  | EntityType.ENEMY_ORC => EntityType.FLAG
  | EntityType.FLAG => EntityType.NONE
  | EntityType.NUM => EntityType.TILE_GRASS

/-- The block of `HandController::HandleCreateInput` run when the select button was
just pressed: the next kind is chosen and a preview entity of it is created (not
stored in the collection). -/
def HandController.HandleCreateInput_selectButton (h : HandController) (m : Map) :
    HandController × Map :=
  let type := h.m_selectedEntityType.cycleNext
  let r := m.CreateEntityOfType type Vec3.ZERO EulerAngles.ZERO 1
  ({ h with m_selectedEntityType := type, m_selectedEntity := r.2 }, r.1)

/-- The block of `Player::HandleKeyboardMouseEditing_Create` run when the key `E` was
just pressed: the next kind is chosen and a preview entity of it is created. -/
def Player.HandleKeyboardMouseEditing_Create_keyE (p : Player) (m : Map) : Player × Map :=
  let type := p.m_selectedEntityType.cycleNext
  let r := m.CreateEntityOfType type Vec3.ZERO EulerAngles.ZERO 1
  ({ p with m_selectedEntityType := type, m_selectedEntity := r.2 }, r.1)

/-- The record built by the delete gesture for `entity`. -/
def deleteRecord (entity : Ptr) (e : Entity) : Action :=
  { m_actionType := ActionType.DELETE,
    m_actionEntity := entity,
    m_actionEntityPreviousPosition := e.m_position,
    m_actionEntityPreviousOrientation := e.m_orientation,
    m_actionEntityPreviousScale := e.m_scale }

/-- The block of `HandController::HandleEditInput` run when the back button was just
pressed: the delete gesture, first on the selected and then on the hovered entity. -/
def HandController.HandleEditInput_backButton (h : HandController) (m : Map) :
    Option (HandController × Map) :=
  if h.m_actionState = ActionType.NONE ∨ h.m_actionState = ActionType.SELECT then do
    let (h1, m1) ←
      if h.m_selectedEntity ≠ 0 then do
        let e ← m.deref h.m_selectedEntity
        let r ← ({ m with m_isUnsaved := true } : Map).RemoveEntityFromMap h.m_selectedEntity
        pure
          ({ h with m_undoActionStack := deleteRecord h.m_selectedEntity e :: h.m_undoActionStack,
                    m_selectedEntity := 0,
                    m_selectedEntityPosition := Vec3.ZERO,
                    m_selectedEntityOrientation := EulerAngles.ZERO,
                    m_selectedEntityScale := 1,
                    m_actionState := ActionType.NONE }, r.1)
      else pure (h, m)
    if h1.m_hoveredEntity ≠ 0 then do
      let e ← m1.deref h1.m_hoveredEntity
      let r ← ({ m1 with m_isUnsaved := true } : Map).RemoveEntityFromMap h1.m_hoveredEntity
      pure
        ({ h1 with m_undoActionStack :=
                     deleteRecord h1.m_hoveredEntity e :: h1.m_undoActionStack }, r.1)
    else pure (h1, m1)
  else some (h, m)

/-- The block of `Player::HandleKeyboardMouseEditing_Edit` run when the delete key was
just pressed: the delete gesture on the selected entity, else on the hovered one. -/
def Player.HandleKeyboardMouseEditing_Edit_deleteKey (p : Player) (m : Map) :
    Option (Player × Map) :=
  if p.m_mouseActionState = ActionType.NONE ∨ p.m_mouseActionState = ActionType.SELECT then
    if p.m_selectedEntity ≠ 0 then do
      let e ← m.deref p.m_selectedEntity
      let r ← ({ m with m_isUnsaved := true } : Map).RemoveEntityFromMap p.m_selectedEntity
      pure
        ({ p with m_undoActionStack := deleteRecord p.m_selectedEntity e :: p.m_undoActionStack,
                  m_selectedEntity := 0,
                  m_selectedEntityPosition := Vec3.ZERO,
                  m_selectedEntityOrientation := EulerAngles.ZERO,
                  m_selectedEntityScale := 1,
                  m_mouseActionState := ActionType.NONE }, r.1)
    else if p.m_hoveredEntity ≠ 0 then do
      let e ← m.deref p.m_hoveredEntity
      let r ← ({ m with m_isUnsaved := true } : Map).RemoveEntityFromMap p.m_hoveredEntity
      pure
        ({ p with m_undoActionStack :=
                    deleteRecord p.m_hoveredEntity e :: p.m_undoActionStack }, r.1)
    else some (p, m)
  else some (p, m)

/-- The two pointers `activator` and `activatable` computed at the head of the link
pick from the kinds of the selected and of the hovered entity. -/
def linkRoles (selectedEntity : Ptr) (selectedType : EntityType) (hoveredEntity : Ptr)
    (hoveredType : EntityType) : Ptr × Ptr :=
  let activator0 : Ptr := if selectedType.isActivator then selectedEntity else 0
  let activator : Ptr := if hoveredType.isActivator then hoveredEntity else activator0
  let activatable0 : Ptr := if selectedType.isActivatable then selectedEntity else 0
  let activatable : Ptr := if hoveredType.isActivatable then hoveredEntity else activatable0
  (activator, activatable)

/-- The block of `Player::HandleKeyboardMouseEditing_Edit` run when the space key was
just pressed: toggle-select, or the pick that completes a link. -/
def Player.HandleKeyboardMouseEditing_Edit_spaceKey (p : Player) (m : Map) :
    Option (Player × Map) :=
  if p.m_mouseActionState = ActionType.NONE ∧ p.m_hoveredEntity ≠ 0 then
    (m.SetSelectedEntity p.m_hoveredEntity).map (fun m1 =>
      ({ p with m_mouseActionState := ActionType.SELECT,
                m_selectedEntity := p.m_hoveredEntity }, m1))
  else if p.m_selectedEntity ≠ 0 ∧ p.m_mouseActionState = ActionType.SELECT then
    (m.SetSelectedEntity 0).map (fun m1 =>
      ({ p with m_selectedEntity := 0, m_mouseActionState := ActionType.NONE }, m1))
  else if p.m_selectedEntity ≠ 0 ∧ p.m_hoveredEntity ≠ 0 ∧
      p.m_mouseActionState = ActionType.LINK then do
    let selected ← m.deref p.m_selectedEntity
    let hovered ← m.deref p.m_hoveredEntity
    let roles := linkRoles p.m_selectedEntity selected.m_type p.m_hoveredEntity hovered.m_type
    let (stack, m1) ←
      if roles.2 ≠ 0 ∧ roles.1 ≠ 0 then do
        let activator ← m.deref roles.1
        let activatable ← m.deref roles.2
        let linkAction : Action :=
          { m_actionType := ActionType.LINK,
            m_activator := roles.1,
            m_prevLinkedActivatable := activator.m_activatableUID,
            m_activatable := roles.2,
            m_prevLinkedActivator := activatable.m_activatorUID }
        pure (linkAction :: p.m_undoActionStack, ({ m with m_isUnsaved := true } : Map))
      else pure (p.m_undoActionStack, m)
    let m2 ← m1.LinkEntities p.m_hoveredEntity p.m_selectedEntity
    let m3 ← m2.SetSelectedEntity 0
    pure
      ({ p with m_undoActionStack := stack,
                m_linkingEntity := 0,
                m_selectedEntity := 0,
                m_mouseActionState := ActionType.NONE,
                m_leftController :=
                  { p.m_leftController with m_selectedEntity := 0,
                                            m_actionState := ActionType.NONE },
                m_rightController :=
                  { p.m_rightController with m_selectedEntity := 0,
                                             m_actionState := ActionType.NONE } }, m3)
  else some (p, m)

/-- Embeds `Player::Event_LinkEntity` on the handle carried by the event; the Boolean is
the value returned to the event system. -/
def Player.Event_LinkEntity (p : Player) (m : Map) (entityUID : Nat) :
    Option (Player × Map × Bool) :=
  if entityUID = ENTITYUID_INVALID then some (p, m, false)
  else do
    let linkingEntity ← m.GetEntityFromUID ⟨entityUID⟩
    if linkingEntity = 0 then pure (p, m, false)
    else do
      let e ← m.deref linkingEntity
      let m1 ←
        if e.m_type = EntityType.LEVER ∨ e.m_type = EntityType.BUTTON then
          m.TogglePulseActivatables
        else if e.m_type = EntityType.DOOR ∨ e.m_type = EntityType.MOVING_PLATFORM then
          m.TogglePulseActivators
        else some m
      pure
        ({ p with m_linkingEntity := linkingEntity,
                  m_mouseActionState := ActionType.LINK,
                  m_leftController :=
                    { p.m_leftController with m_actionState := ActionType.LINK },
                  m_rightController :=
                    { p.m_rightController with m_actionState := ActionType.LINK } },
         m1, true)

/-- Embeds `HandController::GetOtherHandController`, as the hand whose controller it returns;
for a controller of neither hand the source returns `nullptr`. -/
def XRHand.other : XRHand → XRHand
  | XRHand.LEFT => XRHand.RIGHT
  | XRHand.RIGHT => XRHand.LEFT
  | XRHand.NONE => XRHand.NONE

/-- The controller object of a hand, `none` where the source has `nullptr`. -/
def Player.getController (p : Player) : XRHand → Option HandController
  | XRHand.LEFT => some p.m_leftController
  | XRHand.RIGHT => some p.m_rightController
  | XRHand.NONE => none

/-- Stores the state of the controller object of a hand. -/
def Player.setController (p : Player) (hand : XRHand) (h : HandController) : Player :=
  match hand with
  | XRHand.LEFT => { p with m_leftController := h }
  | XRHand.RIGHT => { p with m_rightController := h }
  | XRHand.NONE => p

/-- The block of `HandController::HandleEditInput` run by the controller of `hand`
when its grip was just pressed: a two-handed scale is started when the other hand is
translating the hovered entity, and otherwise a hovered entity is grabbed. -/
def Player.HandleEditInput_gripPressed (p : Player) (hand : XRHand) (m : Map) :
    Option (Player × Map) := do
  let this ← p.getController hand
  let otherController ← p.getController hand.other
  let (this1, other1, m1) ←
    if otherController.m_actionState = ActionType.TRANSLATE ∧
        this.m_hoveredEntity = otherController.m_selectedEntity then do
      let hovered ← m.deref this.m_hoveredEntity
      let scaleAction : Action :=
        { m_actionType := ActionType.SCALE,
          m_actionEntity := this.m_hoveredEntity,
          m_actionEntityPreviousPosition := hovered.m_position,
          m_actionEntityPreviousOrientation := hovered.m_orientation,
          m_actionEntityPreviousScale := hovered.m_scale }
      pure
        ({ this with m_actionState := ActionType.SCALE,
                     m_selectedEntityType := hovered.m_type,
                     m_selectedEntityPosition := hovered.m_position,
                     m_selectedEntityOrientation := hovered.m_orientation,
                     m_selectedEntityScale := hovered.m_scale,
                     m_selectedEntity := this.m_hoveredEntity,
                     m_undoActionStack := scaleAction :: this.m_undoActionStack,
                     m_isResponsibleForScaling := true },
         { otherController with m_actionState := ActionType.SCALE },
         ({ m with m_isUnsaved := true } : Map))
    else pure (this, otherController, m)
  let (this2, m2) ←
    if (this1.m_actionState = ActionType.NONE ∨ this1.m_actionState = ActionType.SELECT) ∧
        this1.m_hoveredEntity ≠ 0 then do
      let hovered ← m1.deref this1.m_hoveredEntity
      let translateAction : Action :=
        { m_actionType := ActionType.TRANSLATE,
          m_actionEntity := this1.m_hoveredEntity,
          m_actionEntityPreviousPosition := hovered.m_position }
      pure
        ({ this1 with m_actionState := ActionType.TRANSLATE,
                      m_selectedEntityType := hovered.m_type,
                      m_selectedEntityPosition := hovered.m_position,
                      m_selectedEntityOrientation := hovered.m_orientation,
                      m_selectedEntityScale := hovered.m_scale,
                      m_selectedEntity := this1.m_hoveredEntity,
                      m_undoActionStack := translateAction :: this1.m_undoActionStack },
         ({ m1 with m_isUnsaved := true } : Map))
    else pure (this1, m1)
  pure ((p.setController hand.other other1).setController hand this2, m2)

/-- The block of `HandController::HandleEditInput` run by the controller of `hand`
when its select button was just pressed: leaving the selection, or the pick that
completes a link; afterwards a hovered entity becomes the selection. -/
def Player.HandleEditInput_selectButton (p : Player) (hand : XRHand) (m : Map) :
    Option (Player × Map) := do
  let this ← p.getController hand
  let (p1, m1) ←
    if this.m_selectedEntity ≠ 0 ∧ this.m_actionState = ActionType.SELECT then do
      let m1 ← m.SetSelectedEntity this.m_hoveredEntity
      pure
        (p.setController hand
          { this with m_actionState := ActionType.NONE, m_selectedEntity := 0 }, m1)
    else if this.m_actionState = ActionType.LINK then do
      let hovered ← m.deref this.m_hoveredEntity
      let roles :=
        linkRoles this.m_selectedEntity this.m_selectedEntityType this.m_hoveredEntity
          hovered.m_type
      let (stack, m1) ←
        if roles.2 ≠ 0 ∧ roles.1 ≠ 0 then do
          let activator ← m.deref roles.1
          let activatable ← m.deref roles.2
          let linkAction : Action :=
            { m_actionType := ActionType.LINK,
              m_activator := roles.1,
              m_prevLinkedActivatable := activator.m_activatableUID,
              m_activatable := roles.2,
              m_prevLinkedActivator := activatable.m_activatorUID }
          pure (linkAction :: this.m_undoActionStack, ({ m with m_isUnsaved := true } : Map))
        else pure (this.m_undoActionStack, m)
      let m2 ← m1.LinkEntities this.m_hoveredEntity this.m_selectedEntity
      let otherController ← p.getController hand.other
      let m3 ← m2.SetSelectedEntity 0
      let p1 : Player :=
        { p with m_linkingEntity := 0, m_selectedEntity := 0,
                 m_mouseActionState := ActionType.NONE }
      pure
        ((p1.setController hand.other
            { otherController with m_selectedEntity := 0,
                                   m_actionState := ActionType.NONE }).setController hand
            { this with m_undoActionStack := stack, m_selectedEntity := 0,
                        m_actionState := ActionType.NONE }, m3)
    else pure (p, m)
  let this1 ← p1.getController hand
  if this1.m_hoveredEntity ≠ 0 then do
    let m2 ← m1.SetSelectedEntity this1.m_hoveredEntity
    pure
      (p1.setController hand
        { this1 with m_actionState := ActionType.SELECT,
                     m_selectedEntity := this1.m_hoveredEntity }, m2)
  else pure (p1, m1)

/-- Embeds `HandController::UndoLastAction` run by the controller of `hand`. -/
def Player.handUndoLastAction (p : Player) (hand : XRHand) (m : Map) :
    Option (Player × Map) := do
  let this ← p.getController hand
  let r ← this.UndoLastAction m
  pure (p.setController hand r.1, r.2)

/-- Embeds `HandController::RedoLastAction` run by the controller of `hand`. -/
def Player.handRedoLastAction (p : Player) (hand : XRHand) (m : Map) :
    Option (Player × Map) := do
  let this ← p.getController hand
  let r ← this.RedoLastAction m
  pure (p.setController hand r.1, r.2)

/-! ### More gestures of the edit mode -/

/-- The block of `HandController::HandleEditInput` run when the trigger was just
pressed: the clone gesture on the hovered entity, or the change from translating to
rotating. -/
def HandController.HandleEditInput_triggerPressed (h : HandController) (m : Map) :
    Option (HandController × Map) :=
  if h.m_actionState = ActionType.NONE ∨ h.m_actionState = ActionType.SELECT then
    if h.m_hoveredEntity ≠ 0 then do
      let hovered ← m.deref h.m_hoveredEntity
      let r ← m.SpawnNewEntityOfType hovered.m_type hovered.m_position hovered.m_orientation
        hovered.m_scale
      let cloneAction : Action := { m_actionType := ActionType.CLONE, m_actionEntity := r.2 }
      pure
        ({ h with m_actionState := ActionType.CLONE,
                  m_selectedEntityType := hovered.m_type,
                  m_selectedEntityPosition := hovered.m_position,
                  m_selectedEntityOrientation := hovered.m_orientation,
                  m_selectedEntityScale := hovered.m_scale,
                  m_selectedEntity := r.2,
                  m_undoActionStack := cloneAction :: h.m_undoActionStack },
         ({ r.1 with m_isUnsaved := true } : Map))
    else some (h, m)
  else if h.m_actionState = ActionType.TRANSLATE then do
    let selected ← m.deref h.m_selectedEntity
    let rotateAction : Action :=
      { m_actionType := ActionType.ROTATE,
        m_actionEntity := h.m_selectedEntity,
        m_actionEntityPreviousOrientation := selected.m_orientation }
    pure
      ({ h with m_actionState := ActionType.ROTATE,
                m_undoActionStack := rotateAction :: h.m_undoActionStack },
       ({ m with m_isUnsaved := true } : Map))
  else some (h, m)

/-- The two blocks of `Player::HandleKeyboardMouseEditing_Edit` run when the left mouse
button was just pressed: the grab gesture without the left `Alt` key, the clone
gesture with it. -/
def Player.HandleKeyboardMouseEditing_Edit_LMBPressed (p : Player) (altDown : Bool) (m : Map) :
    Option (Player × Map) :=
  if p.m_mouseActionState = ActionType.NONE ∨ p.m_mouseActionState = ActionType.SELECT then
    if p.m_hoveredEntity ≠ 0 then do
      let hovered ← m.deref p.m_hoveredEntity
      if altDown = false then
        let translateAction : Action :=
          { m_actionType := ActionType.TRANSLATE,
            m_actionEntity := p.m_hoveredEntity,
            m_actionEntityPreviousPosition := hovered.m_position }
        pure
          ({ p with m_mouseActionState := ActionType.TRANSLATE,
                    m_selectedEntityType := hovered.m_type,
                    m_selectedEntityPosition := hovered.m_position,
                    m_selectedEntityOrientation := hovered.m_orientation,
                    m_selectedEntityScale := hovered.m_scale,
                    m_selectedEntity := p.m_hoveredEntity,
                    m_undoActionStack := translateAction :: p.m_undoActionStack },
           ({ m with m_isUnsaved := true } : Map))
      else do
        let r ← m.SpawnNewEntityOfType hovered.m_type hovered.m_position hovered.m_orientation
          hovered.m_scale
        let cloneAction : Action := { m_actionType := ActionType.CLONE, m_actionEntity := r.2 }
        pure
          ({ p with m_mouseActionState := ActionType.CLONE,
                    m_selectedEntityType := hovered.m_type,
                    m_selectedEntityPosition := hovered.m_position,
                    m_selectedEntityOrientation := hovered.m_orientation,
                    m_selectedEntityScale := hovered.m_scale,
                    m_selectedEntity := r.2,
                    m_undoActionStack := cloneAction :: p.m_undoActionStack },
           ({ r.1 with m_isUnsaved := true } : Map))
    else some (p, m)
  else some (p, m)

/-- The block of `Player::HandleKeyboardMouseEditing_Edit` run when the left mouse button
was just released. -/
def Player.HandleKeyboardMouseEditing_Edit_LMBReleased (p : Player) (m : Map) :
    Option (Player × Map) :=
  if p.m_mouseActionState = ActionType.TRANSLATE ∨ p.m_mouseActionState = ActionType.CLONE then
    (m.SetSelectedEntity 0).map (fun m1 =>
      ({ p with m_selectedEntityType := EntityType.NONE, m_selectedEntity := 0,
                m_mouseActionState := ActionType.NONE }, m1))
  else some (p, m)

/-- The record `scaleAction` built by the arrow keys for `entity`. -/
def scaleKeyRecord (entity : Ptr) (e : Entity) : Action :=
  { m_actionType := ActionType.SCALE,
    m_actionEntity := entity,
    m_actionEntityPreviousPosition := e.m_position,
    m_actionEntityPreviousOrientation := e.m_orientation,
    m_actionEntityPreviousScale := e.m_scale }

/-- One of the `if` bodies of the arrow-key blocks: a Scale record for `entity` is
pushed and `step` is added to its scale. -/
def Player.scaleBy (p : Player) (m : Map) (entity : Ptr) (step : ℚ) : Option (Player × Map) := do
  let e ← m.deref entity
  let m1 ← ({ m with m_isUnsaved := true } : Map).modify entity
    (fun x => { x with m_scale := x.m_scale + step })
  pure ({ p with m_undoActionStack := scaleKeyRecord entity e :: p.m_undoActionStack }, m1)

/-- The block of `Player::HandleKeyboardMouseEditing_Edit` run when the up arrow was just
pressed: `if (m_selectedEntity) ... else if (m_hoveredEntity) ...`. -/
def Player.HandleKeyboardMouseEditing_Edit_upArrow (p : Player) (m : Map) :
    Option (Player × Map) :=
  if p.m_selectedEntity ≠ 0 then p.scaleBy m p.m_selectedEntity (1 / 10)
  else if p.m_hoveredEntity ≠ 0 then p.scaleBy m p.m_hoveredEntity (1 / 10)
  else some (p, m)

/-- The block of `Player::HandleKeyboardMouseEditing_Edit` run when the down arrow was
just pressed: `if (m_selectedEntity) ...` followed by `if (m_hoveredEntity) ...`. -/
def Player.HandleKeyboardMouseEditing_Edit_downArrow (p : Player) (m : Map) :
    Option (Player × Map) := do
  let (p1, m1) ←
    if p.m_selectedEntity ≠ 0 then p.scaleBy m p.m_selectedEntity (-(1 / 10))
    else some (p, m)
  if p1.m_hoveredEntity ≠ 0 then p1.scaleBy m1 p1.m_hoveredEntity (-(1 / 10))
  else some (p1, m1)

/-- The statement of the grip-held block of `HandController::HandleEditInput` that
applies a two-handed scale: with a selected entity, in mode `SCALE` and with
`m_isResponsibleForScaling` set, the change `delta` of the distance between the two
hands since the last frame is added to the scale of the selected entity. -/
def HandController.HandleEditInput_gripHeld_scale (h : HandController) (m : Map) (delta : ℚ) :
    Option Map :=
  if h.m_selectedEntity ≠ 0 ∧ h.m_actionState = ActionType.SCALE ∧
      h.m_isResponsibleForScaling = true then
    m.modify h.m_selectedEntity (fun x => { x with m_scale := x.m_scale + delta })
  else some m

/-- The position `TranslateEntity` leaves in `entity->m_position`: one `if` per value of
the axis lock, none for `NUM`. -/
def translatedPosition (axisLock : AxisLockDirection) (position translation : Vec3) : Vec3 :=
  match axisLock with
  | AxisLockDirection.NONE => position.add translation
  | AxisLockDirection.X => position.add (Vec3.EAST.scale translation.x)
  | AxisLockDirection.Y => position.add (Vec3.NORTH.scale translation.y)
  | AxisLockDirection.Z => position.add (Vec3.SKYWARD.scale translation.z)
  | AxisLockDirection.NUM => position

/-- Embeds `HandController::TranslateEntity`; with the lock at `NUM` no branch is taken
and the entity is not touched. -/
def HandController.TranslateEntity (h : HandController) (m : Map) (entity : Ptr)
    (translation : Vec3) : Option Map :=
  if h.m_axisLockDirection = AxisLockDirection.NUM then some m
  else
    m.modify entity (fun e =>
      { e with m_position := translatedPosition h.m_axisLockDirection e.m_position translation })

/-- Embeds `Player::TranslateEntity`, the same text as for the hand controller. -/
def Player.TranslateEntity (p : Player) (m : Map) (entity : Ptr) (translation : Vec3) :
    Option Map :=
  if p.m_axisLockDirection = AxisLockDirection.NUM then some m
  else
    m.modify entity (fun e =>
      { e with m_position := translatedPosition p.m_axisLockDirection e.m_position translation })

/-- One of the three `if` blocks of `SnapEntityToGrid`: with the distance from the grid
on this axis below `0.1`, `snapDelta` is added to the coordinate and to the aim
sample. -/
def snapAxis (coordinate distanceFromGrid aim : ℚ) : ℚ × ℚ :=
  if fabsf distanceFromGrid < 1 / 10 then (coordinate + distanceFromGrid, aim + distanceFromGrid)
  else (coordinate, aim)

/-- The body of `SnapEntityToGrid` on the position of the entity and the aim sample
`controllerRaycast`: the result is the new position and the new aim sample. -/
def snappedToGrid (position controllerRaycast : Vec3) : Vec3 × Vec3 :=
  let entityPositionInt : Vec3 := ⟨roundf position.x, roundf position.y, roundf position.z⟩
  let entityDistanceFromGrid := entityPositionInt.sub position
  let sx := snapAxis position.x entityDistanceFromGrid.x controllerRaycast.x
  let sy := snapAxis position.y entityDistanceFromGrid.y controllerRaycast.y
  let sz := snapAxis position.z entityDistanceFromGrid.z controllerRaycast.z
  (⟨sx.1, sy.1, sz.1⟩, ⟨sx.2, sy.2, sz.2⟩)

/-- Embeds `HandController::SnapEntityToGrid`; the second component is the value left
in the reference argument `controllerRaycast`. -/
def HandController.SnapEntityToGrid (_h : HandController) (m : Map) (entity : Ptr)
    (controllerRaycast : Vec3) : Option (Map × Vec3) :=
  match m.deref entity with
  | none => none
  | some e =>
    (m.modify entity (fun x =>
        { x with m_position := (snappedToGrid x.m_position controllerRaycast).1 })).map
      (fun m1 => (m1, (snappedToGrid e.m_position controllerRaycast).2))

/-- Embeds `Player::SnapEntityToGrid`, the same text as for the hand controller. -/
def Player.SnapEntityToGrid (_p : Player) (m : Map) (entity : Ptr)
    (controllerRaycast : Vec3) : Option (Map × Vec3) :=
  match m.deref entity with
  | none => none
  | some e =>
    (m.modify entity (fun x =>
        { x with m_position := (snappedToGrid x.m_position controllerRaycast).1 })).map
      (fun m1 => (m1, (snappedToGrid e.m_position controllerRaycast).2))

/-- The block of `HandController::HandleEditInput` run by the controller of `hand`
when its grip was just released: a translation or rotation ends for this hand, a
two-handed scale ends for both hands. -/
def Player.HandleEditInput_gripReleased (p : Player) (hand : XRHand) (m : Map) :
    Option (Player × Map) := do
  let this ← p.getController hand
  if this.m_actionState = ActionType.TRANSLATE ∨ this.m_actionState = ActionType.ROTATE then do
    let m1 ← m.SetSelectedEntity 0
    pure
      (p.setController hand
        { this with m_selectedEntityType := EntityType.NONE, m_selectedEntity := 0,
                    m_actionState := ActionType.NONE }, m1)
  else if this.m_actionState = ActionType.SCALE then do
    let otherController ← p.getController hand.other
    let m1 ← m.SetSelectedEntity 0
    pure
      ((p.setController hand.other
          { otherController with m_actionState := ActionType.NONE,
                                 m_selectedEntityType := EntityType.NONE,
                                 m_selectedEntity := 0 }).setController hand
          { this with m_selectedEntityType := EntityType.NONE, m_selectedEntity := 0,
                      m_actionState := ActionType.NONE,
                      m_isResponsibleForScaling := false }, m1)
  else pure (p, m)

/-! ### The undo and redo gesture of the hands -/

/-- One call on the entity collection: `SpawnNewEntityOfType` with its arguments, or
`RemoveEntityFromMap` with its argument. -/
inductive MapCall where
  | spawn (type : EntityType) (position : Vec3) (orientation : EulerAngles) (scale : ℚ)
  | remove (entity : Ptr)

/-- The map after one call; the returned value of the call is dropped. -/
def Map.call (m : Map) : MapCall → Option Map
  | MapCall.spawn type position orientation scale =>
    (m.SpawnNewEntityOfType type position orientation scale).map Prod.fst
  | MapCall.remove entity => (m.RemoveEntityFromMap entity).map Prod.fst

/-- The map after a sequence of calls, made one after the other. -/
def Map.calls (m : Map) : List MapCall → Option Map
  | [] => some m
  | c :: cs =>
    match m.call c with
    | none => none
    | some m1 => m1.calls cs

/-- The number of `SpawnNewEntityOfType` calls in a sequence; each of them increments
the salt counter by one. -/
def spawnCount : List MapCall → Nat
  | [] => 0
  | MapCall.spawn _ _ _ _ :: cs => spawnCount cs + 1
  | MapCall.remove _ :: cs => spawnCount cs

/-- The state of the handles in a map: the collection has fewer slots than the salt
counter says handles were issued, the player start is alive and has the handle `0`,
and every occupied slot `i` holds a live entity whose handle was built from the index
`i` and a salt between `1` and the salt counter. -/
def Map.handlesInOrder (m : Map) : Prop :=
  m.m_entities.length < m.m_entityUIDSalt ∧
  (∃ ps, m.deref m.m_playerStart = some ps ∧ ps.m_uid = ⟨0⟩) ∧
  ∀ i, i < m.m_entities.length → m.m_entities.getD i 0 ≠ 0 →
    ∃ e s, m.deref (m.m_entities.getD i 0) = some e ∧
      e.m_uid = EntityUID.fromIndexSalt i s ∧ 1 ≤ s ∧ s < m.m_entityUIDSalt

/-! ### Well-formed links -/

/-- Whether the player start is alive and every non-null pointer of the collection
refers to a live entity that `GetEntityFromUID` returns for the handle of that
entity. -/
def Map.handlesResolve (m : Map) : Bool :=
  (m.deref m.m_playerStart).isSome &&
  m.m_entities.all (fun p =>
    p == 0 ||
      match m.deref p with
      | some e => m.GetEntityFromUID e.m_uid == some p
      | none => false)

/-- Whether the link of an activator `e` is answered: when its `m_activatableUID`
resolves to a live activatable, the `m_activatorUID` of that one is the handle of `e`. -/
def Map.activatorLinkAnswered (m : Map) (e : Entity) : Bool :=
  match m.activatableFromUID e.m_activatableUID with
  | some b =>
    match m.deref b with
    | some eb => eb.m_activatorUID.eq e.m_uid
    | none => true
  | none => true

/-- Whether the link of an activatable `e` is answered: when its `m_activatorUID`
resolves to a live activator, the `m_activatableUID` of that one is the handle of
`e`. -/
def Map.activatableLinkAnswered (m : Map) (e : Entity) : Bool :=
  match m.activatorFromUID e.m_activatorUID with
  | some a =>
    match m.deref a with
    | some ea => ea.m_activatableUID.eq e.m_uid
    | none => true
  | none => true

/-- Link reciprocity over the whole collection: the link of every activator and of
every activatable in it is answered. -/
def Map.linksReciprocal (m : Map) : Bool :=
  m.m_entities.all (fun p =>
    match m.deref p with
    | none => true
    | some e =>
      (!e.m_type.isActivator || m.activatorLinkAnswered e) &&
      (!e.m_type.isActivatable || m.activatableLinkAnswered e))

/-! ### Scenario helpers -/

/-- A hand controller in create mode places entities: the select button is pressed
`presses` times, which chooses the kind, the aim is dragged with the trigger held from
the origin to `(endX, 0, 0)`, and the trigger is released (`SpawnEntities`). -/
def handPlaces (h : HandController) (m : Map) (presses : Nat) (endX : ℚ) :
    Option (HandController × Map) :=
  let s := Nat.iterate (fun s => s.1.HandleCreateInput_selectButton s.2) presses (h, m)
  ({ s.1 with m_entitySpawnStartPosition := ⟨0, 0, 0⟩,
              m_entitySpawnEndPosition := ⟨endX, 0, 0⟩ } : HandController).SpawnEntities s.2

/-- The mouse and keyboard actor in create mode places one entity at `(x, 0, 0)`: the
key `E` is pressed `presses` times and the mouse button is released. -/
def mousePlaces (p : Player) (m : Map) (presses : Nat) (x : ℚ) : Option (Player × Map) :=
  let s := Nat.iterate (fun s => s.1.HandleKeyboardMouseEditing_Create_keyE s.2) presses (p, m)
  ({ s.1 with m_entitySpawnStartPosition := ⟨x, 0, 0⟩,
              m_entitySpawnEndPosition := ⟨x, 0, 0⟩ } : Player).SpawnEntities s.2

/-- The key `E` pressed `presses` times in create mode by the mouse and keyboard
actor. -/
def keyEPresses (presses : Nat) (s : Player × Map) : Player × Map :=
  Nat.iterate (fun s => s.1.HandleKeyboardMouseEditing_Create_keyE s.2) presses s

/-- The record `scaleAction` that the grip-pressed block builds for the hovered entity
when it starts a two-handed scale. -/
def scaleRecord (entity : Ptr) (x : Entity) : Action :=
  { m_actionType := ActionType.SCALE,
    m_actionEntity := entity,
    m_actionEntityPreviousPosition := x.m_position,
    m_actionEntityPreviousOrientation := x.m_orientation,
    m_actionEntityPreviousScale := x.m_scale }

/-- The player of the edit mode with both hands in mode `NONE`, the left hand hovering
`left` and the right hand hovering `right`. -/
def handsHovering (left right : Ptr) : Player :=
  { m_leftController := { m_hand := XRHand.LEFT, m_hoveredEntity := left },
    m_rightController := { m_hand := XRHand.RIGHT, m_hoveredEntity := right } }

/-- The first entity of the Create record on top of a stack, null when there is none. -/
def topCreated (stack : List Action) : Ptr :=
  match stack with
  | [] => 0
  | a :: _ => a.m_createdEntities.headD 0

/-- The mouse and keyboard actor links `first` to `second`: it selects `first` (space
key while hovering it), the Link control of `first` raises `Player::Event_LinkEntity`,
and the space key is pressed again while hovering `second`. -/
def mouseLink (p : Player) (m : Map) (first second : Ptr) : Option (Player × Map) := do
  let (p1, m1) ←
    ({ p with m_hoveredEntity := first } : Player).HandleKeyboardMouseEditing_Edit_spaceKey m
  let e ← m1.deref first
  let (p2, m2, _) ← p1.Event_LinkEntity m1 e.m_uid.m_uid
  ({ p2 with m_hoveredEntity := second } : Player).HandleKeyboardMouseEditing_Edit_spaceKey m2

/-- The handle of an entity with its two link members `m_activatableUID` and
`m_activatorUID`, in this order. -/
def linkFields (m : Map) (p : Ptr) : Option (EntityUID × EntityUID × EntityUID) :=
  (m.deref p).map (fun e => (e.m_uid, e.m_activatableUID, e.m_activatorUID))

/-- What a scenario reports about the states it went through. -/
structure Report where
  undoStacks : List (List (ActionType × List Ptr)) := []
  redoStacks : List (List (ActionType × List Ptr)) := []
  slots : List (List Ptr) := []
  live : List Bool := []
  returned : List Bool := []
  links : List (List (Option (EntityUID × EntityUID × EntityUID))) := []
  found : List (Option Ptr) := []
  values : List Nat := []
  modes : List ActionType := []
  kinds : List EntityType := []
  scales : List ℚ := []
deriving DecidableEq

/-- The kind of a record with the entity pointers it holds. -/
def Action.summary (a : Action) : ActionType × List Ptr :=
  (a.m_actionType,
    if a.m_actionType = ActionType.LINK then [a.m_activator, a.m_activatable]
    else if a.m_createdEntities.isEmpty then [a.m_actionEntity] else a.m_createdEntities)

/-! ### Small states used to instantiate the theorems -/

/-- A small map state: the player start and four entities spawned in this order, a
button, two doors and a crate, none of them linked. -/
def smallMap : Map :=
  { heap :=
      [some { m_uid := ⟨0⟩, m_position := Vec3.ZERO, m_orientation := EulerAngles.ZERO,
              m_scale := 1, m_type := EntityType.NONE },
       some { m_uid := EntityUID.fromIndexSalt 0 1, m_position := ⟨1, 0, 0⟩,
              m_orientation := EulerAngles.ZERO, m_scale := 1, m_type := EntityType.BUTTON },
       some { m_uid := EntityUID.fromIndexSalt 1 2, m_position := ⟨2, 0, 0⟩,
              m_orientation := EulerAngles.ZERO, m_scale := 2, m_type := EntityType.DOOR },
       some { m_uid := EntityUID.fromIndexSalt 2 3, m_position := ⟨3, 0, 0⟩,
              m_orientation := EulerAngles.ZERO, m_scale := 2, m_type := EntityType.DOOR },
       some { m_uid := EntityUID.fromIndexSalt 3 4, m_position := ⟨4, 0, 0⟩,
              m_orientation := EulerAngles.ZERO, m_scale := 1, m_type := EntityType.CRATE }],
    m_entities := [2, 3, 4, 5],
    m_playerStart := 1,
    m_entityUIDSalt := 5 }

/-- One floor tile of a new map: the tile of slot `i`, laid by the `i`-th call of
`Map::InitializeTiles` with salt `i + 1`. -/
def newMapTile (i : Nat) : Entity :=
  { m_uid := EntityUID.fromIndexSalt i (i + 1),
    m_position := ⟨((i / 11 : Nat) : ℚ) - 5, ((i % 11 : Nat) : ℚ) - 5, -1⟩,
    m_orientation := EulerAngles.ZERO, m_scale := 1, m_type := EntityType.TILE_GRASS }

/-- The newly constructed map in closed form: the player start at address `1` with
handle `0`, the 121 floor tiles at addresses `2` to `122` in slots `0` to `120`, and
the salt counter at `122`.  `Map.construct_eq_newMap` proves that this is what the
constructor `Map.construct` builds. -/
def newMap : Map :=
  { heap := some (constructPlayerStart ⟨0⟩ Vec3.ZERO EulerAngles.ZERO) ::
      (List.range 121).map (fun i => some (newMapTile i)),
    m_entities := (List.range 121).map (fun i => i + 2),
    m_playerStart := 1,
    m_entityUIDSalt := 122 }

/-- The crate of the small map dragged off the grid, to `(2.95, 0.5, -1.1)`. -/
def draggedCrate : Entity :=
  { m_uid := EntityUID.fromIndexSalt 3 4, m_position := ⟨59 / 20, 1 / 2, -11 / 10⟩,
    m_orientation := EulerAngles.ZERO, m_scale := 1, m_type := EntityType.CRATE }

/-- The small map with its crate dragged off the grid. -/
def draggedMap : Map :=
  { smallMap with heap := smallMap.heap.set 4 (some draggedCrate) }

/-- A player whose three actors all hold records, on the small map: the right hand is
dragging the crate (grabbed with grip, which pushed a Translate record), the left hand
hovers the crate and holds records on the two doors, and the mouse-keyboard actor
holds a Scale record and a Translate record on the crate. -/
def twoHands : Player :=
  { m_leftController :=
      { m_hand := XRHand.LEFT, m_hoveredEntity := 5,
        m_undoActionStack :=
          [{ m_actionType := ActionType.TRANSLATE, m_actionEntity := 3,
             m_actionEntityPreviousPosition := ⟨9, 9, 9⟩ }],
        m_redoActionStack :=
          [{ m_actionType := ActionType.ROTATE, m_actionEntity := 4,
             m_actionEntityPreviousOrientation := ⟨90, 0, 0⟩ }] },
    m_rightController :=
      { m_hand := XRHand.RIGHT, m_hoveredEntity := 5, m_selectedEntity := 5,
        m_selectedEntityType := EntityType.CRATE, m_selectedEntityPosition := ⟨4, 0, 0⟩,
        m_actionState := ActionType.TRANSLATE,
        m_undoActionStack :=
          [{ m_actionType := ActionType.TRANSLATE, m_actionEntity := 5,
             m_actionEntityPreviousPosition := ⟨4, 0, 0⟩ }] },
    m_undoActionStack :=
      [{ m_actionType := ActionType.SCALE, m_actionEntity := 5,
         m_actionEntityPreviousScale := 3 }],
    m_redoActionStack :=
      [{ m_actionType := ActionType.TRANSLATE, m_actionEntity := 5,
         m_actionEntityPreviousPosition := ⟨1, 1, 1⟩ }] }

/-- The small map after the button and the first door have been linked to each other:
the button holds the handle of the door and the door the handle of the button. -/
def linkedMap : Map :=
  { smallMap with
    heap :=
      [some { m_uid := ⟨0⟩, m_position := Vec3.ZERO, m_orientation := EulerAngles.ZERO,
              m_scale := 1, m_type := EntityType.NONE },
       some { m_uid := EntityUID.fromIndexSalt 0 1, m_position := ⟨1, 0, 0⟩,
              m_orientation := EulerAngles.ZERO, m_scale := 1, m_type := EntityType.BUTTON,
              m_activatableUID := EntityUID.fromIndexSalt 1 2 },
       some { m_uid := EntityUID.fromIndexSalt 1 2, m_position := ⟨2, 0, 0⟩,
              m_orientation := EulerAngles.ZERO, m_scale := 2, m_type := EntityType.DOOR,
              m_activatorUID := EntityUID.fromIndexSalt 0 1 },
       some { m_uid := EntityUID.fromIndexSalt 2 3, m_position := ⟨3, 0, 0⟩,
              m_orientation := EulerAngles.ZERO, m_scale := 2, m_type := EntityType.DOOR },
       some { m_uid := EntityUID.fromIndexSalt 3 4, m_position := ⟨4, 0, 0⟩,
              m_orientation := EulerAngles.ZERO, m_scale := 1, m_type := EntityType.CRATE }] }

/-! ## Theorems -/

theorem EntityUID.eq_iff (a b : EntityUID) : a.eq b = true ↔ a = b := by
  cases a; cases b; simp [EntityUID.eq]

theorem EntityUID.eq_false_iff (a b : EntityUID) : a.eq b = false ↔ a ≠ b := by
  cases a; cases b; simp [EntityUID.eq]

theorem Map.slotsLive_getD (m : Map) (h : m.slotsLive = true) (i : Nat)
    (hne : m.m_entities.getD i 0 ≠ 0) : ∃ e, m.deref (m.m_entities.getD i 0) = some e := by
  unfold Map.slotsLive at h
  rw [List.all_eq_true] at h
  by_cases hi : i < m.m_entities.length
  · have hmem : m.m_entities.getD i 0 ∈ m.m_entities := by
      rw [List.getD_eq_getElem _ _ hi]
      exact List.getElem_mem hi
    have := h _ hmem
    simp only [Bool.or_eq_true, beq_iff_eq, Option.isSome_iff_exists] at this
    rcases this with h0 | h1
    · exact absurd h0 hne
    · exact h1
  · exfalso
    apply hne
    rw [List.getD_eq_default]
    omega

/-- C4, amended.  With the player start alive and every slot holding null or a live
entity, `GetEntityFromUID` always returns; a non-null result is an entity whose stored
handle equals the argument; the result is null for `INVALID`; for the player start's
own handle (other than `INVALID`) it is the player start, whatever the collection
holds; and for every other handle it is null when the index is at or beyond the size
of the collection, when the slot is empty, and when the slot's entity carries a
different handle. -/
theorem C4_GetEntityFromUID_resolves (m : Map) (uid : EntityUID) (ps : Entity)
    (hps : m.deref m.m_playerStart = some ps) (hlive : m.slotsLive = true) :
    (∃ p, m.GetEntityFromUID uid = some p) ∧
    (∀ p, m.GetEntityFromUID uid = some p → p ≠ 0 →
      ∃ e, m.deref p = some e ∧ e.m_uid = uid) ∧
    (uid = EntityUID.INVALID → m.GetEntityFromUID uid = some 0) ∧
    (uid ≠ EntityUID.INVALID → uid = ps.m_uid →
      m.GetEntityFromUID uid = some m.m_playerStart) ∧
    (uid ≠ ps.m_uid → m.m_entities.length ≤ uid.GetIndex →
      m.GetEntityFromUID uid = some 0) ∧
    (uid ≠ ps.m_uid → m.m_entities.getD uid.GetIndex 0 = 0 →
      m.GetEntityFromUID uid = some 0) ∧
    (uid ≠ ps.m_uid → ∀ e, m.deref (m.m_entities.getD uid.GetIndex 0) = some e →
      e.m_uid ≠ uid → m.GetEntityFromUID uid = some 0) := by
  by_cases hinv : uid = EntityUID.INVALID
  · have h0 : m.GetEntityFromUID uid = some 0 := by
      simp [Map.GetEntityFromUID, (EntityUID.eq_iff _ _).2 hinv]
    refine ⟨⟨0, h0⟩, ?_, fun _ => h0, fun h => absurd hinv h, fun _ _ => h0, fun _ _ => h0,
      fun _ _ _ _ => h0⟩
    intro p hp hne
    rw [h0] at hp
    exact absurd (Option.some.inj hp).symm hne
  · have hinv' : uid.eq EntityUID.INVALID = false := (EntityUID.eq_false_iff _ _).2 hinv
    by_cases hpsu : uid = ps.m_uid
    · have h1 : m.GetEntityFromUID uid = some m.m_playerStart := by
        simp [Map.GetEntityFromUID, hinv', hps, (EntityUID.eq_iff _ _).2 hpsu]
      refine ⟨⟨_, h1⟩, ?_, fun h => absurd h hinv, fun _ _ => h1, fun h => absurd hpsu h,
        fun h => absurd hpsu h, fun h => absurd hpsu h⟩
      intro p hp _
      rw [h1] at hp
      cases hp
      exact ⟨ps, hps, hpsu.symm⟩
    · have hpsu' : uid.eq ps.m_uid = false := (EntityUID.eq_false_iff _ _).2 hpsu
      by_cases hlen : m.m_entities.length ≤ uid.GetIndex
      · have h0 : m.GetEntityFromUID uid = some 0 := by
          simp [Map.GetEntityFromUID, hinv', hps, hpsu', hlen]
        refine ⟨⟨0, h0⟩, ?_, fun h => absurd h hinv, fun _ h => absurd h hpsu, fun _ _ => h0,
          fun _ _ => h0, fun _ _ _ _ => h0⟩
        intro p hp hne
        rw [h0] at hp
        exact absurd (Option.some.inj hp).symm hne
      · by_cases hnull : m.m_entities.getD uid.GetIndex 0 = 0
        · have h0 : m.GetEntityFromUID uid = some 0 := by
            simp only [Map.GetEntityFromUID, hinv', hps, hpsu', ge_iff_le, hlen, hnull,
              Bool.false_eq_true, if_false, if_true]
          refine ⟨⟨0, h0⟩, ?_, fun h => absurd h hinv, fun _ h => absurd h hpsu,
            fun _ _ => h0, fun _ _ => h0, fun _ _ _ _ => h0⟩
          intro p hp hne
          rw [h0] at hp
          exact absurd (Option.some.inj hp).symm hne
        · obtain ⟨e, he⟩ := Map.slotsLive_getD m hlive _ hnull
          by_cases heu : e.m_uid = uid
          · have h1 : m.GetEntityFromUID uid = some (m.m_entities.getD uid.GetIndex 0) := by
              simp only [Map.GetEntityFromUID, hinv', hps, hpsu', ge_iff_le, hlen, hnull, he,
                (EntityUID.eq_iff _ _).2 heu, Bool.false_eq_true, if_false, if_true]
            refine ⟨⟨_, h1⟩, ?_, fun h => absurd h hinv, fun _ h => absurd h hpsu,
              fun _ h => absurd h hlen, fun _ h => absurd h hnull, ?_⟩
            · intro p hp _
              rw [h1] at hp
              cases hp
              exact ⟨e, he, heu⟩
            · intro _ e' he' hne'
              rw [he] at he'
              cases he'
              exact absurd heu hne'
          · have h0 : m.GetEntityFromUID uid = some 0 := by
              simp only [Map.GetEntityFromUID, hinv', hps, hpsu', ge_iff_le, hlen, hnull, he,
                (EntityUID.eq_false_iff _ _).2 heu, Bool.false_eq_true, if_false, if_true]
            refine ⟨⟨0, h0⟩, ?_, fun h => absurd h hinv, fun _ h => absurd h hpsu,
              fun _ _ => h0, fun _ _ => h0, fun _ _ _ _ => h0⟩
            intro p hp hne
            rw [h0] at hp
            exact absurd (Option.some.inj hp).symm hne

theorem Map.deref_modify (m m' : Map) (p : Ptr) (f : Entity → Entity)
    (h : m.modify p f = some m') (q : Ptr) :
    m'.deref q = if q = p then (m.deref p).map f else m.deref q := by
  unfold Map.modify at h
  cases hp : m.deref p with
  | none => rw [hp] at h; cases h
  | some e =>
    rw [hp] at h
    cases h
    cases p with
    | zero => simp [Map.deref] at hp
    | succ a =>
      cases q with
      | zero => simp [Map.deref]
      | succ b =>
        have hlt : a < m.heap.length := by
          simp only [Map.deref] at hp
          by_contra hge
          rw [List.get?_eq_none.2 (by omega)] at hp
          simp at hp
        by_cases hab : b = a
        · subst hab
          simp [Map.deref, hlt]
        · have hab' : a ≠ b := fun h => hab h.symm
          simp [Map.deref, List.getElem?_set_ne hab', hab]

theorem Map.modify_fields (m m' : Map) (p : Ptr) (f : Entity → Entity)
    (h : m.modify p f = some m') :
    m'.m_entities = m.m_entities ∧ m'.m_playerStart = m.m_playerStart ∧
    m'.m_entityUIDSalt = m.m_entityUIDSalt := by
  unfold Map.modify at h
  cases hp : m.deref p with
  | none => rw [hp] at h; cases h
  | some e => rw [hp] at h; cases h; exact ⟨rfl, rfl, rfl⟩

theorem Map.modify_isSome (m : Map) (p : Ptr) (f : Entity → Entity) (e : Entity)
    (h : m.deref p = some e) : ∃ m', m.modify p f = some m' := by
  unfold Map.modify
  rw [h]
  exact ⟨_, rfl⟩


theorem undoSwitch_transform (m : Map) (a : Action) (e : Entity)
    (hkind : a.m_actionType = ActionType.TRANSLATE ∨ a.m_actionType = ActionType.ROTATE ∨
      a.m_actionType = ActionType.SCALE)
    (hlive : m.deref a.m_actionEntity = some e) :
    ∃ (redoAction : Action) (m' : Map) (e' : Entity),
      undoSwitch a m = some (some redoAction, m') ∧
      m'.deref a.m_actionEntity = some e' ∧
      (a.m_actionType = ActionType.TRANSLATE →
        e' = { e with m_position := a.m_actionEntityPreviousPosition }) ∧
      (a.m_actionType = ActionType.ROTATE →
        e' = { e with m_orientation := a.m_actionEntityPreviousOrientation }) ∧
      (a.m_actionType = ActionType.SCALE →
        e' = { e with m_scale := a.m_actionEntityPreviousScale }) ∧
      (∀ q, q ≠ a.m_actionEntity → m'.deref q = m.deref q) ∧
      m'.m_entities = m.m_entities := by
  rcases hkind with hk | hk | hk
  · obtain ⟨m', hm'⟩ := Map.modify_isSome m a.m_actionEntity
      (fun x => { x with m_position := a.m_actionEntityPreviousPosition }) e hlive
    refine ⟨Action.mk ActionType.TRANSLATE [] [] [] [] a.m_actionEntity e.m_position EulerAngles.ZERO 1 0
        EntityUID.INVALID 0 EntityUID.INVALID, m',
      { e with m_position := a.m_actionEntityPreviousPosition }, ?_, ?_, ?_, ?_, ?_, ?_, ?_⟩
    · simp only [undoSwitch, hk, hlive, hm', Option.map_some']
    · rw [Map.deref_modify m m' _ _ hm']; simp [hlive]
    · intro _; rfl
    · intro h; rw [hk] at h; cases h
    · intro h; rw [hk] at h; cases h
    · intro q hq; rw [Map.deref_modify m m' _ _ hm']; simp [hq]
    · exact (Map.modify_fields m m' _ _ hm').1
  · obtain ⟨m', hm'⟩ := Map.modify_isSome m a.m_actionEntity
      (fun x => { x with m_orientation := a.m_actionEntityPreviousOrientation }) e hlive
    refine ⟨Action.mk ActionType.ROTATE [] [] [] [] a.m_actionEntity Vec3.ZERO e.m_orientation 1 0
        EntityUID.INVALID 0 EntityUID.INVALID, m',
      { e with m_orientation := a.m_actionEntityPreviousOrientation }, ?_, ?_, ?_, ?_, ?_, ?_,
      ?_⟩
    · simp only [undoSwitch, hk, hlive, hm', Option.map_some']
    · rw [Map.deref_modify m m' _ _ hm']; simp [hlive]
    · intro h; rw [hk] at h; cases h
    · intro _; rfl
    · intro h; rw [hk] at h; cases h
    · intro q hq; rw [Map.deref_modify m m' _ _ hm']; simp [hq]
    · exact (Map.modify_fields m m' _ _ hm').1
  · obtain ⟨m', hm'⟩ := Map.modify_isSome m a.m_actionEntity
      (fun x => { x with m_scale := a.m_actionEntityPreviousScale }) e hlive
    refine ⟨Action.mk ActionType.SCALE [] [] [] [] a.m_actionEntity Vec3.ZERO EulerAngles.ZERO e.m_scale 0
        EntityUID.INVALID 0 EntityUID.INVALID, m',
      { e with m_scale := a.m_actionEntityPreviousScale }, ?_, ?_, ?_, ?_, ?_, ?_, ?_⟩
    · simp only [undoSwitch, hk, hlive, hm', Option.map_some']
    · rw [Map.deref_modify m m' _ _ hm']; simp [hlive]
    · intro h; rw [hk] at h; cases h
    · intro h; rw [hk] at h; cases h
    · intro _; rfl
    · intro q hq; rw [Map.deref_modify m m' _ _ hm']; simp [hq]
    · exact (Map.modify_fields m m' _ _ hm').1

/-- C2.  With a Translate, Rotate or Scale record `a` on top of the undo stack and its
entity still alive, `UndoLastAction` of a hand controller and of the mouse-keyboard
player both return, set the entity's position, orientation or scale (by kind) to the
value held in the record, keep its other members, and keep every other object and
the collection as they were. -/
theorem C2_undo_restores_recorded_transform (m : Map) (a : Action) (rest : List Action)
    (e : Entity)
    (hkind : a.m_actionType = ActionType.TRANSLATE ∨ a.m_actionType = ActionType.ROTATE ∨
      a.m_actionType = ActionType.SCALE)
    (hlive : m.deref a.m_actionEntity = some e) :
    (∀ h : HandController, h.m_undoActionStack = a :: rest →
      ∃ (h' : HandController) (m' : Map) (e' : Entity),
        h.UndoLastAction m = some (h', m') ∧
        m'.deref a.m_actionEntity = some e' ∧
        (a.m_actionType = ActionType.TRANSLATE →
          e' = { e with m_position := a.m_actionEntityPreviousPosition }) ∧
        (a.m_actionType = ActionType.ROTATE →
          e' = { e with m_orientation := a.m_actionEntityPreviousOrientation }) ∧
        (a.m_actionType = ActionType.SCALE →
          e' = { e with m_scale := a.m_actionEntityPreviousScale }) ∧
        (∀ q, q ≠ a.m_actionEntity → m'.deref q = m.deref q) ∧
        m'.m_entities = m.m_entities) ∧
    (∀ p : Player, p.m_undoActionStack = a :: rest →
      ∃ (p' : Player) (m' : Map) (e' : Entity),
        p.UndoLastAction m = some (p', m') ∧
        m'.deref a.m_actionEntity = some e' ∧
        (a.m_actionType = ActionType.TRANSLATE →
          e' = { e with m_position := a.m_actionEntityPreviousPosition }) ∧
        (a.m_actionType = ActionType.ROTATE →
          e' = { e with m_orientation := a.m_actionEntityPreviousOrientation }) ∧
        (a.m_actionType = ActionType.SCALE →
          e' = { e with m_scale := a.m_actionEntityPreviousScale }) ∧
        (∀ q, q ≠ a.m_actionEntity → m'.deref q = m.deref q) ∧
        m'.m_entities = m.m_entities) := by
  obtain ⟨redoAction, m', e', hsw, hrest⟩ := undoSwitch_transform m a e hkind hlive
  constructor
  · intro h hstack
    refine ⟨{ h with m_undoActionStack := rest,
                     m_redoActionStack := redoAction :: h.m_redoActionStack }, m', e', ?_, hrest⟩
    simp only [HandController.UndoLastAction, hstack, hsw, Option.map_some', pushRecord]
  · intro p hstack
    refine ⟨{ p with m_undoActionStack := rest,
                     m_redoActionStack := redoAction :: p.m_redoActionStack }, m', e', ?_, hrest⟩
    unfold Player.UndoLastAction
    rw [hstack]
    rcases hkind with hk | hk | hk <;> simp only [hk] <;>
      simp only [hsw, Option.map_some', pushRecord]




theorem Map.deref_modify_self (m m' : Map) (p : Ptr) (f : Entity → Entity) (e : Entity)
    (he : m.deref p = some e) (h : m.modify p f = some m') : m'.deref p = some (f e) := by
  rw [Map.deref_modify m m' p f h p]
  simp [he]

theorem Map.modify_eq_some (m : Map) (p : Ptr) (f : Entity → Entity) (e : Entity)
    (he : m.deref p = some e) :
    m.modify p f = some { m with heap := m.heap.set (p - 1) (some (f e)) } := by
  unfold Map.modify
  rw [he]

/-- Undo followed by redo of a Translate, Rotate or Scale record on a live entity puts
the entity back exactly as it was before the undo (hand controller). -/
theorem undo_redo_transform_roundtrip (h : HandController) (m : Map) (a : Action)
    (rest : List Action) (e : Entity) (hstack : h.m_undoActionStack = a :: rest)
    (hkind : a.m_actionType = ActionType.TRANSLATE ∨ a.m_actionType = ActionType.ROTATE ∨
      a.m_actionType = ActionType.SCALE)
    (hlive : m.deref a.m_actionEntity = some e) :
    ∃ (h1 h2 : HandController) (m1 m2 : Map),
      h.UndoLastAction m = some (h1, m1) ∧ h1.RedoLastAction m1 = some (h2, m2) ∧
      m2.deref a.m_actionEntity = some e ∧
      (∀ q, q ≠ a.m_actionEntity → m2.deref q = m.deref q) ∧
      h2.m_undoActionStack = rest ∧ h2.m_redoActionStack = h.m_redoActionStack := by
  rcases hkind with hk | hk | hk
  · obtain ⟨m1, hm1⟩ := Map.modify_isSome m a.m_actionEntity
      (fun x => { x with m_position := a.m_actionEntityPreviousPosition }) e hlive
    have hd1 := Map.deref_modify_self m m1 _ _ e hlive hm1
    obtain ⟨m2, hm2⟩ := Map.modify_isSome m1 a.m_actionEntity
      (fun x => { x with m_position := e.m_position }) _ hd1
    have hd2 := Map.deref_modify_self m1 m2 _ _ _ hd1 hm2
    refine ⟨{ h with m_undoActionStack := rest, m_redoActionStack :=
        (Action.mk ActionType.TRANSLATE [] [] [] [] a.m_actionEntity e.m_position EulerAngles.ZERO 1 0
          EntityUID.INVALID 0 EntityUID.INVALID) :: h.m_redoActionStack },
      { h with m_undoActionStack := rest }, m1, m2, ?_, ?_, ?_, ?_, ?_, ?_⟩
    · simp only [HandController.UndoLastAction, hstack, undoSwitch, hk, hlive, hm1,
        Option.map_some', pushRecord]
    · simp only [HandController.RedoLastAction, redoSwitch, hm2, Option.map_some']
    · rw [hd2]
    · intro q hq
      rw [Map.deref_modify m1 m2 _ _ hm2 q, if_neg hq, Map.deref_modify m m1 _ _ hm1 q,
        if_neg hq]
    · rfl
    · rfl
  · obtain ⟨m1, hm1⟩ := Map.modify_isSome m a.m_actionEntity
      (fun x => { x with m_orientation := a.m_actionEntityPreviousOrientation }) e hlive
    have hd1 := Map.deref_modify_self m m1 _ _ e hlive hm1
    obtain ⟨m2, hm2⟩ := Map.modify_isSome m1 a.m_actionEntity
      (fun x => { x with m_orientation := e.m_orientation }) _ hd1
    have hd2 := Map.deref_modify_self m1 m2 _ _ _ hd1 hm2
    refine ⟨{ h with m_undoActionStack := rest, m_redoActionStack :=
        (Action.mk ActionType.ROTATE [] [] [] [] a.m_actionEntity Vec3.ZERO e.m_orientation 1 0
          EntityUID.INVALID 0 EntityUID.INVALID) :: h.m_redoActionStack },
      { h with m_undoActionStack := rest }, m1, m2, ?_, ?_, ?_, ?_, ?_, ?_⟩
    · simp only [HandController.UndoLastAction, hstack, undoSwitch, hk, hlive, hm1,
        Option.map_some', pushRecord]
    · simp only [HandController.RedoLastAction, redoSwitch, hm2, Option.map_some']
    · rw [hd2]
    · intro q hq
      rw [Map.deref_modify m1 m2 _ _ hm2 q, if_neg hq, Map.deref_modify m m1 _ _ hm1 q,
        if_neg hq]
    · rfl
    · rfl
  · obtain ⟨m1, hm1⟩ := Map.modify_isSome m a.m_actionEntity
      (fun x => { x with m_scale := a.m_actionEntityPreviousScale }) e hlive
    have hd1 := Map.deref_modify_self m m1 _ _ e hlive hm1
    obtain ⟨m2, hm2⟩ := Map.modify_isSome m1 a.m_actionEntity
      (fun x => { x with m_scale := e.m_scale }) _ hd1
    have hd2 := Map.deref_modify_self m1 m2 _ _ _ hd1 hm2
    refine ⟨{ h with m_undoActionStack := rest, m_redoActionStack :=
        (Action.mk ActionType.SCALE [] [] [] [] a.m_actionEntity Vec3.ZERO EulerAngles.ZERO e.m_scale 0
          EntityUID.INVALID 0 EntityUID.INVALID) :: h.m_redoActionStack },
      { h with m_undoActionStack := rest }, m1, m2, ?_, ?_, ?_, ?_, ?_, ?_⟩
    · simp only [HandController.UndoLastAction, hstack, undoSwitch, hk, hlive, hm1,
        Option.map_some', pushRecord]
    · simp only [HandController.RedoLastAction, redoSwitch, hm2, Option.map_some']
    · rw [hd2]
    · intro q hq
      rw [Map.deref_modify m1 m2 _ _ hm2 q, if_neg hq, Map.deref_modify m m1 _ _ hm1 q,
        if_neg hq]
    · rfl
    · rfl

set_option maxRecDepth 100000

/-- The constructor of a new map builds `newMap`. -/
theorem Map.construct_eq_newMap : Map.construct [] = some newMap := by
  decide!

/-- C4, witness: the theorem applied to the small map and the handle of its crate. -/
theorem C4_GetEntityFromUID_resolves_witness :
    smallMap.deref smallMap.m_playerStart =
        some { m_uid := ⟨0⟩, m_position := Vec3.ZERO, m_orientation := EulerAngles.ZERO,
               m_scale := 1, m_type := EntityType.NONE } ∧
      smallMap.slotsLive = true ∧
      ∃ p, smallMap.GetEntityFromUID (EntityUID.fromIndexSalt 3 4) = some p :=
  ⟨rfl, rfl,
    (C4_GetEntityFromUID_resolves smallMap (EntityUID.fromIndexSalt 3 4) _ rfl rfl).1⟩

/-- C4, counterexample.  In the newly constructed map the handle with raw value `0` has
index `0`; slot `0` of the collection (of size 121) is occupied by the entity at
address `2`, whose handle has raw value `1` and so differs; yet `GetEntityFromUID`
returns the player start (address `1`), not null.  `values` lists the index of the
handle, the size of the collection and the address of the player start. -/
theorem C4_occupied_slot_other_uid_not_null :
    ({ values := [(⟨0⟩ : EntityUID).GetIndex, newMap.m_entities.length, newMap.m_playerStart],
       slots := [newMap.m_entities.take 1],
       links := [[linkFields newMap (newMap.m_entities.getD 0 0)]],
       found := [newMap.GetEntityFromUID ⟨0⟩] } : Report) =
      { values := [0, 121, 1],
        slots := [[2]],
        links := [[some (⟨1⟩, EntityUID.INVALID, EntityUID.INVALID)]],
        found := [some 1] } := by
  decide!

/-- C2, witness: the theorem applied to the small map and a Translate record on its
crate; undo by a hand controller puts the crate back at the recorded position. -/
theorem C2_undo_restores_recorded_transform_witness :
    smallMap.deref 5 =
        some { m_uid := EntityUID.fromIndexSalt 3 4, m_position := ⟨4, 0, 0⟩,
               m_orientation := EulerAngles.ZERO, m_scale := 1,
               m_type := EntityType.CRATE } ∧
      ∃ (h' : HandController) (m' : Map) (e' : Entity),
        ({ m_undoActionStack :=
            [{ m_actionType := ActionType.TRANSLATE, m_actionEntity := 5,
               m_actionEntityPreviousPosition := ⟨7, 8, 9⟩ }] } :
          HandController).UndoLastAction smallMap = some (h', m') ∧
        m'.deref 5 = some e' ∧ e'.m_position = ⟨7, 8, 9⟩ :=
  ⟨rfl, by
    obtain ⟨h', m', e', h1, h2, h3, _⟩ :=
      (C2_undo_restores_recorded_transform smallMap
        { m_actionType := ActionType.TRANSLATE, m_actionEntity := 5,
          m_actionEntityPreviousPosition := ⟨7, 8, 9⟩ } [] _ (Or.inl rfl) rfl).1
        { m_undoActionStack :=
            [{ m_actionType := ActionType.TRANSLATE, m_actionEntity := 5,
               m_actionEntityPreviousPosition := ⟨7, 8, 9⟩ }] } rfl
    exact ⟨h', m', e', h1, h2, by rw [h3 rfl]⟩⟩

/-- C3, failing input.  The newly constructed map is saved and loaded again, which
leaves the salt counter at `0`.  A floor tile is cloned (`SpawnNewEntityOfType`, salt
`0`, counter now `1`), the floor tile `e` of slot `0` (handle raw value `1`) is
removed, and a tile is cloned again: the new tile is stored in slot `0` with the very
handle `e` had, so `GetEntityFromUID` of the old handle returns the new entity instead
of null.  `values` lists the salt counter after loading, the raw handles of `e` and of
the second clone, and their addresses; `slots` shows slot `0` after loading, after the
removal and after the second spawn; `found` is what the old handle resolves to before
and after. -/
theorem C3_reloaded_map_reissues_handle :
    (do let file ← newMap.Event_SaveMap
        let m1 ← Map.LoadFromFile file []
        let e := m1.m_entities.getD 0 0
        let old ← m1.deref e
        let (m2, _) ←
          m1.SpawnNewEntityOfType EntityType.TILE_GRASS ⟨5, 5, -1⟩ EulerAngles.ZERO 1
        let (m3, removed) ← m2.RemoveEntityFromMap e
        let (m4, n) ←
          m3.SpawnNewEntityOfType EntityType.TILE_GRASS ⟨5, 5, -1⟩ EulerAngles.ZERO 1
        let new ← m4.deref n
        pure ({ values := [m1.m_entityUIDSalt, old.m_uid.m_uid, new.m_uid.m_uid, e, n],
                slots := [m1.m_entities.take 1, m3.m_entities.take 1, m4.m_entities.take 1],
                returned := [removed],
                found := [m1.GetEntityFromUID old.m_uid, m4.GetEntityFromUID old.m_uid] } :
              Report)) =
      some { values := [0, 1, 1, 2, 124],
             slots := [[2], [0], [124]],
             returned := [true],
             found := [some 2, some 124] } := by
  decide!

/-- C1, failing input.  In the new map the right hand, in create mode, chooses the
grass tile (one press of select, which creates the preview entity at address `123`)
and releases the trigger: one tile is spawned (address `124`, slot `121`) and one
Create record is pushed.  `UndoLastAction` removes and deletes the tile and pushes a
Delete record that still holds its pointer.  `RedoLastAction` then reads `m_type`
through that pointer, which is undefined behaviour: the call has no defined result and
the tile is not brought back. -/
theorem C1_create_undo_redo_reads_deleted_entity :
    (do let (h1, m1) ← handPlaces { m_hand := XRHand.RIGHT } newMap 1 0
        let (h2, m2) ← h1.UndoLastAction m1
        pure ({ undoStacks := [h1.m_undoActionStack.map Action.summary],
                redoStacks := [h2.m_redoActionStack.map Action.summary],
                slots := [m1.m_entities.drop 121, m2.m_entities.drop 121],
                live := [(m1.deref 124).isSome, (m2.deref 124).isSome],
                returned := [(h2.RedoLastAction m2).isSome] } : Report)) =
      some { undoStacks := [[(ActionType.CREATE, [124])]],
             redoStacks := [[(ActionType.DELETE, [124])]],
             slots := [[124], [0]],
             live := [true, false],
             returned := [false] } := by
  decide!

/-- C7, failing input.  In the new map the right hand, in create mode, chooses the
grass tile and drags the spawn box over two cells before releasing the trigger: two
tiles are spawned (addresses `124` and `125`, slots `121` and `122`), one Create
record is pushed, and one `UndoLastAction` empties both slots.  The following
`RedoLastAction` reads `m_type` through the deleted pointers, which is undefined
behaviour: no entity is re-created by a defined execution. -/
theorem C7_batch_redo_reads_deleted_entities :
    (do let (h1, m1) ← handPlaces { m_hand := XRHand.RIGHT } newMap 1 1
        let (h2, m2) ← h1.UndoLastAction m1
        pure ({ undoStacks := [h1.m_undoActionStack.map Action.summary],
                redoStacks := [h2.m_redoActionStack.map Action.summary],
                slots := [m1.m_entities.drop 121, m2.m_entities.drop 121],
                live := [(m2.deref 124).isSome, (m2.deref 125).isSome],
                returned := [(h2.RedoLastAction m2).isSome] } : Report)) =
      some { undoStacks := [[(ActionType.CREATE, [124, 125])]],
             redoStacks := [[(ActionType.DELETE, [124, 125])]],
             slots := [[124, 125], [0, 0]],
             live := [false, false],
             returned := [false] } := by
  decide!

/-- C8, failing input.  In the new map the right hand hovers the floor tile at address
`2` and makes the delete gesture: a Delete record holding the pointer is pushed and
the tile is removed and deleted.  `UndoLastAction` reads `m_type` through that
pointer, which is undefined behaviour: no new entity is created by a defined
execution. -/
theorem C8_delete_undo_reads_deleted_entity :
    (do let (h1, m1) ← ({ m_hand := XRHand.RIGHT, m_hoveredEntity := 2 } :
          HandController).HandleEditInput_backButton newMap
        pure ({ undoStacks := [h1.m_undoActionStack.map Action.summary],
                slots := [newMap.m_entities.take 2, m1.m_entities.take 2],
                live := [(newMap.deref 2).isSome, (m1.deref 2).isSome],
                returned := [(h1.UndoLastAction m1).isSome] } : Report)) =
      some { undoStacks := [[(ActionType.DELETE, [2])]],
             slots := [[2, 3], [0, 3]],
             live := [true, false],
             returned := [false] } := by
  decide!

/-- C10, failing input.  In the new map the left hand, in create mode, spawns a
grass tile (address `124`), which puts a Create record on its undo stack (the first
of `undoStacks`); the right hand then hovers that tile and makes the delete gesture,
with a Delete record on its own stack (the second).  `UndoLastAction` of the left hand
reads the tile's position through the recorded pointer, which is undefined behaviour,
instead of doing nothing. -/
theorem C10_undo_of_stale_record_reads_deleted_entity :
    (do let (l1, m1) ← handPlaces { m_hand := XRHand.LEFT } newMap 1 0
        let (r1, m2) ← ({ m_hand := XRHand.RIGHT, m_hoveredEntity := 124 } :
          HandController).HandleEditInput_backButton m1
        pure ({ undoStacks := [l1.m_undoActionStack.map Action.summary,
                               r1.m_undoActionStack.map Action.summary],
                live := [(m1.deref 124).isSome, (m2.deref 124).isSome],
                returned := [(l1.UndoLastAction m2).isSome] } : Report)) =
      some { undoStacks := [[(ActionType.CREATE, [124])], [(ActionType.DELETE, [124])]],
             live := [true, false],
             returned := [false] } := by
  decide!

/-- C5, failing input.  In the new map the mouse actor places a button `A` and two
doors `B`, `C` (addresses `128`, `133`, `138`; handles `0x79007F`, `0x7A0084`,
`0x7B0089`), links `A` to `B`, then `A` to `C`, then calls `UndoLastAction`.  The three
rows of `links` give, for `A`, `B`, `C`, the handle, `m_activatableUID` and
`m_activatorUID` after each of these three steps: the undo restores `A.m_activatableUID`
to `B` and clears `C.m_activatorUID`, but `B.m_activatorUID` stays `INVALID` instead of
returning to `A`. -/
theorem C5_undo_relink_leaves_old_partner_unlinked :
    (do let (p1, m1) ← mousePlaces {} newMap 5 0
        let a := topCreated p1.m_undoActionStack
        let (p2, m2) ← mousePlaces p1 m1 4 1
        let b := topCreated p2.m_undoActionStack
        let (p3, m3) ← mousePlaces p2 m2 4 2
        let c := topCreated p3.m_undoActionStack
        let (p4, m4) ← mouseLink p3 m3 a b
        let (p5, m5) ← mouseLink p4 m4 a c
        let (p6, m6) ← p5.UndoLastAction m5
        pure ({ values := [a, b, c],
                undoStacks := [(p5.m_undoActionStack.take 2).map Action.summary],
                redoStacks := [p6.m_redoActionStack.map Action.summary],
                links := [[linkFields m4 a, linkFields m4 b, linkFields m4 c],
                          [linkFields m5 a, linkFields m5 b, linkFields m5 c],
                          [linkFields m6 a, linkFields m6 b, linkFields m6 c]] } :
              Report)) =
      some { values := [128, 133, 138],
             undoStacks := [[(ActionType.LINK, [128, 138]), (ActionType.LINK, [128, 133])]],
             redoStacks := [[(ActionType.LINK, [128, 138])]],
             links :=
               [[some (⟨0x79007F⟩, ⟨0x7A0084⟩, EntityUID.INVALID),
                 some (⟨0x7A0084⟩, EntityUID.INVALID, ⟨0x79007F⟩),
                 some (⟨0x7B0089⟩, EntityUID.INVALID, EntityUID.INVALID)],
                [some (⟨0x79007F⟩, ⟨0x7B0089⟩, EntityUID.INVALID),
                 some (⟨0x7A0084⟩, EntityUID.INVALID, EntityUID.INVALID),
                 some (⟨0x7B0089⟩, EntityUID.INVALID, ⟨0x79007F⟩)],
                [some (⟨0x79007F⟩, ⟨0x7A0084⟩, EntityUID.INVALID),
                 some (⟨0x7A0084⟩, EntityUID.INVALID, EntityUID.INVALID),
                 some (⟨0x7B0089⟩, EntityUID.INVALID, EntityUID.INVALID)]] } := by
  decide!

/-- C6, failing input.  In the new map the mouse actor places a button `A` (address
`128`), a lever `A2` (`132`) and two doors `B` (`137`), `B2` (`142`), links `A` to `B`,
links `A2` to `B`, undoes that, and links `A` to `B2`.  Now `A.m_activatableUID`
resolves to the live door `B2` (`found`), while `B.m_activatorUID` still names `A`.
`LinkEntities` on `A` and `B`, in either argument order, links the two but leaves
`B2.m_activatorUID` naming `A` instead of `INVALID`.  The rows of `links` give the
handle, `m_activatableUID` and `m_activatorUID` of `A`, `B`, `B2` before the call, after
`LinkEntities(A, B)` and after `LinkEntities(B, A)`. -/
theorem C6_relink_leaves_old_activatable_linked :
    (do let (p1, m1) ← mousePlaces {} newMap 5 0
        let a := topCreated p1.m_undoActionStack
        let (p2, m2) ← mousePlaces p1 m1 3 1
        let a2 := topCreated p2.m_undoActionStack
        let (p3, m3) ← mousePlaces p2 m2 4 2
        let b := topCreated p3.m_undoActionStack
        let (p4, m4) ← mousePlaces p3 m3 4 3
        let b2 := topCreated p4.m_undoActionStack
        let (p5, m5) ← mouseLink p4 m4 a b
        let (p6, m6) ← mouseLink p5 m5 a2 b
        let (p7, m7) ← p6.UndoLastAction m6
        let (_, pre) ← mouseLink p7 m7 a b2
        let ea ← pre.deref a
        let post ← pre.LinkEntities a b
        let post2 ← pre.LinkEntities b a
        pure ({ values := [a, a2, b, b2],
                found := [pre.GetEntityFromUID ea.m_activatableUID],
                links := [[linkFields pre a, linkFields pre b, linkFields pre b2],
                          [linkFields post a, linkFields post b, linkFields post b2],
                          [linkFields post2 a, linkFields post2 b, linkFields post2 b2]] } :
              Report)) =
      some { values := [128, 132, 137, 142],
             found := [some 142],
             links :=
               [[some (⟨0x79007F⟩, ⟨0x7C008D⟩, EntityUID.INVALID),
                 some (⟨0x7B0088⟩, EntityUID.INVALID, ⟨0x79007F⟩),
                 some (⟨0x7C008D⟩, EntityUID.INVALID, ⟨0x79007F⟩)],
                [some (⟨0x79007F⟩, ⟨0x7B0088⟩, EntityUID.INVALID),
                 some (⟨0x7B0088⟩, EntityUID.INVALID, ⟨0x79007F⟩),
                 some (⟨0x7C008D⟩, EntityUID.INVALID, ⟨0x79007F⟩)],
                [some (⟨0x79007F⟩, ⟨0x7B0088⟩, EntityUID.INVALID),
                 some (⟨0x7B0088⟩, EntityUID.INVALID, ⟨0x79007F⟩),
                 some (⟨0x7C008D⟩, EntityUID.INVALID, ⟨0x79007F⟩)]] } := by
  decide!

/-- C9, failing input.  In the new map the left hand places a button `A` (address
`128`) and a door `B` (`133`).  In edit mode it grabs `A`, the Link control of `A`
raises `Player::Event_LinkEntity`, and the left hand presses select while hovering
`B`: the two are linked and a Link record is pushed on top of the left hand's undo
stack.  `UndoLastAction` of the left hand then pops the Link record, but restores no
link and pushes nothing onto the redo stack.  `undoStacks` is the top of the left
hand's undo stack before the undo and after it, `redoStacks` its redo stack after;
the rows of `links` give `A` and `B` before the pick, after it and after the undo. -/
theorem C9_hand_undo_of_link_record_pushes_nothing :
    (do let (l1, m1) ← handPlaces { m_hand := XRHand.LEFT } newMap 5 0
        let a := topCreated l1.m_undoActionStack
        let (l2, m2) ← handPlaces l1 m1 4 0
        let b := topCreated l2.m_undoActionStack
        let p0 : Player := { m_leftController := { l2 with m_hoveredEntity := a } }
        let (p1, m3) ← p0.HandleEditInput_gripPressed XRHand.LEFT m2
        let ea ← m3.deref a
        let (p2, m4, _) ← p1.Event_LinkEntity m3 ea.m_uid.m_uid
        let (p3, m5) ←
          (p2.setController XRHand.LEFT
            { p2.m_leftController with m_hoveredEntity := b }).HandleEditInput_selectButton
            XRHand.LEFT m4
        let (p4, m6) ← p3.handUndoLastAction XRHand.LEFT m5
        pure ({ values := [a, b],
                undoStacks := [(p3.m_leftController.m_undoActionStack.take 2).map Action.summary,
                               (p4.m_leftController.m_undoActionStack.take 1).map Action.summary],
                redoStacks := [p4.m_leftController.m_redoActionStack.map Action.summary],
                links := [[linkFields m4 a, linkFields m4 b],
                          [linkFields m5 a, linkFields m5 b],
                          [linkFields m6 a, linkFields m6 b]] } : Report)) =
      some { values := [128, 133],
             undoStacks := [[(ActionType.LINK, [128, 133]), (ActionType.TRANSLATE, [128])],
                            [(ActionType.TRANSLATE, [128])]],
             redoStacks := [[]],
             links :=
               [[some (⟨0x79007F⟩, EntityUID.INVALID, EntityUID.INVALID),
                 some (⟨0x7A0084⟩, EntityUID.INVALID, EntityUID.INVALID)],
                [some (⟨0x79007F⟩, ⟨0x7A0084⟩, EntityUID.INVALID),
                 some (⟨0x7A0084⟩, EntityUID.INVALID, ⟨0x79007F⟩)],
                [some (⟨0x79007F⟩, ⟨0x7A0084⟩, EntityUID.INVALID),
                 some (⟨0x7A0084⟩, EntityUID.INVALID, ⟨0x79007F⟩)]] } := by
  decide!

/-! ### Undo and redo: empty stacks and frame (C11, C12, C13) -/

/-- C11.  `UndoLastAction` on an empty undo stack and `RedoLastAction` on an empty redo
stack return and change nothing, for a hand controller and for the mouse-keyboard
player: the actor (with both of its stacks) and the map (with every entity) are as
before. -/
theorem C11_empty_stack_is_no_op (h : HandController) (p : Player) (m : Map) :
    (h.m_undoActionStack = [] → h.UndoLastAction m = some (h, m)) ∧
    (h.m_redoActionStack = [] → h.RedoLastAction m = some (h, m)) ∧
    (p.m_undoActionStack = [] → p.UndoLastAction m = some (p, m)) ∧
    (p.m_redoActionStack = [] → p.RedoLastAction m = some (p, m)) := by
  refine ⟨?_, ?_, ?_, ?_⟩ <;> intro hs
  · simp only [HandController.UndoLastAction, hs]
  · simp only [HandController.RedoLastAction, hs]
  · simp only [Player.UndoLastAction, hs]
  · simp only [Player.RedoLastAction, hs]

/-- C11, witness: a hand controller whose undo stack is empty and whose redo stack
holds a record, on the small map. -/
theorem C11_empty_stack_is_no_op_witness :
    ({ m_redoActionStack := [{ m_actionType := ActionType.TRANSLATE, m_actionEntity := 5 }] } :
        HandController).m_undoActionStack = [] ∧
      ({ m_redoActionStack := [{ m_actionType := ActionType.TRANSLATE, m_actionEntity := 5 }] } :
        HandController).UndoLastAction smallMap =
        some ({ m_redoActionStack :=
                  [{ m_actionType := ActionType.TRANSLATE, m_actionEntity := 5 }] }, smallMap) :=
  ⟨rfl, (C11_empty_stack_is_no_op
    { m_redoActionStack := [{ m_actionType := ActionType.TRANSLATE, m_actionEntity := 5 }] }
    {} smallMap).1 rfl⟩

/-- What `Player::RedoLastAction` does to the stacks and the controllers when it returns. -/
theorem redo_player_stacks (p p' : Player) (m m' : Map)
    (hr : p.RedoLastAction m = some (p', m')) :
    p'.m_undoActionStack = p.m_undoActionStack ∧
    p'.m_redoActionStack = p.m_redoActionStack.tail ∧
    p'.m_leftController = p.m_leftController ∧
    p'.m_rightController = p.m_rightController := by
  unfold Player.RedoLastAction at hr
  cases hs : p.m_redoActionStack with
  | nil =>
    rw [hs] at hr
    simp only [Option.some.injEq, Prod.mk.injEq] at hr
    rw [← hr.1, hs]; exact ⟨rfl, rfl, rfl, rfl⟩
  | cons a rest =>
    simp only [hs] at hr
    split at hr <;>
    · simp only [Option.map_eq_some'] at hr
      obtain ⟨m1, _, hm1⟩ := hr
      simp only [Prod.mk.injEq] at hm1
      rw [← hm1.1]; exact ⟨rfl, rfl, rfl, rfl⟩

theorem undo_player_frame (p p' : Player) (m m' : Map)
    (hr : p.UndoLastAction m = some (p', m')) :
    p'.m_leftController = p.m_leftController ∧
    p'.m_rightController = p.m_rightController := by
  unfold Player.UndoLastAction at hr
  cases hs : p.m_undoActionStack with
  | nil =>
    rw [hs] at hr
    simp only [Option.some.injEq, Prod.mk.injEq] at hr
    rw [← hr.1]; exact ⟨rfl, rfl⟩
  | cons a rest =>
    simp only [hs] at hr
    split at hr <;>
    · simp only [Option.map_eq_some'] at hr
      obtain ⟨m1, _, hm1⟩ := hr
      simp only [Prod.mk.injEq] at hm1
      rw [← hm1.1]; exact ⟨rfl, rfl⟩

theorem setController_frame (p : Player) (hand : XRHand) (c c0 : HandController)
    (hc : p.getController hand = some c0) :
    (p.setController hand c).getController hand.other = p.getController hand.other ∧
    (p.setController hand c).m_undoActionStack = p.m_undoActionStack ∧
    (p.setController hand c).m_redoActionStack = p.m_redoActionStack := by
  cases hand
  · cases hc
  · exact ⟨rfl, rfl, rfl⟩
  · exact ⟨rfl, rfl, rfl⟩

/-- C12.  `UndoLastAction` and `RedoLastAction` of the controller of one hand, when they
return, leave the controller of the other hand and both stacks of the mouse-keyboard
player as they were; `UndoLastAction` and `RedoLastAction` of the mouse-keyboard player
leave both hand controllers as they were.  Nothing is assumed about the map or about
the entity the operation writes. -/
theorem C12_undo_redo_keep_other_actors (p p' : Player) (m m' : Map) (hand : XRHand) :
    ((p.handUndoLastAction hand m = some (p', m') ∨
        p.handRedoLastAction hand m = some (p', m')) →
      p'.getController hand.other = p.getController hand.other ∧
      p'.m_undoActionStack = p.m_undoActionStack ∧
      p'.m_redoActionStack = p.m_redoActionStack) ∧
    ((p.UndoLastAction m = some (p', m') ∨ p.RedoLastAction m = some (p', m')) →
      p'.m_leftController = p.m_leftController ∧
      p'.m_rightController = p.m_rightController) := by
  constructor
  · intro h
    cases hc : p.getController hand with
    | none =>
      rcases h with h | h
      · simp [Player.handUndoLastAction, hc] at h
      · simp [Player.handRedoLastAction, hc] at h
    | some c0 =>
      rcases h with h | h
      · simp only [Player.handUndoLastAction, hc, Option.bind_eq_bind, Option.some_bind,
          Option.bind_eq_some, Option.pure_def, Option.some.injEq, Prod.mk.injEq] at h
        obtain ⟨r, _, hr, _⟩ := h
        rw [← hr]
        exact setController_frame p hand r.1 c0 hc
      · simp only [Player.handRedoLastAction, hc, Option.bind_eq_bind, Option.some_bind,
          Option.bind_eq_some, Option.pure_def, Option.some.injEq, Prod.mk.injEq] at h
        obtain ⟨r, _, hr, _⟩ := h
        rw [← hr]
        exact setController_frame p hand r.1 c0 hc
  · intro h
    rcases h with h | h
    · exact undo_player_frame p p' m m' h
    · exact (redo_player_stacks p p' m m' h).2.2

/-- C12, witness: the mouse-keyboard actor undoes its Scale record on the crate, which
the right hand is dragging and the left hand hovers; both controllers stay as they
were. -/
theorem C12_undo_redo_keep_other_actors_witness :
    ∃ (p' : Player) (m' : Map),
      twoHands.UndoLastAction smallMap = some (p', m') ∧
      p'.m_leftController = twoHands.m_leftController ∧
      p'.m_rightController = twoHands.m_rightController := by
  have hs : (twoHands.UndoLastAction smallMap).isSome = true := by decide!
  obtain ⟨⟨p', m'⟩, hr⟩ := Option.isSome_iff_exists.1 hs
  exact ⟨p', m', hr,
    (C12_undo_redo_keep_other_actors twoHands p' smallMap m' XRHand.LEFT).2 (Or.inl hr)⟩

theorem EntityUID.fromIndexSalt_raw (index salt : Nat) (hi : index < 2 ^ 16)
    (hs : salt < 2 ^ 16) : (EntityUID.fromIndexSalt index salt).m_uid = 2 ^ 16 * index + salt := by
  have h1 : u32 index = index := Nat.mod_eq_of_lt (by omega)
  have h2 : u32 salt = salt := Nat.mod_eq_of_lt (by omega)
  have h3 : u32 (index <<< 16) = 2 ^ 16 * index := by
    rw [Nat.shiftLeft_eq, Nat.mul_comm]
    exact Nat.mod_eq_of_lt (by omega)
  show u32 (u32 index <<< 16) ||| u32 salt = _
  rw [h1, h2, h3]
  exact (Nat.mul_add_lt_is_or hs index).symm

theorem EntityUID.GetIndex_raw (index salt : Nat) (hi : index < 2 ^ 16) (hs : salt < 2 ^ 16) :
    (EntityUID.mk (2 ^ 16 * index + salt)).GetIndex = index := by
  show ((2 ^ 16 * index + salt) &&& 0xFFFF0000) >>> 16 = index
  apply Nat.eq_of_testBit_eq
  intro j
  rw [Nat.testBit_shiftRight, Nat.testBit_and, Nat.mul_add_lt_is_or hs, Nat.testBit_or]
  have e1 : (0xFFFF0000 : Nat) = (2 ^ 16 - 1) <<< 16 := by decide
  rw [e1, Nat.testBit_shiftLeft, Nat.testBit_two_pow_sub_one]
  have e2 : 2 ^ 16 * index = index <<< 16 := by rw [Nat.shiftLeft_eq, Nat.mul_comm]
  rw [e2, Nat.testBit_shiftLeft]
  have e3 : salt.testBit (16 + j) = false :=
    Nat.testBit_lt_two_pow (lt_of_lt_of_le hs (Nat.pow_le_pow_right (by decide) (by omega)))
  rw [e3]
  have e4 : 16 + j - 16 = j := by omega
  rw [e4]
  by_cases hj : j < 16
  · simp [hj]
  · have : index.testBit j = false :=
      Nat.testBit_lt_two_pow (lt_of_lt_of_le hi (Nat.pow_le_pow_right (by decide) (by omega)))
    simp [this]

theorem EntityUID.GetIndex_fromIndexSalt (index salt : Nat) (hi : index < 2 ^ 16)
    (hs : salt < 2 ^ 16) : (EntityUID.fromIndexSalt index salt).GetIndex = index := by
  have h := EntityUID.fromIndexSalt_raw index salt hi hs
  have : EntityUID.fromIndexSalt index salt = ⟨2 ^ 16 * index + salt⟩ := by
    cases hx : EntityUID.fromIndexSalt index salt
    rw [hx] at h
    simp only at h
    rw [h]
  rw [this]
  exact EntityUID.GetIndex_raw index salt hi hs

theorem firstEmptySlot_spec (l : List Ptr) :
    firstEmptySlot l ≤ l.length ∧
    (firstEmptySlot l < l.length → l.getD (firstEmptySlot l) 1 = 0) ∧
    ∀ j, j < firstEmptySlot l → l.getD j 0 ≠ 0 := by
  induction l with
  | nil => simp [firstEmptySlot]
  | cons p rest ih =>
    unfold firstEmptySlot
    by_cases hp : p = 0
    · simp [hp]
    · obtain ⟨h1, h2, h3⟩ := ih
      simp only [hp, if_false]
      refine ⟨by simp; omega, ?_, ?_⟩
      · intro hlt
        have : firstEmptySlot rest < rest.length := by simpa using hlt
        simpa using h2 this
      · intro j hj
        cases j with
        | zero => simpa using hp
        | succ k => simpa using h3 k (by omega)

theorem constructEntity_uid (type : EntityType) (uid : EntityUID) (position : Vec3)
    (orientation : EulerAngles) (scale roll : ℚ) (e : Entity)
    (h : constructEntity type uid position orientation scale roll = some e) :
    e.m_uid = uid ∧ e.m_type = type ∧ e.m_position = position := by
  unfold constructEntity at h
  cases type <;> simp only [Option.some.injEq] at h <;> first | (subst h; exact ⟨rfl, rfl, rfl⟩) | cases h

theorem constructEntity_isSome (type : EntityType) (uid : EntityUID) (position : Vec3)
    (orientation : EulerAngles) (scale roll : ℚ)
    (h1 : type ≠ EntityType.NONE) (h2 : type ≠ EntityType.NUM) :
    ∃ e, constructEntity type uid position orientation scale roll = some e := by
  unfold constructEntity
  cases type <;> first | exact ⟨_, rfl⟩ | exact absurd rfl h1 | exact absurd rfl h2

theorem Map.CreateEntityOfType_some (m : Map) (type : EntityType) (position : Vec3)
    (orientation : EulerAngles) (scale : ℚ) (e : Entity)
    (he : constructEntity type
      (EntityUID.fromIndexSalt (firstEmptySlot m.m_entities) m.m_entityUIDSalt) position
      orientation scale (m.rngYaw.headD 0) = some e) :
    (m.CreateEntityOfType type position orientation scale).2 = m.heap.length + 1 ∧
    (m.CreateEntityOfType type position orientation scale).1.deref (m.heap.length + 1) =
      some e ∧
    (m.CreateEntityOfType type position orientation scale).1.m_entities = m.m_entities ∧
    (m.CreateEntityOfType type position orientation scale).1.m_entityUIDSalt =
      u32 (m.m_entityUIDSalt + 1) ∧
    (m.CreateEntityOfType type position orientation scale).1.heap = m.heap ++ [some e] := by
  unfold Map.CreateEntityOfType Map.CreateEntityOfTypeWithUID
  simp only [he]
  split <;> simp [Map.alloc, Map.deref]

/-- Within the range of the 16-bit fields, that is with the salt counter and the number
of slots below `2 ^ 16`, `SpawnNewEntityOfType` of an entity kind returns a new entity
whose handle has the first empty slot as index and the counter as salt, stores it in
that slot when the collection has an empty slot and appends it otherwise, and
increments the salt counter. -/
theorem SpawnNewEntityOfType_in_range (m : Map) (type : EntityType) (position : Vec3)
    (orientation : EulerAngles) (scale : ℚ)
    (h1 : type ≠ EntityType.NONE) (h2 : type ≠ EntityType.NUM)
    (hsalt : m.m_entityUIDSalt < 2 ^ 16) (hlen : m.m_entities.length < 2 ^ 16) :
    ∃ (m' : Map) (n : Ptr) (e : Entity),
      m.SpawnNewEntityOfType type position orientation scale = some (m', n) ∧
      n = m.heap.length + 1 ∧ m'.deref n = some e ∧ e.m_type = type ∧
      e.m_position = position ∧
      e.m_uid = EntityUID.fromIndexSalt (firstEmptySlot m.m_entities) m.m_entityUIDSalt ∧
      e.m_uid.GetIndex = firstEmptySlot m.m_entities ∧
      m'.m_entityUIDSalt = m.m_entityUIDSalt + 1 ∧
      (firstEmptySlot m.m_entities < m.m_entities.length →
        m'.m_entities = m.m_entities.set (firstEmptySlot m.m_entities) n) ∧
      (firstEmptySlot m.m_entities = m.m_entities.length →
        m'.m_entities = m.m_entities ++ [n]) := by
  obtain ⟨e, he⟩ := constructEntity_isSome type
    (EntityUID.fromIndexSalt (firstEmptySlot m.m_entities) m.m_entityUIDSalt) position
    orientation scale (m.rngYaw.headD 0) h1 h2
  obtain ⟨hu, ht, hpos⟩ := constructEntity_uid _ _ _ _ _ _ _ he
  have hk := (firstEmptySlot_spec m.m_entities).1
  have hidx : e.m_uid.GetIndex = firstEmptySlot m.m_entities := by
    rw [hu]
    exact EntityUID.GetIndex_fromIndexSalt _ _ (by omega) hsalt
  have hu32 : u32 (m.m_entityUIDSalt + 1) = m.m_entityUIDSalt + 1 :=
    Nat.mod_eq_of_lt (by omega)
  obtain ⟨c1, c2, c3, c4, c5⟩ := Map.CreateEntityOfType_some m type position orientation scale e he
  by_cases hlt : firstEmptySlot m.m_entities < m.m_entities.length
  · refine ⟨{ (m.CreateEntityOfType type position orientation scale).1 with
        m_entities := m.m_entities.set (firstEmptySlot m.m_entities) (m.heap.length + 1) },
      m.heap.length + 1, e, ?_, rfl, ?_, ht, hpos, hu, hidx, ?_, ?_, ?_⟩
    · unfold Map.SpawnNewEntityOfType
      simp only [c1, c2, c3, hidx, hlt, if_true]
      simp
    · exact c2
    · show (m.CreateEntityOfType type position orientation scale).1.m_entityUIDSalt = _
      rw [c4, hu32]
    · intro _; rfl
    · intro h; omega
  · refine ⟨{ (m.CreateEntityOfType type position orientation scale).1 with
        m_entities := m.m_entities ++ [m.heap.length + 1] },
      m.heap.length + 1, e, ?_, rfl, ?_, ht, hpos, hu, hidx, ?_, ?_, ?_⟩
    · unfold Map.SpawnNewEntityOfType
      simp only [c1, c2, c3, hidx, hlt, if_false]
      simp
    · exact c2
    · show (m.CreateEntityOfType type position orientation scale).1.m_entityUIDSalt = _
      rw [c4, hu32]
    · intro h; exact absurd h hlt
    · intro _; rfl

theorem Map.CreateEntityOfType_frame (m : Map) (type : EntityType) (position : Vec3)
    (orientation : EulerAngles) (scale : ℚ) :
    (m.CreateEntityOfType type position orientation scale).1.m_entities = m.m_entities ∧
    (m.CreateEntityOfType type position orientation scale).1.m_entityUIDSalt =
      u32 (m.m_entityUIDSalt + 1) ∧
    ∃ extra, (m.CreateEntityOfType type position orientation scale).1.heap = m.heap ++ extra := by
  unfold Map.CreateEntityOfType Map.CreateEntityOfTypeWithUID
  simp only
  split
  · exact ⟨rfl, rfl, [], by simp⟩
  · split
    · exact ⟨rfl, rfl, _, rfl⟩
    · exact ⟨rfl, rfl, _, rfl⟩

theorem keyEPresses_frame (p : Player) (m : Map) (n : Nat)
    (hn : m.m_entityUIDSalt + n < 2 ^ 32) :
    (keyEPresses n (p, m)).2.m_entities = m.m_entities ∧
    (keyEPresses n (p, m)).2.m_entityUIDSalt = m.m_entityUIDSalt + n ∧
    ∃ extra, (keyEPresses n (p, m)).2.heap = m.heap ++ extra := by
  induction n with
  | zero => exact ⟨rfl, rfl, [], by simp [keyEPresses]⟩
  | succ k ih =>
    obtain ⟨h1, h2, extra, h3⟩ := ih (by omega)
    have hstep : keyEPresses (k + 1) (p, m) =
        (keyEPresses k (p, m)).1.HandleKeyboardMouseEditing_Create_keyE
          (keyEPresses k (p, m)).2 := by
      unfold keyEPresses
      rw [Function.iterate_succ_apply']
    rw [hstep]
    unfold Player.HandleKeyboardMouseEditing_Create_keyE
    simp only
    obtain ⟨g1, g2, extra2, g3⟩ := Map.CreateEntityOfType_frame (keyEPresses k (p, m)).2
      (keyEPresses k (p, m)).1.m_selectedEntityType.cycleNext Vec3.ZERO EulerAngles.ZERO 1
    refine ⟨by rw [g1, h1], ?_, extra ++ extra2, by rw [g3, h3, List.append_assoc]⟩
    rw [g2, h2]
    unfold u32
    rw [Nat.mod_eq_of_lt (by omega)]
    omega

theorem overflow_uid : EntityUID.fromIndexSalt 0 0x10000 = ⟨0x10000⟩ ∧
    (EntityUID.mk 0x10000).GetIndex = 1 ∧ u32 (0x10000 + 1) = 0x10001 := by
  decide

theorem spawn_crate_after_overflow (m : Map) (position : Vec3)
    (hsalt : m.m_entityUIDSalt = 0x10000) (hslot : firstEmptySlot m.m_entities = 0)
    (hlen : 1 < m.m_entities.length) :
    m.SpawnNewEntityOfType EntityType.CRATE position EulerAngles.ZERO 1 =
      some ({ m with
              heap := m.heap ++
                [some { m_uid := ⟨0x10000⟩, m_position := position,
                        m_orientation := EulerAngles.ZERO, m_scale := 1,
                        m_type := EntityType.CRATE }],
              m_entityUIDSalt := 0x10001,
              m_entities := m.m_entities.set 1 (m.heap.length + 1) },
            m.heap.length + 1) := by
  obtain ⟨u1, u2, u3⟩ := overflow_uid
  unfold Map.SpawnNewEntityOfType Map.CreateEntityOfType Map.CreateEntityOfTypeWithUID
  simp only [hsalt, hslot, u1, u3, constructEntity]
  simp [Map.alloc, Map.deref, u2, hlen]

theorem Map.delete_live (m : Map) (a : Nat) (e : Entity) (h : m.deref (a + 1) = some e) :
    m.delete (a + 1) = some { m with heap := m.heap.set a none } := by
  simp [Map.delete, h]

theorem newMap_slots : newMap.heap.length = 122 ∧ newMap.m_entities.length = 121 ∧
    newMap.heap.get? 1 = some (some (newMapTile 0)) ∧
    findSlot 2 newMap.m_entities = some 0 ∧
    firstEmptySlot (newMap.m_entities.set 0 0) = 0 ∧
    (newMap.m_entities.set 0 0).take 3 = [0, 3, 4] ∧
    newMap.m_entityUIDSalt = 122 := by
  decide!

theorem remove_then_spawn_after_overflow (m0 : Map) (extra : List (Option Entity))
    (h1 : m0.m_entities = newMap.m_entities) (h2 : m0.m_entityUIDSalt = 0x10000)
    (h3 : m0.heap = newMap.heap ++ extra) :
    ∃ (m1 m2 : Map) (n : Ptr) (e : Entity),
      m0.RemoveEntityFromMap 2 = some (m1, true) ∧
      m1.m_entities.take 3 = [0, 3, 4] ∧ firstEmptySlot m1.m_entities = 0 ∧
      m1.SpawnNewEntityOfType EntityType.CRATE ⟨0, 0, 0⟩ EulerAngles.ZERO 1 = some (m2, n) ∧
      m2.deref n = some e ∧ e.m_uid.m_uid = 0x10000 ∧ e.m_uid.GetIndex = 1 ∧
      n ≠ 3 ∧ m2.m_entities.take 3 = [0, n, 4] := by
  obtain ⟨k1, k2, k3, k4, k5, k6, k7⟩ := newMap_slots
  have hd : m0.deref 2 = some (newMapTile 0) := by
    show (m0.heap.get? 1).join = _
    rw [List.get?_eq_getElem?] at k3 ⊢
    rw [h3, List.getElem?_append_left (by rw [k1]; norm_num), k3]
    rfl
  have hrem : m0.RemoveEntityFromMap 2 =
      some ({ m0 with heap := m0.heap.set 1 none, m_entities := m0.m_entities.set 0 0 },
        true) := by
    have hf : findSlot 2 m0.m_entities = some 0 := by rw [h1]; exact k4
    have h20 : ¬ ((2 : Ptr) = 0) := by decide
    unfold Map.RemoveEntityFromMap
    rw [if_neg h20]
    simp only [hf, Map.delete_live m0 1 _ hd]
  have hlen : 1 < (m0.m_entities.set 0 0).length := by
    rw [List.length_set, h1, k2]; norm_num
  have hspawn := spawn_crate_after_overflow
    ({ m0 with heap := m0.heap.set 1 none, m_entities := m0.m_entities.set 0 0 } : Map)
    ⟨0, 0, 0⟩ h2 (by show firstEmptySlot (m0.m_entities.set 0 0) = 0; rw [h1]; exact k5) hlen
  refine ⟨_, _, _,
    { m_uid := ⟨0x10000⟩, m_position := ⟨0, 0, 0⟩, m_orientation := EulerAngles.ZERO,
      m_scale := 1, m_type := EntityType.CRATE },
    hrem, ?_, ?_, hspawn, ?_, rfl, overflow_uid.2.1, ?_, ?_⟩
  · show (m0.m_entities.set 0 0).take 3 = _
    rw [h1]; exact k6
  · show firstEmptySlot (m0.m_entities.set 0 0) = 0
    rw [h1]; exact k5
  · simp [Map.deref]
  · show (m0.heap.set 1 none).length + 1 ≠ 3
    rw [List.length_set, h3, List.length_append, k1]; omega
  · show ((m0.m_entities.set 0 0).set 1 _).take 3 = _
    rw [h1]
    have : newMap.m_entities = 2 :: 3 :: 4 :: newMap.m_entities.drop 3 := by decide!
    rw [this]
    rfl

/-- C14, failing input.  In the new map the mouse and keyboard actor presses the key
`E` 65414 times in create mode; every press creates a preview entity through
`CreateEntityOfType`, so the salt counter goes from `122` to `0x10000`, and the
collection is as before.  The floor tile of slot `0` (address `2`) is then removed,
which leaves slot `0` as the lowest empty slot, and a crate is spawned.  Its handle is
`0 << 16 | 0x10000`, whose index field is `1`: the crate is stored in slot `1`, over
the floor tile that slot held (address `3`), and slot `0` stays empty. -/
theorem C14_salt_overflow_stores_in_wrong_slot :
    (keyEPresses 65414 ({}, newMap)).2.m_entityUIDSalt = 0x10000 ∧
    (keyEPresses 65414 ({}, newMap)).2.m_entities = newMap.m_entities ∧
    ∃ (m1 m2 : Map) (n : Ptr) (e : Entity),
      (keyEPresses 65414 ({}, newMap)).2.RemoveEntityFromMap 2 = some (m1, true) ∧
      m1.m_entities.take 3 = [0, 3, 4] ∧ firstEmptySlot m1.m_entities = 0 ∧
      m1.SpawnNewEntityOfType EntityType.CRATE ⟨0, 0, 0⟩ EulerAngles.ZERO 1 = some (m2, n) ∧
      m2.deref n = some e ∧ e.m_uid.m_uid = 0x10000 ∧ e.m_uid.GetIndex = 1 ∧
      n ≠ 3 ∧ m2.m_entities.take 3 = [0, n, 4] := by
  obtain ⟨h1, h2, extra, h3⟩ :=
    keyEPresses_frame {} newMap 65414 (by rw [newMap_slots.2.2.2.2.2.2]; norm_num)
  rw [newMap_slots.2.2.2.2.2.2] at h2
  norm_num at h2
  exact ⟨h2, h1, remove_then_spawn_after_overflow _ extra h1 h2 h3⟩

theorem Map.deref_heap_set (m : Map) (a : Nat) (v : Option Entity) (q : Ptr)
    (ha : a < m.heap.length) :
    ({ m with heap := m.heap.set a v } : Map).deref q = if q = a + 1 then v else m.deref q := by
  cases q with
  | zero => simp [Map.deref]
  | succ b =>
    by_cases hab : b = a
    · subst hab
      simp [Map.deref, ha]
    · have hab' : a ≠ b := fun h => hab h.symm
      simp [Map.deref, List.getElem?_set_ne hab', hab]

theorem Map.deref_lt (m : Map) (a : Nat) (e : Entity) (h : m.deref (a + 1) = some e) :
    a < m.heap.length := by
  simp only [Map.deref] at h
  by_contra hge
  rw [List.get?_eq_none.2 (by omega)] at h
  simp at h

theorem findSlot_eq_none (e : Ptr) (l : List Ptr) : findSlot e l = none ↔ e ∉ l := by
  induction l with
  | nil => simp [findSlot]
  | cons p rest ih =>
    unfold findSlot
    by_cases hp : p = e
    · simp [hp]
    · have hp' : ¬ e = p := fun h => hp h.symm
      simp [hp, hp', ih]

theorem findSlot_some (e : Ptr) (l : List Ptr) (i : Nat) (h : findSlot e l = some i) :
    i < l.length ∧ l.getD i 0 = e ∧ ∀ j, j < i → l.getD j 0 ≠ e := by
  induction l generalizing i with
  | nil => simp [findSlot] at h
  | cons p rest ih =>
    unfold findSlot at h
    by_cases hp : p = e
    · simp only [hp, if_true, Option.some.injEq] at h
      subst h
      refine ⟨by simp, by simp [hp], ?_⟩
      intro j hj; omega
    · simp only [hp, if_false, Option.map_eq_some'] at h
      obtain ⟨k, hk, rfl⟩ := h
      obtain ⟨h1, h2, h3⟩ := ih k hk
      refine ⟨by simp; omega, by simpa using h2, ?_⟩
      intro j hj
      cases j with
      | zero => simpa using hp
      | succ j' =>
        have := h3 j' (by omega)
        simpa using this

/-- C15.  For a live entity `e` held in the collection, `RemoveEntityFromMap` returns
true, deletes `e`, and sets the slot `i` that held it to null: the collection keeps its
length, every other slot, the salt counter and every other object are as before.
For null and for an entity that is not in the collection it returns false and the
map is unchanged. -/
theorem C15_RemoveEntityFromMap_frame (m : Map) (e : Ptr) :
    (∀ x : Entity, e ∈ m.m_entities → m.deref e = some x →
      ∃ (m' : Map) (i : Nat),
        m.RemoveEntityFromMap e = some (m', true) ∧
        i < m.m_entities.length ∧ m.m_entities.getD i 0 = e ∧
        m'.m_entities = m.m_entities.set i 0 ∧
        m'.m_entities.length = m.m_entities.length ∧
        m'.m_entities.getD i 0 = 0 ∧
        (∀ j, j ≠ i → m'.m_entities.getD j 0 = m.m_entities.getD j 0) ∧
        m'.m_entityUIDSalt = m.m_entityUIDSalt ∧
        m'.m_playerStart = m.m_playerStart ∧
        m'.deref e = none ∧
        (∀ q, q ≠ e → m'.deref q = m.deref q)) ∧
    ((e = 0 ∨ e ∉ m.m_entities) → m.RemoveEntityFromMap e = some (m, false)) := by
  constructor
  · intro x hmem hlive
    cases e with
    | zero => simp [Map.deref] at hlive
    | succ a =>
      have hlt := Map.deref_lt m a x hlive
      cases hf : findSlot (a + 1) m.m_entities with
      | none => exact absurd hmem ((findSlot_eq_none _ _).1 hf)
      | some i =>
        obtain ⟨hi, hget, _⟩ := findSlot_some _ _ _ hf
        refine ⟨{ m with heap := m.heap.set a none, m_entities := m.m_entities.set i 0 }, i,
          ?_, hi, hget, rfl, by simp, ?_, ?_, rfl, rfl, ?_, ?_⟩
        · simp [Map.RemoveEntityFromMap, hf, Map.delete, hlive]
        · simp [List.getD_eq_getElem?_getD, hi]
        · intro j hj
          have hj' : i ≠ j := fun h => hj h.symm
          simp [List.getD_eq_getElem?_getD, List.getElem?_set_ne hj']
        · have := Map.deref_heap_set m a none (a + 1) hlt
          simpa [Map.deref] using this
        · intro q hq
          have := Map.deref_heap_set m a none q hlt
          simp only [hq, if_false] at this
          simpa [Map.deref] using this
  · intro h
    unfold Map.RemoveEntityFromMap
    rcases h with h | h
    · simp [h]
    · rw [(findSlot_eq_none _ _).2 h]
      simp

/-- C15, witness: the crate of the small map and its player start. -/
theorem C15_RemoveEntityFromMap_frame_witness :
    (5 ∈ smallMap.m_entities ∧ (smallMap.deref 5).isSome = true ∧
      ∃ (m' : Map), smallMap.RemoveEntityFromMap 5 = some (m', true) ∧
        m'.m_entities = [2, 3, 4, 0] ∧ m'.m_entityUIDSalt = 5) ∧
    (smallMap.m_playerStart ∉ smallMap.m_entities ∧
      smallMap.RemoveEntityFromMap smallMap.m_playerStart = some (smallMap, false)) :=
  ⟨⟨by decide, by decide, by
      obtain ⟨m', i, h1, _, _, _, _, _, _, h8, _⟩ :=
        (C15_RemoveEntityFromMap_frame smallMap 5).1 _ (by decide) rfl
      refine ⟨m', h1, ?_, h8⟩
      have h2 : smallMap.RemoveEntityFromMap 5 =
          some ({ smallMap with heap := smallMap.heap.set 4 none,
                                m_entities := [2, 3, 4, 0] }, true) := by decide!
      rw [h2] at h1
      simp only [Option.some.injEq, Prod.mk.injEq, and_true] at h1
      rw [← h1]⟩,
   ⟨by decide, (C15_RemoveEntityFromMap_frame smallMap smallMap.m_playerStart).2
      (Or.inr (by decide))⟩⟩

/-- C16.  For index and salt values below `2 ^ 16` the handle built from them has that
index field; two such handles compare equal (`operator==`) exactly when both fields
agree; `operator!=` is the negation of `operator==` on all handles; and
`EntityUID::INVALID`, built from the fields `0xFFFF` and `0xFFFF`, has the raw value
`0xFFFFFFFF`, which is `ENTITYUID_INVALID`. -/
theorem C16_EntityUID_fields (i1 s1 i2 s2 : Nat) (hi1 : i1 < 2 ^ 16) (hs1 : s1 < 2 ^ 16)
    (hi2 : i2 < 2 ^ 16) (hs2 : s2 < 2 ^ 16) :
    (EntityUID.fromIndexSalt i1 s1).GetIndex = i1 ∧
    ((EntityUID.fromIndexSalt i1 s1).eq (EntityUID.fromIndexSalt i2 s2) = true ↔
      i1 = i2 ∧ s1 = s2) ∧
    (∀ a b : EntityUID, a.ne b = !a.eq b) ∧
    EntityUID.INVALID = EntityUID.fromIndexSalt 0xFFFF 0xFFFF ∧
    EntityUID.INVALID.m_uid = 0xFFFFFFFF ∧
    EntityUID.INVALID.m_uid = ENTITYUID_INVALID := by
  refine ⟨?_, ?_, ?_, rfl, by decide, by decide⟩
  · have h := EntityUID.fromIndexSalt_raw i1 s1 hi1 hs1
    have : EntityUID.fromIndexSalt i1 s1 = ⟨2 ^ 16 * i1 + s1⟩ := by
      cases hx : EntityUID.fromIndexSalt i1 s1
      rw [hx] at h
      simp only at h
      rw [h]
    rw [this]
    exact EntityUID.GetIndex_raw i1 s1 hi1 hs1
  · have h1 := EntityUID.fromIndexSalt_raw i1 s1 hi1 hs1
    have h2 := EntityUID.fromIndexSalt_raw i2 s2 hi2 hs2
    unfold EntityUID.eq
    rw [h1, h2, beq_iff_eq]
    constructor
    · intro h; omega
    · rintro ⟨rfl, rfl⟩; rfl
  · intro a b
    unfold EntityUID.ne EntityUID.eq
    rfl

/-- C16, witness: the handles with fields `(3, 4)` and `(3, 5)`. -/
theorem C16_EntityUID_fields_witness :
    (EntityUID.fromIndexSalt 3 4).GetIndex = 3 ∧
    ((EntityUID.fromIndexSalt 3 4).eq (EntityUID.fromIndexSalt 3 5) = true ↔
      3 = 3 ∧ 4 = 5) :=
  ⟨(C16_EntityUID_fields 3 4 3 5 (by decide) (by decide) (by decide) (by decide)).1,
   (C16_EntityUID_fields 3 4 3 5 (by decide) (by decide) (by decide) (by decide)).2.1⟩

/-! ### Two-handed scale and the link event (C17, C18) -/

theorem Map.SetSelectedEntity_null (m : Map) (ps : Entity)
    (hps : m.deref m.m_playerStart = some ps) (hslots : m.slotsLive = true) :
    m.SetSelectedEntity 0 = some { m with m_selectedEntity := 0 } := by
  simp [Map.SetSelectedEntity, hps, hslots]

theorem gripPressed_starts_scale (p : Player) (m : Map) (hand : XRHand)
    (this otherC : HandController) (x : Entity)
    (hthis : p.getController hand = some this)
    (hother : p.getController hand.other = some otherC)
    (htr : otherC.m_actionState = ActionType.TRANSLATE)
    (hsel : this.m_hoveredEntity = otherC.m_selectedEntity)
    (hlive : m.deref this.m_hoveredEntity = some x) :
    p.HandleEditInput_gripPressed hand m =
      some ((p.setController hand.other
              { otherC with m_actionState := ActionType.SCALE }).setController hand
              { this with m_actionState := ActionType.SCALE,
                          m_selectedEntityType := x.m_type,
                          m_selectedEntityPosition := x.m_position,
                          m_selectedEntityOrientation := x.m_orientation,
                          m_selectedEntityScale := x.m_scale,
                          m_selectedEntity := this.m_hoveredEntity,
                          m_undoActionStack :=
                            scaleRecord this.m_hoveredEntity x :: this.m_undoActionStack,
                          m_isResponsibleForScaling := true },
            { m with m_isUnsaved := true }) := by
  unfold Player.HandleEditInput_gripPressed
  simp [hthis, hother, htr, ← hsel, hlive, scaleRecord]

theorem gripReleased_ends_scale (p : Player) (m : Map) (hand : XRHand)
    (this otherC : HandController) (ps : Entity)
    (hthis : p.getController hand = some this)
    (hother : p.getController hand.other = some otherC)
    (hst : this.m_actionState = ActionType.SCALE)
    (hps : m.deref m.m_playerStart = some ps) (hslots : m.slotsLive = true) :
    p.HandleEditInput_gripReleased hand m =
      some ((p.setController hand.other
              { otherC with m_actionState := ActionType.NONE,
                            m_selectedEntityType := EntityType.NONE,
                            m_selectedEntity := 0 }).setController hand
              { this with m_selectedEntityType := EntityType.NONE, m_selectedEntity := 0,
                          m_actionState := ActionType.NONE,
                          m_isResponsibleForScaling := false },
            { m with m_selectedEntity := 0 }) := by
  unfold Player.HandleEditInput_gripReleased
  simp [hthis, hother, hst, Map.SetSelectedEntity_null m ps hps hslots]

/-- C17.  Two-handed scale.  The controller of `hand` presses grip while hovering a
live entity that the other hand has selected in `TRANSLATE` mode: the block returns,
both hands are in `SCALE` mode, the pressing hand has pushed exactly one record, a
Scale record of that entity holding its scale before the gesture, and the other hand
(and the mouse-keyboard player) have pushed none.  When then either hand releases grip
(in a map whose player start and slots are live), the block returns, both hands are
in mode `NONE` and the selected entity of both is null. -/
theorem C17_two_handed_scale (p : Player) (m : Map) (hand : XRHand)
    (this otherC : HandController) (x ps : Entity)
    (hthis : p.getController hand = some this)
    (hother : p.getController hand.other = some otherC)
    (htr : otherC.m_actionState = ActionType.TRANSLATE)
    (hsel : this.m_hoveredEntity = otherC.m_selectedEntity)
    (hlive : m.deref this.m_hoveredEntity = some x)
    (hps : m.deref m.m_playerStart = some ps) (hslots : m.slotsLive = true) :
    ∃ (p1 : Player) (m1 : Map) (this1 other1 : HandController),
      p.HandleEditInput_gripPressed hand m = some (p1, m1) ∧
      p1.getController hand = some this1 ∧ p1.getController hand.other = some other1 ∧
      this1.m_actionState = ActionType.SCALE ∧ other1.m_actionState = ActionType.SCALE ∧
      this1.m_undoActionStack =
        scaleRecord this.m_hoveredEntity x :: this.m_undoActionStack ∧
      (scaleRecord this.m_hoveredEntity x).m_actionType = ActionType.SCALE ∧
      (scaleRecord this.m_hoveredEntity x).m_actionEntity = this.m_hoveredEntity ∧
      (scaleRecord this.m_hoveredEntity x).m_actionEntityPreviousScale = x.m_scale ∧
      other1.m_undoActionStack = otherC.m_undoActionStack ∧
      p1.m_undoActionStack = p.m_undoActionStack ∧
      ∀ released : XRHand, released = hand ∨ released = hand.other →
        ∃ (p2 : Player) (m2 : Map) (a b : HandController),
          p1.HandleEditInput_gripReleased released m1 = some (p2, m2) ∧
          p2.getController hand = some a ∧ p2.getController hand.other = some b ∧
          a.m_actionState = ActionType.NONE ∧ b.m_actionState = ActionType.NONE ∧
          a.m_selectedEntity = 0 ∧ b.m_selectedEntity = 0 := by
  have hpress := gripPressed_starts_scale p m hand this otherC x hthis hother htr hsel hlive
  have hps1 : ({ m with m_isUnsaved := true } : Map).deref
      ({ m with m_isUnsaved := true } : Map).m_playerStart = some ps := hps
  have hslots1 : ({ m with m_isUnsaved := true } : Map).slotsLive = true := hslots
  cases hand with
  | NONE => cases hthis
  | LEFT =>
    simp only [Player.getController, XRHand.other, Option.some.injEq] at hthis hother
    refine ⟨_, _, _, _, hpress, rfl, rfl, rfl, rfl, rfl, rfl, rfl, rfl, rfl, rfl, ?_⟩
    intro released hrel
    rcases hrel with rfl | rfl
    · exact ⟨_, _, _, _,
        gripReleased_ends_scale _ _ XRHand.LEFT _ _ ps rfl rfl rfl hps1 hslots1,
        rfl, rfl, rfl, rfl, rfl, rfl⟩
    · exact ⟨_, _, _, _,
        gripReleased_ends_scale _ _ XRHand.RIGHT _ _ ps rfl rfl rfl hps1 hslots1,
        rfl, rfl, rfl, rfl, rfl, rfl⟩
  | RIGHT =>
    simp only [Player.getController, XRHand.other, Option.some.injEq] at hthis hother
    refine ⟨_, _, _, _, hpress, rfl, rfl, rfl, rfl, rfl, rfl, rfl, rfl, rfl, rfl, ?_⟩
    intro released hrel
    rcases hrel with rfl | rfl
    · exact ⟨_, _, _, _,
        gripReleased_ends_scale _ _ XRHand.RIGHT _ _ ps rfl rfl rfl hps1 hslots1,
        rfl, rfl, rfl, rfl, rfl, rfl⟩
    · exact ⟨_, _, _, _,
        gripReleased_ends_scale _ _ XRHand.LEFT _ _ ps rfl rfl rfl hps1 hslots1,
        rfl, rfl, rfl, rfl, rfl, rfl⟩

/-- C17, witness: on the small map the right hand of `twoHands` is dragging the crate
and the left hand, hovering the crate, presses grip.  Both hands end in `SCALE` mode,
the left hand has pushed one record on top of the one it had, and the right hand
still has its single record. -/
theorem C17_two_handed_scale_witness :
    ∃ (p1 : Player) (m1 : Map) (this1 other1 : HandController),
      twoHands.HandleEditInput_gripPressed XRHand.LEFT smallMap = some (p1, m1) ∧
      p1.getController XRHand.LEFT = some this1 ∧
      p1.getController XRHand.RIGHT = some other1 ∧
      this1.m_actionState = ActionType.SCALE ∧ other1.m_actionState = ActionType.SCALE ∧
      this1.m_undoActionStack.length = 2 ∧ other1.m_undoActionStack.length = 1 := by
  obtain ⟨p1, m1, this1, other1, h1, h2, h3, h4, h5, h6, _, _, _, h10, _⟩ :=
    C17_two_handed_scale twoHands smallMap XRHand.LEFT twoHands.m_leftController
      twoHands.m_rightController _ _ rfl rfl rfl rfl rfl rfl rfl
  exact ⟨p1, m1, this1, other1, h1, h2, h3, h4, h5, by rw [h6]; rfl, by rw [h10]; rfl⟩

/-- C18, failing input.  In the new map the event `LinkEntity` arrives with the handle
of the floor tile of slot `0` (raw value `1`, address `2`), a grass tile, which is
neither an activator nor an activatable, while all three actors are in mode `NONE`.
`Player::Event_LinkEntity` returns true, stores the tile in `m_linkingEntity` and puts
the mouse-keyboard actor and both hands in mode `LINK`; the two pulse flags stay
false.  `values` is the handle and `m_linkingEntity` after the call, `returned` the
returned value and the two pulse flags, `modes` the modes of the mouse-keyboard actor,
the left hand and the right hand after the call. -/
theorem C18_link_event_on_tile_is_handled :
    (do let e ← newMap.deref 2
        let (p1, m1, handled) ← ({} : Player).Event_LinkEntity newMap e.m_uid.m_uid
        pure ({ values := [e.m_uid.m_uid, p1.m_linkingEntity],
                kinds := [e.m_type],
                returned := [handled, m1.m_isPulsingActivatables, m1.m_isPulsingActivators],
                modes := [p1.m_mouseActionState, p1.m_leftController.m_actionState,
                          p1.m_rightController.m_actionState] } : Report)) =
      some { values := [1, 2],
             kinds := [EntityType.TILE_GRASS],
             returned := [true, false, false],
             modes := [ActionType.LINK, ActionType.LINK, ActionType.LINK] } := by
  decide!

/-! ### Grid snap and axis lock (C19, C20) -/

theorem fabsf_eq_abs (q : ℚ) : fabsf q = |q| := by
  unfold fabsf
  split
  · rw [abs_of_nonneg]; assumption
  · rw [abs_of_neg]; linarith

theorem roundf_nearest (q : ℚ) :
    (∃ n : Int, roundf q = (n : ℚ)) ∧ ∀ k : Int, |roundf q - q| ≤ |(k : ℚ) - q| := by
  have key : ∀ (n : Int), (n : ℚ) - q ≤ 1 / 2 → q - (n : ℚ) ≤ 1 / 2 →
      ∀ k : Int, |(n : ℚ) - q| ≤ |(k : ℚ) - q| := by
    intro n h1 h2 k
    have hn : |(n : ℚ) - q| ≤ 1 / 2 := abs_le.2 ⟨by linarith, h1⟩
    by_cases hk : k = n
    · rw [hk]
    · have h3 : (1 : ℚ) ≤ |(k : ℚ) - (n : ℚ)| := by
        have : (1 : Int) ≤ |k - n| := Int.one_le_abs (sub_ne_zero.2 hk)
        have h4 : ((1 : Int) : ℚ) ≤ ((|k - n| : Int) : ℚ) := Int.cast_le.2 this
        simpa using h4
      have h5 : |(k : ℚ) - (n : ℚ)| ≤ |(k : ℚ) - q| + |(n : ℚ) - q| := by
        have := abs_sub_le (k : ℚ) q (n : ℚ)
        rw [abs_sub_comm q (n : ℚ)] at this
        exact this
      linarith
  unfold roundf
  split
  · refine ⟨⟨_, rfl⟩, ?_⟩
    have h1 : ((Rat.floor (q + 1 / 2) : Int) : ℚ) ≤ q + 1 / 2 := Int.floor_le (q + 1 / 2)
    have h2 : q + 1 / 2 < ((Rat.floor (q + 1 / 2) : Int) : ℚ) + 1 :=
      Int.lt_floor_add_one (q + 1 / 2)
    exact key _ (by linarith) (by linarith)
  · refine ⟨⟨-Rat.floor (-q + 1 / 2), by push_cast; rfl⟩, ?_⟩
    have h1 : ((Rat.floor (-q + 1 / 2) : Int) : ℚ) ≤ -q + 1 / 2 := Int.floor_le (-q + 1 / 2)
    have h2 : -q + 1 / 2 < ((Rat.floor (-q + 1 / 2) : Int) : ℚ) + 1 :=
      Int.lt_floor_add_one (-q + 1 / 2)
    have := key (-Rat.floor (-q + 1 / 2)) (by push_cast; linarith) (by push_cast; linarith)
    intro k
    have hk := this k
    push_cast at hk
    exact hk

theorem snapAxis_spec (c aim : ℚ) :
    (|roundf c - c| < 1 / 10 →
      snapAxis c (roundf c - c) aim = (roundf c, aim + (roundf c - c))) ∧
    (1 / 10 ≤ |roundf c - c| → snapAxis c (roundf c - c) aim = (c, aim)) := by
  unfold snapAxis
  rw [fabsf_eq_abs]
  constructor
  · intro h
    rw [if_pos h]
    congr 1
    ring
  · intro h
    rw [if_neg (not_lt.2 h)]

theorem Map.modify_position_deref (m : Map) (entity : Ptr) (e : Entity) (g : Vec3 → Vec3)
    (hlive : m.deref entity = some e) :
    ∃ m' : Map,
      m.modify entity (fun x => { x with m_position := g x.m_position }) = some m' ∧
      m'.deref entity = some { e with m_position := g e.m_position } ∧
      (∀ q, q ≠ entity → m'.deref q = m.deref q) ∧
      m'.m_entities = m.m_entities := by
  obtain ⟨m', hm'⟩ := Map.modify_isSome m entity
    (fun x => { x with m_position := g x.m_position }) e hlive
  refine ⟨m', hm', ?_, ?_, (Map.modify_fields m m' _ _ hm').1⟩
  · rw [Map.deref_modify m m' _ _ hm' entity, if_pos rfl, hlive]; rfl
  · intro q hq
    rw [Map.deref_modify m m' _ _ hm' q, if_neg hq]

/-- C19.  `SnapEntityToGrid` of a hand controller and of the mouse-keyboard player, on a
live entity, return the same result; only the position of that entity changes.
`roundf` gives a nearest integer, and each axis is treated by itself: when the
coordinate is less than `0.1` from that integer it becomes the integer and the same
correction is added to the aim sample on that axis; when it is `0.1` or more away, the
coordinate and the aim sample on that axis are left as they were. -/
theorem C19_SnapEntityToGrid_per_axis (h : HandController) (p : Player) (m : Map)
    (entity : Ptr) (e : Entity) (aim : Vec3) (hlive : m.deref entity = some e) :
    (∀ c : ℚ, (∃ n : Int, roundf c = (n : ℚ)) ∧ ∀ k : Int, |roundf c - c| ≤ |(k : ℚ) - c|) ∧
    ∃ (m' : Map) (pos' aim' : Vec3),
      h.SnapEntityToGrid m entity aim = some (m', aim') ∧
      p.SnapEntityToGrid m entity aim = some (m', aim') ∧
      m'.deref entity = some { e with m_position := pos' } ∧
      (∀ q, q ≠ entity → m'.deref q = m.deref q) ∧
      (|roundf e.m_position.x - e.m_position.x| < 1 / 10 →
        pos'.x = roundf e.m_position.x ∧
        aim'.x = aim.x + (roundf e.m_position.x - e.m_position.x)) ∧
      (1 / 10 ≤ |roundf e.m_position.x - e.m_position.x| →
        pos'.x = e.m_position.x ∧ aim'.x = aim.x) ∧
      (|roundf e.m_position.y - e.m_position.y| < 1 / 10 →
        pos'.y = roundf e.m_position.y ∧
        aim'.y = aim.y + (roundf e.m_position.y - e.m_position.y)) ∧
      (1 / 10 ≤ |roundf e.m_position.y - e.m_position.y| →
        pos'.y = e.m_position.y ∧ aim'.y = aim.y) ∧
      (|roundf e.m_position.z - e.m_position.z| < 1 / 10 →
        pos'.z = roundf e.m_position.z ∧
        aim'.z = aim.z + (roundf e.m_position.z - e.m_position.z)) ∧
      (1 / 10 ≤ |roundf e.m_position.z - e.m_position.z| →
        pos'.z = e.m_position.z ∧ aim'.z = aim.z) := by
  refine ⟨roundf_nearest, ?_⟩
  obtain ⟨m', hm', hd, hframe, _⟩ :=
    Map.modify_position_deref m entity e (fun x => (snappedToGrid x aim).1) hlive
  refine ⟨m', (snappedToGrid e.m_position aim).1, (snappedToGrid e.m_position aim).2,
    ?_, ?_, hd, hframe, ?_, ?_, ?_, ?_, ?_, ?_⟩
  · simp only [HandController.SnapEntityToGrid, hlive, hm', Option.map_some']
  · simp only [Player.SnapEntityToGrid, hlive, hm', Option.map_some']
  · intro hx
    simp only [snappedToGrid, Vec3.sub, (snapAxis_spec e.m_position.x aim.x).1 hx, and_self]
  · intro hx
    simp only [snappedToGrid, Vec3.sub, (snapAxis_spec e.m_position.x aim.x).2 hx, and_self]
  · intro hx
    simp only [snappedToGrid, Vec3.sub, (snapAxis_spec e.m_position.y aim.y).1 hx, and_self]
  · intro hx
    simp only [snappedToGrid, Vec3.sub, (snapAxis_spec e.m_position.y aim.y).2 hx, and_self]
  · intro hx
    simp only [snappedToGrid, Vec3.sub, (snapAxis_spec e.m_position.z aim.z).1 hx, and_self]
  · intro hx
    simp only [snappedToGrid, Vec3.sub, (snapAxis_spec e.m_position.z aim.z).2 hx, and_self]

/-- C19, witness: the crate of the small map dragged to `(2.95, 0.5, -1.1)`.  X is
`0.05` from `3` and snaps, with `0.05` added to the aim sample; Y is `0.5` from the
nearest integer and Z exactly `0.1` from `-1`, and both stay. -/
theorem C19_SnapEntityToGrid_per_axis_witness :
    draggedMap.deref 5 = some draggedCrate ∧
      ∃ (m' : Map) (aim' : Vec3),
        ({} : HandController).SnapEntityToGrid draggedMap 5 ⟨0, 0, 0⟩ = some (m', aim') ∧
        aim' = ⟨1 / 20, 0, 0⟩ ∧
        (m'.deref 5).map (fun x => x.m_position) = some ⟨3, 1 / 2, -11 / 10⟩ :=
  ⟨by decide!, by
    obtain ⟨m', pos', aim', h1, _⟩ :=
      (C19_SnapEntityToGrid_per_axis {} {} draggedMap 5 draggedCrate ⟨0, 0, 0⟩ (by decide!)).2
    have h2 : (({} : HandController).SnapEntityToGrid draggedMap 5 ⟨0, 0, 0⟩).map
        (fun r => (r.2, (r.1.deref 5).map (fun x => x.m_position))) =
        some (⟨1 / 20, 0, 0⟩, some ⟨3, 1 / 2, -11 / 10⟩) := by decide!
    rw [h1] at h2
    simp only [Option.map_some', Option.some.injEq, Prod.mk.injEq] at h2
    exact ⟨m', aim', h1, h2.1, h2.2⟩⟩

theorem translatedPosition_spec (position t : Vec3) :
    translatedPosition AxisLockDirection.NONE position t =
      ⟨position.x + t.x, position.y + t.y, position.z + t.z⟩ ∧
    translatedPosition AxisLockDirection.X position t =
      ⟨position.x + t.x, position.y, position.z⟩ ∧
    translatedPosition AxisLockDirection.Y position t =
      ⟨position.x, position.y + t.y, position.z⟩ ∧
    translatedPosition AxisLockDirection.Z position t =
      ⟨position.x, position.y, position.z + t.z⟩ := by
  refine ⟨rfl, ?_, ?_, ?_⟩ <;>
    simp [translatedPosition, Vec3.add, Vec3.scale, Vec3.EAST, Vec3.NORTH, Vec3.SKYWARD]

/-- C20.  `TranslateEntity` of a hand controller and of the mouse-keyboard player on a
live entity, with the axis lock of the actor at `lock` (none, X, Y or Z) and the
translation `t`: the call returns, the position of the entity becomes the old position
plus the whole of `t` without a lock and plus only the X, Y or Z component of `t` on
that coordinate with the lock X, Y or Z; nothing else changes.  With the lock Y and
`t = (3, 4, 5)`, Y grows by `4` and X and Z stay. -/
theorem C20_TranslateEntity_axis_lock (h : HandController) (p : Player) (m : Map)
    (entity : Ptr) (e : Entity) (t : Vec3) (lock : AxisLockDirection)
    (hlock : lock ≠ AxisLockDirection.NUM)
    (hh : h.m_axisLockDirection = lock) (hp : p.m_axisLockDirection = lock)
    (hlive : m.deref entity = some e) :
    ∃ (m' : Map) (pos' : Vec3),
      h.TranslateEntity m entity t = some m' ∧
      p.TranslateEntity m entity t = some m' ∧
      m'.deref entity = some { e with m_position := pos' } ∧
      (∀ q, q ≠ entity → m'.deref q = m.deref q) ∧
      m'.m_entities = m.m_entities ∧
      (lock = AxisLockDirection.NONE →
        pos' = ⟨e.m_position.x + t.x, e.m_position.y + t.y, e.m_position.z + t.z⟩) ∧
      (lock = AxisLockDirection.X →
        pos' = ⟨e.m_position.x + t.x, e.m_position.y, e.m_position.z⟩) ∧
      (lock = AxisLockDirection.Y →
        pos' = ⟨e.m_position.x, e.m_position.y + t.y, e.m_position.z⟩) ∧
      (lock = AxisLockDirection.Z →
        pos' = ⟨e.m_position.x, e.m_position.y, e.m_position.z + t.z⟩) ∧
      (lock = AxisLockDirection.Y → t = ⟨3, 4, 5⟩ →
        pos' = ⟨e.m_position.x, e.m_position.y + 4, e.m_position.z⟩) := by
  obtain ⟨m', hm', hd, hframe, hent⟩ :=
    Map.modify_position_deref m entity e (fun x => translatedPosition lock x t) hlive
  obtain ⟨s0, s1, s2, s3⟩ := translatedPosition_spec e.m_position t
  refine ⟨m', translatedPosition lock e.m_position t, ?_, ?_, hd, hframe, hent,
    ?_, ?_, ?_, ?_, ?_⟩
  · simp only [HandController.TranslateEntity, hh, hlock, if_false, hm']
  · simp only [Player.TranslateEntity, hp, hlock, if_false, hm']
  · intro hl; rw [hl, s0]
  · intro hl; rw [hl, s1]
  · intro hl; rw [hl, s2]
  · intro hl; rw [hl, s3]
  · intro hl ht; rw [hl, s2, ht]

/-- C20, witness: the crate of the small map, at `(4, 0, 0)`, translated by `(3, 4, 5)`
with the lock of both actors at Y: it ends at `(4, 4, 0)`. -/
theorem C20_TranslateEntity_axis_lock_witness :
    smallMap.deref 5 =
        some { m_uid := EntityUID.fromIndexSalt 3 4, m_position := ⟨4, 0, 0⟩,
               m_orientation := EulerAngles.ZERO, m_scale := 1,
               m_type := EntityType.CRATE } ∧
      ∃ (m' : Map),
        ({ m_axisLockDirection := AxisLockDirection.Y } :
          HandController).TranslateEntity smallMap 5 ⟨3, 4, 5⟩ = some m' ∧
        m'.deref 5 =
          some { m_uid := EntityUID.fromIndexSalt 3 4, m_position := ⟨4, 0 + 4, 0⟩,
                 m_orientation := EulerAngles.ZERO, m_scale := 1,
                 m_type := EntityType.CRATE } :=
  ⟨rfl, by
    obtain ⟨m', pos', h1, _, h3, _, _, _, _, _, _, h10⟩ :=
      C20_TranslateEntity_axis_lock { m_axisLockDirection := AxisLockDirection.Y }
        { m_axisLockDirection := AxisLockDirection.Y } smallMap 5
        { m_uid := EntityUID.fromIndexSalt 3 4, m_position := ⟨4, 0, 0⟩,
          m_orientation := EulerAngles.ZERO, m_scale := 1, m_type := EntityType.CRATE }
        ⟨3, 4, 5⟩ AxisLockDirection.Y (by decide) rfl rfl rfl
    exact ⟨m', h1, by rw [h3, h10 rfl rfl]⟩⟩

/-! ### Delete, clone, grab, link pick and select gestures (C21 to C25) -/

/-- C21, failing input.  In the new map the right hand, in mode `NONE`, hovers the floor
tile of slot `0` (address `2`) and presses select: the hand is in mode `SELECT` and the
tile is both its selected and its hovered entity (the hover is not refreshed in mode
`SELECT`).  The back button is then pressed once.  The block deletes the selected
entity and, in a second `if` that is not an `else`, goes on to the hovered entity: it
reads the position of the tile it has just deleted, which is undefined behaviour, so
the gesture has no defined result. -/
theorem C21_hand_delete_of_selected_reads_deleted_entity :
    (do let (p1, m1) ← (handsHovering 0 2).HandleEditInput_selectButton XRHand.RIGHT newMap
        let h1 := p1.m_rightController
        pure ({ modes := [h1.m_actionState],
                values := [h1.m_selectedEntity, h1.m_hoveredEntity],
                live := [(m1.deref 2).isSome],
                returned := [(h1.HandleEditInput_backButton m1).isSome] } : Report)) =
      some { modes := [ActionType.SELECT],
             values := [2, 2],
             live := [true],
             returned := [false] } := by
  decide!

/-- C22, failing input.  In the new map the mouse and keyboard actor places a door
(address `127`; its constructor sets the scale to `MODEL_SCALE`, `2`), hovers it and
presses the up arrow once, which makes its scale `2.1`, and then makes the clone
gesture on it (left mouse button with `Alt`).  The clone (address `128`) is a door at
the same position, but the constructor of `Door` has overwritten the scale it was
given: the clone has scale `2`, not `2.1`.  `scales` lists the scale of the door before
the clone gesture, of the clone, and of the door afterwards. -/
theorem C22_clone_of_scaled_door_has_model_scale :
    (do let (p1, m1) ← mousePlaces {} newMap 4 0
        let d := topCreated p1.m_undoActionStack
        let (p2, m2) ←
          ({ p1 with m_hoveredEntity := d } : Player).HandleKeyboardMouseEditing_Edit_upArrow m1
        let e2 ← m2.deref d
        let (p3, m3) ← p2.HandleKeyboardMouseEditing_Edit_LMBPressed true m2
        let c ← m3.deref p3.m_selectedEntity
        let e3 ← m3.deref d
        pure ({ values := [d, p3.m_selectedEntity],
                kinds := [e2.m_type, c.m_type],
                scales := [e2.m_scale, c.m_scale, e3.m_scale],
                modes := [p3.m_mouseActionState],
                undoStacks := [(p3.m_undoActionStack.take 1).map Action.summary] } : Report)) =
      some { values := [127, 128],
             kinds := [EntityType.DOOR, EntityType.DOOR],
             scales := [21 / 10, 2, 21 / 10],
             modes := [ActionType.CLONE],
             undoStacks := [[(ActionType.CLONE, [128])]] } := by
  decide!

/-- C24, failing input.  In the new map the left hand places a button `A` (address
`128`) and a door `B` (`133`).  In edit mode it hovers `A` and presses select, which
makes `A` its selected entity; the Link control of `A` raises
`Player::Event_LinkEntity`, which puts all actors in mode `LINK`; the left hand then
hovers `B` and presses select.  The pick tells the roles from `m_selectedEntityType`,
which select does not set (it is `NONE`), so it finds no activator and pushes no Link
record, while `Map::LinkEntities` links `A` and `B` all the same.  `undoStacks` is
the undo stack of the left hand before and after the pick; the rows of `links` give
`A` and `B` before and after it; `kinds` is `m_selectedEntityType` at the pick;
`modes` are the modes of the left hand, the right hand and the mouse and keyboard
actor after the pick; `returned` the two pulse flags after it. -/
theorem C24_hand_link_pick_pushes_no_record :
    (do let (l1, m1) ← handPlaces { m_hand := XRHand.LEFT } newMap 5 0
        let a := topCreated l1.m_undoActionStack
        let (l2, m2) ← handPlaces l1 m1 4 0
        let b := topCreated l2.m_undoActionStack
        let p0 : Player := { m_leftController := { l2 with m_hoveredEntity := a } }
        let (p1, m3) ← p0.HandleEditInput_selectButton XRHand.LEFT m2
        let ea ← m3.deref a
        let (p2, m4, _) ← p1.Event_LinkEntity m3 ea.m_uid.m_uid
        let (p3, m5) ←
          (p2.setController XRHand.LEFT
            { p2.m_leftController with m_hoveredEntity := b }).HandleEditInput_selectButton
            XRHand.LEFT m4
        pure ({ values := [a, b, p2.m_leftController.m_selectedEntity, p3.m_linkingEntity],
                kinds := [p2.m_leftController.m_selectedEntityType],
                modes := [p3.m_leftController.m_actionState, p3.m_rightController.m_actionState,
                          p3.m_mouseActionState],
                returned := [m5.m_isPulsingActivatables, m5.m_isPulsingActivators],
                undoStacks := [p2.m_leftController.m_undoActionStack.map Action.summary,
                               p3.m_leftController.m_undoActionStack.map Action.summary],
                links := [[linkFields m4 a, linkFields m4 b],
                          [linkFields m5 a, linkFields m5 b]] } : Report)) =
      some { values := [128, 133, 128, 0],
             kinds := [EntityType.NONE],
             modes := [ActionType.SELECT, ActionType.NONE, ActionType.NONE],
             returned := [false, false],
             undoStacks := [[(ActionType.CREATE, [133]), (ActionType.CREATE, [128])],
                            [(ActionType.CREATE, [133]), (ActionType.CREATE, [128])]],
             links :=
               [[some (⟨0x79007F⟩, EntityUID.INVALID, EntityUID.INVALID),
                 some (⟨0x7A0084⟩, EntityUID.INVALID, EntityUID.INVALID)],
                [some (⟨0x79007F⟩, ⟨0x7A0084⟩, EntityUID.INVALID),
                 some (⟨0x7A0084⟩, EntityUID.INVALID, ⟨0x79007F⟩)]] } := by
  decide!

/-- C25, failing input.  In the new map the right hand, in mode `NONE`, hovers the floor
tile of slot `0` (address `2`) and presses select twice.  The first press enters
`SELECT` with the tile selected.  The second press leaves `SELECT`, but the block ends
with an `if (m_hoveredEntity)` that is not an `else`, and the hand still hovers the
tile: it is back in mode `SELECT` with the tile selected.  `modes` and `values` give
the mode and the selected entity after the first and after the second press. -/
theorem C25_hand_second_select_stays_selected :
    (do let (p1, m1) ← (handsHovering 0 2).HandleEditInput_selectButton XRHand.RIGHT newMap
        let (p2, _) ← p1.HandleEditInput_selectButton XRHand.RIGHT m1
        pure ({ modes := [p1.m_rightController.m_actionState,
                          p2.m_rightController.m_actionState],
                values := [p1.m_rightController.m_selectedEntity,
                           p1.m_rightController.m_hoveredEntity,
                           p2.m_rightController.m_selectedEntity] } : Report)) =
      some { modes := [ActionType.SELECT, ActionType.SELECT],
             values := [2, 2, 2] } := by
  decide!

/-! ### Handles after a load and the slot-index invariant (C26, C27) -/

/-- C26, failing input.  The new map is saved and loaded again, which leaves the salt
counter at `0`; the player start (address `1`) has the handle with raw value `0`.  The
floor tile of slot `0` is removed and a crate is spawned: it is stored in slot `0` and
its handle is built from index `0` and salt `0`, the handle of the player start.
`GetEntityFromUID` of the handle of the crate returns the player start, not the crate.
`values` lists the salt counter after loading, the address and the raw handle of the
player start, the address of the crate, its raw handle and the index field of it. -/
theorem C26_spawn_after_load_gets_handle_of_player_start :
    (do let file ← newMap.Event_SaveMap
        let m1 ← Map.LoadFromFile file []
        let ps ← m1.deref m1.m_playerStart
        let (m2, removed) ← m1.RemoveEntityFromMap (m1.m_entities.getD 0 0)
        let (m3, n) ← m2.SpawnNewEntityOfType EntityType.CRATE ⟨0, 0, 0⟩ EulerAngles.ZERO 1
        let new ← m3.deref n
        pure ({ values := [m1.m_entityUIDSalt, m1.m_playerStart, ps.m_uid.m_uid, n,
                           new.m_uid.m_uid, new.m_uid.GetIndex],
                slots := [m3.m_entities.take 2],
                returned := [removed],
                found := [m3.GetEntityFromUID new.m_uid] } : Report)) =
      some { values := [0, 1, 0, 123, 0, 0],
             slots := [[123, 3]],
             returned := [true],
             found := [some 1] } := by
  decide!

theorem newMap_handlesInOrder : newMap.handlesInOrder := by
  refine ⟨by decide!, ⟨_, rfl, rfl⟩, ?_⟩
  intro i hi _
  have hlen : newMap.m_entities.length = 121 := by decide!
  rw [hlen] at hi
  have hget : newMap.m_entities.getD i 0 = i + 2 := by
    show ((List.range 121).map (fun i => i + 2)).getD i 0 = i + 2
    simp [List.getD_eq_getElem?_getD, hi]
  refine ⟨newMapTile i, i + 1, ?_, rfl, by omega, ?_⟩
  · rw [hget]
    show ((some (constructPlayerStart ⟨0⟩ Vec3.ZERO EulerAngles.ZERO) ::
      (List.range 121).map (fun i => some (newMapTile i))).get? (i + 1)).join = _
    simp [hi]
  · show i + 1 < 122
    omega

theorem fromIndexSalt_injective (i1 s1 i2 s2 : Nat) (hi1 : i1 < 2 ^ 16) (hs1 : s1 < 2 ^ 16)
    (hi2 : i2 < 2 ^ 16) (hs2 : s2 < 2 ^ 16)
    (h : EntityUID.fromIndexSalt i1 s1 = EntityUID.fromIndexSalt i2 s2) : i1 = i2 ∧ s1 = s2 := by
  have h1 := EntityUID.fromIndexSalt_raw i1 s1 hi1 hs1
  have h2 := EntityUID.fromIndexSalt_raw i2 s2 hi2 hs2
  rw [h] at h1
  rw [h1] at h2
  omega

theorem fromIndexSalt_ne_zero (i s : Nat) (hi : i < 2 ^ 16) (hs : s < 2 ^ 16) (h1 : 1 ≤ s) :
    EntityUID.fromIndexSalt i s ≠ ⟨0⟩ := by
  intro h
  have hr := EntityUID.fromIndexSalt_raw i s hi hs
  rw [h] at hr
  simp only at hr
  omega

/-- In a map whose handles are in order and whose salt counter is at most `2 ^ 16`, no
pointer occupies two slots. -/
theorem handlesInOrder_slots_distinct (m : Map) (h : m.handlesInOrder)
    (hsalt : m.m_entityUIDSalt ≤ 2 ^ 16) (i j : Nat) (hi : i < m.m_entities.length)
    (hj : j < m.m_entities.length) (hne : m.m_entities.getD i 0 ≠ 0)
    (heq : m.m_entities.getD i 0 = m.m_entities.getD j 0) : i = j := by
  obtain ⟨hlen, _, hslots⟩ := h
  obtain ⟨e1, s1, hd1, hu1, _, hs1⟩ := hslots i hi hne
  obtain ⟨e2, s2, hd2, hu2, _, hs2⟩ := hslots j hj (heq ▸ hne)
  rw [heq, hd2] at hd1
  cases hd1
  rw [hu2] at hu1
  exact ((fromIndexSalt_injective j s2 i s1 (by omega) (by omega) (by omega) (by omega) hu1).1).symm

theorem Map.deref_of_heap_append (m m' : Map) (x : Option Entity)
    (hheap : m'.heap = m.heap ++ [x]) (q : Ptr) (e : Entity) (h : m.deref q = some e) :
    m'.deref q = some e := by
  cases q with
  | zero => simp [Map.deref] at h
  | succ a =>
    have hlt := Map.deref_lt m a e h
    simp only [Map.deref] at h ⊢
    rw [hheap, List.get?_eq_getElem?, List.getElem?_append_left hlt, ← List.get?_eq_getElem?]
    exact h

theorem Map.deref_le_length (m : Map) (q : Ptr) (e : Entity) (h : m.deref q = some e) :
    q ≤ m.heap.length := by
  cases q with
  | zero => simp [Map.deref] at h
  | succ a => exact Nat.succ_le_of_lt (Map.deref_lt m a e h)

/-- The step of the handle invariant for `SpawnNewEntityOfType`. -/
theorem SpawnNewEntityOfType_handlesInOrder (m : Map) (type : EntityType) (position : Vec3)
    (orientation : EulerAngles) (scale : ℚ) (h : m.handlesInOrder)
    (hsalt : m.m_entityUIDSalt < 2 ^ 16) :
    ∃ (m' : Map) (n : Ptr),
      m.SpawnNewEntityOfType type position orientation scale = some (m', n) ∧
      m'.handlesInOrder ∧ m'.m_entityUIDSalt = m.m_entityUIDSalt + 1 := by
  obtain ⟨hlen, ⟨ps, hps, hpsu⟩, hslots⟩ := h
  have hu32 : u32 (m.m_entityUIDSalt + 1) = m.m_entityUIDSalt + 1 :=
    Nat.mod_eq_of_lt (by omega)
  have hk := firstEmptySlot_spec m.m_entities
  cases he : constructEntity type
      (EntityUID.fromIndexSalt (firstEmptySlot m.m_entities) m.m_entityUIDSalt) position
      orientation scale (m.rngYaw.headD 0) with
  | none =>
    refine ⟨{ m with m_entityUIDSalt := u32 (m.m_entityUIDSalt + 1) }, 0, ?_, ?_, hu32⟩
    · unfold Map.SpawnNewEntityOfType Map.CreateEntityOfType Map.CreateEntityOfTypeWithUID
      simp only [he]
      rfl
    · refine ⟨?_, ⟨ps, hps, hpsu⟩, ?_⟩
      · show m.m_entities.length < u32 (m.m_entityUIDSalt + 1)
        rw [hu32]; omega
      · intro i hi hne
        obtain ⟨e, s, hd, hu, h1, h2⟩ := hslots i hi hne
        refine ⟨e, s, hd, hu, h1, ?_⟩
        show s < u32 (m.m_entityUIDSalt + 1)
        rw [hu32]; omega
  | some e =>
    obtain ⟨hu, _, _⟩ := constructEntity_uid _ _ _ _ _ _ _ he
    obtain ⟨c1, c2, c3, c4, c5⟩ :=
      Map.CreateEntityOfType_some m type position orientation scale e he
    have hps' : (m.CreateEntityOfType type position orientation scale).1.m_playerStart =
        m.m_playerStart := by
      unfold Map.CreateEntityOfType Map.CreateEntityOfTypeWithUID
      simp only [he]
      split <;> rfl
    have hidx : e.m_uid.GetIndex = firstEmptySlot m.m_entities := by
      rw [hu]
      exact EntityUID.GetIndex_fromIndexSalt _ _ (by omega) hsalt
    have hold : ∀ q x, m.deref q = some x →
        (m.CreateEntityOfType type position orientation scale).1.deref q = some x :=
      fun q x hq => Map.deref_of_heap_append m _ _ c5 q x hq
    by_cases hlt : firstEmptySlot m.m_entities < m.m_entities.length
    · refine ⟨{ (m.CreateEntityOfType type position orientation scale).1 with
          m_entities := m.m_entities.set (firstEmptySlot m.m_entities) (m.heap.length + 1) },
        m.heap.length + 1, ?_, ?_, ?_⟩
      · unfold Map.SpawnNewEntityOfType
        simp only [c1, c2, c3, hidx, hlt, if_true]
        simp
      · refine ⟨?_, ⟨ps, ?_, hpsu⟩, ?_⟩
        · show (m.m_entities.set _ _).length < _
          rw [List.length_set]
          show _ < (m.CreateEntityOfType type position orientation scale).1.m_entityUIDSalt
          rw [c4, hu32]; omega
        · show (m.CreateEntityOfType type position orientation scale).1.deref
            (m.CreateEntityOfType type position orientation scale).1.m_playerStart = some ps
          rw [hps']; exact hold _ _ hps
        · intro i hi hne
          have hi' : i < m.m_entities.length := by
            have : i < (m.m_entities.set (firstEmptySlot m.m_entities)
              (m.heap.length + 1)).length := hi
            rwa [List.length_set] at this
          by_cases hik : i = firstEmptySlot m.m_entities
          · refine ⟨e, m.m_entityUIDSalt, ?_, by rw [hu, hik], by omega, ?_⟩
            · show (m.CreateEntityOfType type position orientation scale).1.deref
                ((m.m_entities.set (firstEmptySlot m.m_entities) (m.heap.length + 1)).getD i 0) = _
              rw [hik]
              simp only [List.getD_eq_getElem?_getD, List.getElem?_set_self hlt, Option.getD_some]
              exact c2
            · show _ < (m.CreateEntityOfType type position orientation scale).1.m_entityUIDSalt
              rw [c4, hu32]; omega
          · have hget : (m.m_entities.set (firstEmptySlot m.m_entities)
                (m.heap.length + 1)).getD i 0 = m.m_entities.getD i 0 := by
              simp only [List.getD_eq_getElem?_getD]
              rw [List.getElem?_set_ne (fun h => hik h.symm)]
            have hne' : m.m_entities.getD i 0 ≠ 0 := by
              have : (m.m_entities.set (firstEmptySlot m.m_entities)
                (m.heap.length + 1)).getD i 0 ≠ 0 := hne
              rwa [hget] at this
            obtain ⟨x, s, hd, hux, h1, h2⟩ := hslots i hi' hne'
            refine ⟨x, s, ?_, hux, h1, ?_⟩
            · show (m.CreateEntityOfType type position orientation scale).1.deref
                ((m.m_entities.set (firstEmptySlot m.m_entities) (m.heap.length + 1)).getD i 0) = _
              rw [hget]; exact hold _ _ hd
            · show _ < (m.CreateEntityOfType type position orientation scale).1.m_entityUIDSalt
              rw [c4, hu32]; omega
      · show (m.CreateEntityOfType type position orientation scale).1.m_entityUIDSalt = _
        rw [c4, hu32]
    · have hkeq : firstEmptySlot m.m_entities = m.m_entities.length := by omega
      refine ⟨{ (m.CreateEntityOfType type position orientation scale).1 with
          m_entities := m.m_entities ++ [m.heap.length + 1] },
        m.heap.length + 1, ?_, ?_, ?_⟩
      · unfold Map.SpawnNewEntityOfType
        simp only [c1, c2, c3, hidx, hlt, if_false]
        simp
      · refine ⟨?_, ⟨ps, ?_, hpsu⟩, ?_⟩
        · show (m.m_entities ++ [m.heap.length + 1]).length < _
          rw [List.length_append]
          show _ < (m.CreateEntityOfType type position orientation scale).1.m_entityUIDSalt
          rw [c4, hu32]; simp; omega
        · show (m.CreateEntityOfType type position orientation scale).1.deref
            (m.CreateEntityOfType type position orientation scale).1.m_playerStart = some ps
          rw [hps']; exact hold _ _ hps
        · intro i hi hne
          have hi' : i < m.m_entities.length + 1 := by
            have : i < (m.m_entities ++ [m.heap.length + 1]).length := hi
            simpa using this
          by_cases hik : i = m.m_entities.length
          · refine ⟨e, m.m_entityUIDSalt, ?_, by rw [hu, hik, hkeq], by omega, ?_⟩
            · show (m.CreateEntityOfType type position orientation scale).1.deref
                ((m.m_entities ++ [m.heap.length + 1]).getD i 0) = _
              rw [hik]
              simp only [List.getD_eq_getElem?_getD, List.getElem?_concat_length,
                Option.getD_some]
              exact c2
            · show _ < (m.CreateEntityOfType type position orientation scale).1.m_entityUIDSalt
              rw [c4, hu32]; omega
          · have hi2 : i < m.m_entities.length := by omega
            have hget : (m.m_entities ++ [m.heap.length + 1]).getD i 0 =
                m.m_entities.getD i 0 := by
              simp only [List.getD_eq_getElem?_getD]
              rw [List.getElem?_append_left hi2]
            have hne' : m.m_entities.getD i 0 ≠ 0 := by
              have : (m.m_entities ++ [m.heap.length + 1]).getD i 0 ≠ 0 := hne
              rwa [hget] at this
            obtain ⟨x, s, hd, hux, h1, h2⟩ := hslots i hi2 hne'
            refine ⟨x, s, ?_, hux, h1, ?_⟩
            · show (m.CreateEntityOfType type position orientation scale).1.deref
                ((m.m_entities ++ [m.heap.length + 1]).getD i 0) = _
              rw [hget]; exact hold _ _ hd
            · show _ < (m.CreateEntityOfType type position orientation scale).1.m_entityUIDSalt
              rw [c4, hu32]; omega
      · show (m.CreateEntityOfType type position orientation scale).1.m_entityUIDSalt = _
        rw [c4, hu32]

/-- The step of the handle invariant for `RemoveEntityFromMap`. -/
theorem RemoveEntityFromMap_handlesInOrder (m : Map) (entity : Ptr) (h : m.handlesInOrder)
    (hsalt : m.m_entityUIDSalt ≤ 2 ^ 16) :
    ∃ (m' : Map) (b : Bool),
      m.RemoveEntityFromMap entity = some (m', b) ∧
      m'.handlesInOrder ∧ m'.m_entityUIDSalt = m.m_entityUIDSalt := by
  by_cases h0 : entity = 0
  · exact ⟨m, false, by simp [Map.RemoveEntityFromMap, h0], h, rfl⟩
  cases hf : findSlot entity m.m_entities with
  | none => exact ⟨m, false, by simp [Map.RemoveEntityFromMap, h0, hf], h, rfl⟩
  | some i =>
    obtain ⟨hi, hget, _⟩ := findSlot_some _ _ _ hf
    have hdist := handlesInOrder_slots_distinct m h hsalt
    obtain ⟨hlen, ⟨ps, hps, hpsu⟩, hslots⟩ := h
    obtain ⟨x, s, hd, hu, h1, h2⟩ := hslots i hi (by rw [hget]; exact h0)
    rw [hget] at hd
    cases entity with
    | zero => exact absurd rfl h0
    | succ a =>
      have hlt := Map.deref_lt m a x hd
      have hpsne : m.m_playerStart ≠ a + 1 := by
        intro heq
        rw [heq, hd] at hps
        cases hps
        rw [hu] at hpsu
        exact fromIndexSalt_ne_zero i s (by omega) (by omega) h1 hpsu
      refine ⟨{ m with heap := m.heap.set a none, m_entities := m.m_entities.set i 0 }, true,
        ?_, ?_, rfl⟩
      · unfold Map.RemoveEntityFromMap
        rw [if_neg h0]
        simp only [hf, Map.delete_live m a x hd]
      · refine ⟨?_, ⟨ps, ?_, hpsu⟩, ?_⟩
        · show (m.m_entities.set i 0).length < m.m_entityUIDSalt
          rw [List.length_set]; exact hlen
        · have := Map.deref_heap_set m a none m.m_playerStart hlt
          rw [if_neg hpsne] at this
          rw [← hps]
          exact this
        · intro j hj hne
          have hj' : j < m.m_entities.length := by
            have : j < (m.m_entities.set i 0).length := hj
            rwa [List.length_set] at this
          have hji : j ≠ i := by
            intro hji
            apply hne
            show (m.m_entities.set i 0).getD j 0 = 0
            rw [hji]
            simp [List.getD_eq_getElem?_getD, hi]
          have hgetj : (m.m_entities.set i 0).getD j 0 = m.m_entities.getD j 0 := by
            simp only [List.getD_eq_getElem?_getD]
            rw [List.getElem?_set_ne (fun h => hji h.symm)]
          have hne' : m.m_entities.getD j 0 ≠ 0 := by
            have : (m.m_entities.set i 0).getD j 0 ≠ 0 := hne
            rwa [hgetj] at this
          obtain ⟨y, t, hdy, huy, t1, t2⟩ := hslots j hj' hne'
          have hq : m.m_entities.getD j 0 ≠ a + 1 := by
            intro heq
            exact hji (hdist j i hj' hi hne' (by rw [heq, hget]))
          refine ⟨y, t, ?_, huy, t1, t2⟩
          show ({ m with heap := m.heap.set a none, m_entities := m.m_entities.set i 0 } :
            Map).deref ((m.m_entities.set i 0).getD j 0) = some y
          rw [hgetj]
          have := Map.deref_heap_set m a none (m.m_entities.getD j 0) hlt
          rw [if_neg hq] at this
          rw [← hdy]
          exact this

/-- The handle invariant along a sequence of calls: from a map whose handles are in order,
a sequence of calls that does not take the salt counter above `2 ^ 16` returns, the
salt counter has grown by the number of spawns, and the handles are in order. -/
theorem calls_handlesInOrder (cs : List MapCall) (m : Map) (h : m.handlesInOrder)
    (hsalt : m.m_entityUIDSalt + spawnCount cs ≤ 2 ^ 16) :
    ∃ m' : Map, m.calls cs = some m' ∧ m'.handlesInOrder ∧
      m'.m_entityUIDSalt = m.m_entityUIDSalt + spawnCount cs := by
  induction cs generalizing m with
  | nil => exact ⟨m, rfl, h, rfl⟩
  | cons c cs ih =>
    cases c with
    | spawn type position orientation scale =>
      simp only [spawnCount] at hsalt
      obtain ⟨m1, n, hcall, hinv, hs⟩ :=
        SpawnNewEntityOfType_handlesInOrder m type position orientation scale h (by omega)
      obtain ⟨m', hcalls, hinv', hs'⟩ := ih m1 hinv (by rw [hs]; omega)
      refine ⟨m', ?_, hinv', ?_⟩
      · simp only [Map.calls, Map.call, hcall, Option.map_some']
        exact hcalls
      · rw [hs', hs]; simp only [spawnCount]; omega
    | remove entity =>
      simp only [spawnCount] at hsalt
      obtain ⟨m1, b, hcall, hinv, hs⟩ :=
        RemoveEntityFromMap_handlesInOrder m entity h (by omega)
      obtain ⟨m', hcalls, hinv', hs'⟩ := ih m1 hinv (by rw [hs]; omega)
      refine ⟨m', ?_, hinv', ?_⟩
      · simp only [Map.calls, Map.call, hcall, Option.map_some']
        exact hcalls
      · rw [hs', hs]; simp only [spawnCount]

/-- C27.  Slot-index invariant.  Starting from the newly constructed map, every sequence
of `SpawnNewEntityOfType` and `RemoveEntityFromMap` calls that keeps the salt counter
below `2 ^ 16` before each spawn (the counter starts at `122` and each spawn adds one)
returns, and in the map it leaves every occupied slot `i` holds a live entity whose
handle has index `i`, the entities of two different occupied slots have different
handles, and each of them differs from the handle of the player start. -/
theorem C27_slot_index_invariant (cs : List MapCall) (hsalt : 122 + spawnCount cs ≤ 2 ^ 16) :
    ∃ m : Map, newMap.calls cs = some m ∧
      m.m_entityUIDSalt = 122 + spawnCount cs ∧
      (∀ i, i < m.m_entities.length → m.m_entities.getD i 0 ≠ 0 →
        ∃ e, m.deref (m.m_entities.getD i 0) = some e ∧ e.m_uid.GetIndex = i) ∧
      (∀ i j ei ej, i < m.m_entities.length → j < m.m_entities.length → i ≠ j →
        m.m_entities.getD i 0 ≠ 0 → m.m_entities.getD j 0 ≠ 0 →
        m.deref (m.m_entities.getD i 0) = some ei →
        m.deref (m.m_entities.getD j 0) = some ej → ei.m_uid ≠ ej.m_uid) ∧
      (∀ i ei ps, i < m.m_entities.length → m.m_entities.getD i 0 ≠ 0 →
        m.deref (m.m_entities.getD i 0) = some ei →
        m.deref m.m_playerStart = some ps → ei.m_uid ≠ ps.m_uid) := by
  obtain ⟨m, hcalls, hinv, hs⟩ := calls_handlesInOrder cs newMap newMap_handlesInOrder hsalt
  have hs' : m.m_entityUIDSalt = 122 + spawnCount cs := hs
  obtain ⟨hlen, ⟨ps, hps, hpsu⟩, hslots⟩ := hinv
  refine ⟨m, hcalls, hs', ?_, ?_, ?_⟩
  · intro i hi hne
    obtain ⟨e, s, hd, hu, _, h2⟩ := hslots i hi hne
    exact ⟨e, hd, by rw [hu]; exact EntityUID.GetIndex_fromIndexSalt i s (by omega) (by omega)⟩
  · intro i j ei ej hi hj hij hni hnj hdi hdj heq
    obtain ⟨e1, s1, hd1, hu1, _, hs1⟩ := hslots i hi hni
    obtain ⟨e2, s2, hd2, hu2, _, hs2⟩ := hslots j hj hnj
    rw [hdi] at hd1; cases hd1
    rw [hdj] at hd2; cases hd2
    rw [hu1, hu2] at heq
    exact hij (fromIndexSalt_injective i s1 j s2 (by omega) (by omega) (by omega) (by omega)
      heq).1
  · intro i ei ps' hi hni hdi hps' heq
    obtain ⟨e1, s1, hd1, hu1, h1, hs1⟩ := hslots i hi hni
    rw [hdi] at hd1; cases hd1
    rw [hps] at hps'; cases hps'
    rw [hu1, hpsu] at heq
    exact fromIndexSalt_ne_zero i s1 (by omega) (by omega) h1 heq

/-- C27, witness: in the new map a crate is spawned, the floor tile of slot `0` is
removed, and a door is spawned (into slot `0`). -/
theorem C27_slot_index_invariant_witness :
    ∃ m : Map,
      newMap.calls
        [MapCall.spawn EntityType.CRATE ⟨0, 0, 0⟩ EulerAngles.ZERO 1, MapCall.remove 2,
         MapCall.spawn EntityType.DOOR ⟨1, 0, 0⟩ EulerAngles.ZERO 1] = some m ∧
      m.m_entityUIDSalt = 124 ∧
      ∀ i, i < m.m_entities.length → m.m_entities.getD i 0 ≠ 0 →
        ∃ e, m.deref (m.m_entities.getD i 0) = some e ∧ e.m_uid.GetIndex = i := by
  obtain ⟨m, h1, h2, h3, _⟩ :=
    C27_slot_index_invariant
      [MapCall.spawn EntityType.CRATE ⟨0, 0, 0⟩ EulerAngles.ZERO 1, MapCall.remove 2,
       MapCall.spawn EntityType.DOOR ⟨1, 0, 0⟩ EulerAngles.ZERO 1] (by decide)
  exact ⟨m, h1, h2, h3⟩

/-! ### Link reciprocity (C28) -/

/-- Under liveness of the player start and of the slots, `GetEntityFromUID` returns,
and a non-null result is a live entity carrying the handle asked for. -/
theorem GetEntityFromUID_spec (m : Map) (uid : EntityUID) (ps : Entity)
    (hps : m.deref m.m_playerStart = some ps) (hlive : m.slotsLive = true) :
    ∃ p, m.GetEntityFromUID uid = some p ∧
      (p ≠ 0 → ∃ e, m.deref p = some e ∧ e.m_uid = uid) ∧
      (uid = EntityUID.INVALID → p = 0) := by
  unfold Map.GetEntityFromUID
  cases hinv : uid.eq EntityUID.INVALID with
  | true => exact ⟨0, by simp, fun h => absurd rfl h, fun _ => rfl⟩
  | false =>
    have hinv' : uid ≠ EntityUID.INVALID := (EntityUID.eq_false_iff _ _).1 hinv
    simp only [hps, Bool.false_eq_true, if_false]
    cases hpsu : uid.eq ps.m_uid with
    | true =>
      exact ⟨_, by simp, fun _ => ⟨ps, hps, ((EntityUID.eq_iff _ _).1 hpsu).symm⟩,
        fun h => absurd h hinv'⟩
    | false =>
      simp only [Bool.false_eq_true, if_false]
      by_cases hlen : uid.GetIndex ≥ m.m_entities.length
      · exact ⟨0, by simp only [hlen, if_true], fun h => absurd rfl h, fun _ => rfl⟩
      · simp only [hlen, if_false]
        by_cases hnull : m.m_entities.getD uid.GetIndex 0 = 0
        · exact ⟨0, by simp only [hnull, if_true], fun h => absurd rfl h, fun _ => rfl⟩
        · simp only [hnull, if_false]
          obtain ⟨e, he⟩ := Map.slotsLive_getD m hlive _ hnull
          simp only [he]
          cases heu : e.m_uid.eq uid with
          | true =>
            exact ⟨_, by simp, fun _ => ⟨e, he, (EntityUID.eq_iff _ _).1 heu⟩,
              fun h => absurd h hinv'⟩
          | false => exact ⟨0, by simp, fun h => absurd rfl h, fun _ => rfl⟩

theorem deref_agree_cases (m m' : Map) (q : Ptr)
    (hkey : (m'.deref q).map (fun e => e.m_uid) = (m.deref q).map (fun e => e.m_uid)) :
    (m'.deref q = none ∧ m.deref q = none) ∨
    ∃ e e', m.deref q = some e ∧ m'.deref q = some e' ∧ e'.m_uid = e.m_uid := by
  cases h1 : m'.deref q with
  | none =>
    rw [h1] at hkey
    cases h2 : m.deref q with
    | none => exact Or.inl ⟨rfl, rfl⟩
    | some e => rw [h2] at hkey; cases hkey
  | some e' =>
    rw [h1] at hkey
    cases h2 : m.deref q with
    | none => rw [h2] at hkey; cases hkey
    | some e =>
      rw [h2] at hkey
      simp only [Option.map_some', Option.some.injEq] at hkey
      exact Or.inr ⟨e, e', rfl, rfl, hkey⟩

/-- Two maps with the same collection and player start, whose objects agree in being
alive and in their handle, resolve every handle alike. -/
theorem GetEntityFromUID_congr (m m' : Map) (hent : m'.m_entities = m.m_entities)
    (hps : m'.m_playerStart = m.m_playerStart)
    (hkey : ∀ q, (m'.deref q).map (fun e => e.m_uid) = (m.deref q).map (fun e => e.m_uid))
    (uid : EntityUID) : m'.GetEntityFromUID uid = m.GetEntityFromUID uid := by
  unfold Map.GetEntityFromUID
  rw [hent, hps]
  cases hinv : uid.eq EntityUID.INVALID with
  | true => simp only [if_true]
  | false =>
    simp only [Bool.false_eq_true, if_false]
    rcases deref_agree_cases m m' m.m_playerStart (hkey _) with ⟨h1, h2⟩ | ⟨e, e', h2, h1, hu⟩
    · rw [h1, h2]
    · rw [h1, h2]
      simp only [hu]
      cases hpsu : uid.eq e.m_uid with
      | true => simp only [if_true]
      | false =>
        simp only [Bool.false_eq_true, if_false]
        by_cases hlen : uid.GetIndex ≥ m.m_entities.length
        · simp only [hlen, if_true]
        · simp only [hlen, if_false]
          by_cases hnull : m.m_entities.getD uid.GetIndex 0 = 0
          · simp only [hnull, if_true]
          · simp only [hnull, if_false]
            rcases deref_agree_cases m m' _ (hkey (m.m_entities.getD uid.GetIndex 0)) with
              ⟨g1, g2⟩ | ⟨x, x', g2, g1, gu⟩
            · rw [g1, g2]
            · rw [g1, g2]
              simp only [gu]

/-- A link-only change of a map: the collection and the player start are the same, and
every object is the old one with new values in its two link members. -/
theorem deref_map_uid_type (m m' : Map) (g : Ptr → Entity → Entity)
    (hg : ∀ q e, (g q e).m_uid = e.m_uid ∧ (g q e).m_type = e.m_type)
    (hd : ∀ q, m'.deref q = (m.deref q).map (g q)) (q : Ptr) :
    (m'.deref q).map (fun e => e.m_uid) = (m.deref q).map (fun e => e.m_uid) ∧
    (m'.deref q).map (fun e => e.m_type) = (m.deref q).map (fun e => e.m_type) := by
  rw [hd q]
  cases m.deref q with
  | none => exact ⟨rfl, rfl⟩
  | some e => simp [(hg q e).1, (hg q e).2]

theorem activatorFromUID_congr (m m' : Map) (g : Ptr → Entity → Entity)
    (hg : ∀ q e, (g q e).m_uid = e.m_uid ∧ (g q e).m_type = e.m_type)
    (hent : m'.m_entities = m.m_entities) (hps : m'.m_playerStart = m.m_playerStart)
    (hd : ∀ q, m'.deref q = (m.deref q).map (g q)) (uid : EntityUID) :
    m'.activatorFromUID uid = m.activatorFromUID uid ∧
    m'.activatableFromUID uid = m.activatableFromUID uid ∧
    m'.GetEntityFromUID uid = m.GetEntityFromUID uid := by
  have hres := GetEntityFromUID_congr m m' hent hps
    (fun q => (deref_map_uid_type m m' g hg hd q).1) uid
  refine ⟨?_, ?_, hres⟩
  · unfold Map.activatorFromUID
    rw [hres]
    cases m.GetEntityFromUID uid with
    | none => rfl
    | some p =>
      simp only
      by_cases hp : p = 0
      · simp only [hp, if_true]
      · simp only [hp, if_false]
        rw [hd p]
        cases m.deref p with
        | none => rfl
        | some e => simp only [Option.map_some', (hg p e).2]
  · unfold Map.activatableFromUID
    rw [hres]
    cases m.GetEntityFromUID uid with
    | none => rfl
    | some p =>
      simp only
      by_cases hp : p = 0
      · simp only [hp, if_true]
      · simp only [hp, if_false]
        rw [hd p]
        cases m.deref p with
        | none => rfl
        | some e => simp only [Option.map_some', (hg p e).2]

theorem activatorFromUID_spec (m : Map) (uid : EntityUID) (ps : Entity)
    (hps : m.deref m.m_playerStart = some ps) (hlive : m.slotsLive = true) :
    (∃ P, m.activatorFromUID uid = some P ∧
      (P ≠ 0 → ∃ e, m.deref P = some e ∧ e.m_uid = uid ∧ e.m_type.isActivator = true ∧
        m.GetEntityFromUID uid = some P) ∧
      (uid = EntityUID.INVALID → P = 0)) ∧
    (∃ Q, m.activatableFromUID uid = some Q ∧
      (Q ≠ 0 → ∃ e, m.deref Q = some e ∧ e.m_uid = uid ∧ e.m_type.isActivatable = true ∧
        m.GetEntityFromUID uid = some Q) ∧
      (uid = EntityUID.INVALID → Q = 0)) := by
  obtain ⟨p, hp, hp1, hp2⟩ := GetEntityFromUID_spec m uid ps hps hlive
  constructor
  · unfold Map.activatorFromUID
    rw [hp]
    by_cases h0 : p = 0
    · exact ⟨0, by simp [h0], fun h => absurd rfl h, fun _ => rfl⟩
    · obtain ⟨e, he, hu⟩ := hp1 h0
      simp only [h0, if_false, he]
      cases ht : e.m_type.isActivator with
      | true => exact ⟨p, by simp, fun _ => ⟨e, he, hu, ht, rfl⟩, fun h => absurd (hp2 h) h0⟩
      | false => exact ⟨0, by simp, fun h => absurd rfl h, fun _ => rfl⟩
  · unfold Map.activatableFromUID
    rw [hp]
    by_cases h0 : p = 0
    · exact ⟨0, by simp [h0], fun h => absurd rfl h, fun _ => rfl⟩
    · obtain ⟨e, he, hu⟩ := hp1 h0
      simp only [h0, if_false, he]
      cases ht : e.m_type.isActivatable with
      | true => exact ⟨p, by simp, fun _ => ⟨e, he, hu, ht, rfl⟩, fun h => absurd (hp2 h) h0⟩
      | false => exact ⟨0, by simp, fun h => absurd rfl h, fun _ => rfl⟩

theorem modify_map_form (m : Map) (p : Ptr) (f : Entity → Entity) (e : Entity)
    (he : m.deref p = some e) :
    ∃ m', m.modify p f = some m' ∧ m'.m_entities = m.m_entities ∧
      m'.m_playerStart = m.m_playerStart ∧
      ∀ q, m'.deref q = (m.deref q).map (fun x => if q = p then f x else x) := by
  obtain ⟨m', hm'⟩ := Map.modify_isSome m p f e he
  obtain ⟨h1, h2, _⟩ := Map.modify_fields m m' p f hm'
  refine ⟨m', hm', h1, h2, ?_⟩
  intro q
  rw [Map.deref_modify m m' p f hm' q]
  by_cases hq : q = p
  · subst hq; simp
  · simp [hq]

theorem modifyIfNonNull_map_form (m : Map) (p : Ptr) (f : Entity → Entity)
    (he : p ≠ 0 → ∃ e, m.deref p = some e) :
    ∃ m', m.modifyIfNonNull p f = some m' ∧ m'.m_entities = m.m_entities ∧
      m'.m_playerStart = m.m_playerStart ∧
      ∀ q, m'.deref q = (m.deref q).map (fun x => if p ≠ 0 ∧ q = p then f x else x) := by
  unfold Map.modifyIfNonNull
  by_cases hp : p = 0
  · refine ⟨m, by simp [hp], rfl, rfl, ?_⟩
    intro q
    simp [hp]
  · obtain ⟨e, hd⟩ := he hp
    obtain ⟨m', h1, h2, h3, h4⟩ := modify_map_form m p f e hd
    refine ⟨m', by simp [hp, h1], h2, h3, ?_⟩
    intro q
    rw [h4 q]
    simp [hp]

theorem Map.linkPair_eq (m m1 m2 m3 m4 : Map) (A B pa pb : Ptr) (eB a1 b2 a3 : Entity)
    (hB0 : m.deref B = some eB)
    (hpa : m.activatorFromUID eB.m_activatorUID = some pa)
    (hm1 : m.modifyIfNonNull pa
      (fun e => { e with m_activatableUID := EntityUID.INVALID }) = some m1)
    (hA1 : m1.deref A = some a1)
    (hpb : m1.activatableFromUID a1.m_activatableUID = some pb)
    (hm2 : m1.modifyIfNonNull pb
      (fun e => { e with m_activatorUID := EntityUID.INVALID }) = some m2)
    (hB2 : m2.deref B = some b2)
    (hm3 : m2.modify A (fun e => { e with m_activatableUID := b2.m_uid }) = some m3)
    (hA3 : m3.deref A = some a3)
    (hm4 : m3.modify B (fun e => { e with m_activatorUID := a3.m_uid }) = some m4) :
    m.linkPair A B = some m4 := by
  simp only [Map.linkPair, hB0, hpa, hm1, hA1, hpb, hm2, hB2, hm3, hA3, hm4,
    Option.bind_eq_bind, Option.some_bind]

/-- What `linkPair` does, in a map whose player start and slots are live, to a live
activator `A` and a live activatable `B`: with `P` the previous activator of `B` and
`Q` the previous activatable of `A` (looked up after the link of `P` was cleared), the
result is the old map with new link members, as given. -/
theorem linkPair_spec (m : Map) (A B : Ptr) (eA eB ps : Entity)
    (hps : m.deref m.m_playerStart = some ps) (hlive : m.slotsLive = true)
    (hA : m.deref A = some eA) (hB : m.deref B = some eB) :
    ∃ (m4 : Map) (P Q : Ptr),
      m.activatorFromUID eB.m_activatorUID = some P ∧
      m.activatableFromUID
        (if P ≠ 0 ∧ A = P then EntityUID.INVALID else eA.m_activatableUID) = some Q ∧
      m.linkPair A B = some m4 ∧ m4.m_entities = m.m_entities ∧
      m4.m_playerStart = m.m_playerStart ∧
      ∀ q, m4.deref q = (m.deref q).map (fun e =>
        { e with
          m_activatableUID :=
            if q = A then eB.m_uid
            else if P ≠ 0 ∧ q = P then EntityUID.INVALID else e.m_activatableUID,
          m_activatorUID :=
            if q = B then eA.m_uid
            else if Q ≠ 0 ∧ q = Q then EntityUID.INVALID else e.m_activatorUID }) := by
  obtain ⟨P, hP, hP1, _⟩ := (activatorFromUID_spec m eB.m_activatorUID ps hps hlive).1
  obtain ⟨m1, hm1, e1, p1, d1⟩ := modifyIfNonNull_map_form m P
    (fun e => { e with m_activatableUID := EntityUID.INVALID })
    (fun h => by obtain ⟨e, he, _⟩ := hP1 h; exact ⟨e, he⟩)
  have hg1 : ∀ (q : Ptr) (e : Entity),
      ((fun (q : Ptr) (x : Entity) =>
          if P ≠ 0 ∧ q = P then ({ x with m_activatableUID := EntityUID.INVALID } : Entity)
          else x) q e).m_uid = e.m_uid ∧
      ((fun (q : Ptr) (x : Entity) =>
          if P ≠ 0 ∧ q = P then ({ x with m_activatableUID := EntityUID.INVALID } : Entity)
          else x) q e).m_type = e.m_type := by
    intro q e
    by_cases h : P ≠ 0 ∧ q = P <;> simp [h]
  have hres1 := fun uid => (activatorFromUID_congr m m1 _ hg1 e1 p1 d1 uid).2.1
  have hA1 : m1.deref A = some
      (if P ≠ 0 ∧ A = P then { eA with m_activatableUID := EntityUID.INVALID } else eA) := by
    rw [d1 A, hA]; rfl
  have ha1 : (if P ≠ 0 ∧ A = P then ({ eA with m_activatableUID := EntityUID.INVALID } : Entity)
      else eA).m_activatableUID =
      (if P ≠ 0 ∧ A = P then EntityUID.INVALID else eA.m_activatableUID) := by
    by_cases h : P ≠ 0 ∧ A = P <;> simp [h]
  obtain ⟨Q, hQ, hQ1, _⟩ := (activatorFromUID_spec m
    (if P ≠ 0 ∧ A = P then EntityUID.INVALID else eA.m_activatableUID) ps hps hlive).2
  obtain ⟨m2, hm2, e2, p2, d2⟩ := modifyIfNonNull_map_form m1 Q
    (fun e => { e with m_activatorUID := EntityUID.INVALID })
    (fun h => by
      obtain ⟨e, he, _⟩ := hQ1 h
      exact ⟨_, by rw [d1 Q, he]; rfl⟩)
  have hB2 : ∃ b2, m2.deref B = some b2 ∧ b2.m_uid = eB.m_uid := by
    refine ⟨_, by rw [d2 B, d1 B, hB]; rfl, ?_⟩
    split_ifs <;> rfl
  obtain ⟨b2, hb2, hb2u⟩ := hB2
  have hA2 : ∃ a2, m2.deref A = some a2 := ⟨_, by rw [d2 A, hA1]; rfl⟩
  obtain ⟨a2, ha2⟩ := hA2
  obtain ⟨m3, hm3, e3, p3, d3⟩ := modify_map_form m2 A
    (fun e => { e with m_activatableUID := b2.m_uid }) a2 ha2
  have hA3 : ∃ a3, m3.deref A = some a3 ∧ a3.m_uid = eA.m_uid := by
    refine ⟨_, by rw [d3 A, d2 A, d1 A, hA]; rfl, ?_⟩
    split_ifs <;> rfl
  obtain ⟨a3, ha3, ha3u⟩ := hA3
  have hB3 : ∃ b3, m3.deref B = some b3 := ⟨_, by rw [d3 B, hb2]; rfl⟩
  obtain ⟨b3, hb3⟩ := hB3
  obtain ⟨m4, hm4, e4, p4, d4⟩ := modify_map_form m3 B
    (fun e => { e with m_activatorUID := a3.m_uid }) b3 hb3
  refine ⟨m4, P, Q, hP, hQ, ?_, by rw [e4, e3, e2, e1], by rw [p4, p3, p2, p1], ?_⟩
  · exact Map.linkPair_eq m m1 m2 m3 m4 A B P Q eB _ b2 a3 hB hP hm1 hA1
      (by rw [hres1, ha1]; exact hQ) hm2 hb2 hm3 ha3 hm4
  · intro q
    rw [d4 q, d3 q, d2 q, d1 q, hb2u, ha3u]
    cases m.deref q with
    | none => rfl
    | some e =>
      simp only [Option.map_some', Option.some.injEq]
      split_ifs <;> rfl

theorem activatorLinkAnswered_iff (m : Map) (e : Entity) :
    m.activatorLinkAnswered e = true ↔
      ∀ b eb, m.activatableFromUID e.m_activatableUID = some b → m.deref b = some eb →
        eb.m_activatorUID = e.m_uid := by
  unfold Map.activatorLinkAnswered
  cases hb : m.activatableFromUID e.m_activatableUID with
  | none => simp
  | some b =>
    cases hd : m.deref b with
    | none =>
      simp only [hd, Option.some.injEq, true_iff]
      intro b' eb' hb' hd'
      subst hb'
      rw [hd] at hd'
      cases hd'
    | some eb =>
      simp only [hd, Option.some.injEq, EntityUID.eq_iff]
      constructor
      · intro h b' eb' hb' hd'
        subst hb'
        rw [hd] at hd'
        cases hd'
        exact h
      · intro h
        exact h b eb rfl hd

theorem activatableLinkAnswered_iff (m : Map) (e : Entity) :
    m.activatableLinkAnswered e = true ↔
      ∀ a ea, m.activatorFromUID e.m_activatorUID = some a → m.deref a = some ea →
        ea.m_activatableUID = e.m_uid := by
  unfold Map.activatableLinkAnswered
  cases hb : m.activatorFromUID e.m_activatorUID with
  | none => simp
  | some b =>
    cases hd : m.deref b with
    | none =>
      simp only [hd, Option.some.injEq, true_iff]
      intro b' eb' hb' hd'
      subst hb'
      rw [hd] at hd'
      cases hd'
    | some eb =>
      simp only [hd, Option.some.injEq, EntityUID.eq_iff]
      constructor
      · intro h b' eb' hb' hd'
        subst hb'
        rw [hd] at hd'
        cases hd'
        exact h
      · intro h
        exact h b eb rfl hd

theorem linksReciprocal_iff (m : Map) :
    m.linksReciprocal = true ↔
      ∀ p ∈ m.m_entities, ∀ e, m.deref p = some e →
        (e.m_type.isActivator = true →
          ∀ b eb, m.activatableFromUID e.m_activatableUID = some b → m.deref b = some eb →
            eb.m_activatorUID = e.m_uid) ∧
        (e.m_type.isActivatable = true →
          ∀ a ea, m.activatorFromUID e.m_activatorUID = some a → m.deref a = some ea →
            ea.m_activatableUID = e.m_uid) := by
  unfold Map.linksReciprocal
  rw [List.all_eq_true]
  constructor
  · intro h p hp e he
    have := h p hp
    rw [he] at this
    simp only [Bool.and_eq_true, Bool.or_eq_true, Bool.not_eq_true'] at this
    constructor
    · intro ht
      rcases this.1 with h1 | h1
      · rw [ht] at h1; cases h1
      · exact (activatorLinkAnswered_iff m e).1 h1
    · intro ht
      rcases this.2 with h1 | h1
      · rw [ht] at h1; cases h1
      · exact (activatableLinkAnswered_iff m e).1 h1
  · intro h p hp
    cases he : m.deref p with
    | none => rfl
    | some e =>
      obtain ⟨h1, h2⟩ := h p hp e he
      simp only [Bool.and_eq_true, Bool.or_eq_true, Bool.not_eq_true']
      constructor
      · cases ht : e.m_type.isActivator with
        | false => exact Or.inl rfl
        | true => exact Or.inr ((activatorLinkAnswered_iff m e).2 (h1 ht))
      · cases ht : e.m_type.isActivatable with
        | false => exact Or.inl rfl
        | true => exact Or.inr ((activatableLinkAnswered_iff m e).2 (h2 ht))

theorem handlesResolve_elim (m : Map) (h : m.handlesResolve = true) :
    (∃ ps, m.deref m.m_playerStart = some ps) ∧ m.slotsLive = true ∧
    ∀ p ∈ m.m_entities, ∀ e, m.deref p = some e → m.GetEntityFromUID e.m_uid = some p := by
  unfold Map.handlesResolve at h
  rw [Bool.and_eq_true, List.all_eq_true] at h
  refine ⟨Option.isSome_iff_exists.1 h.1, ?_, ?_⟩
  · unfold Map.slotsLive
    rw [List.all_eq_true]
    intro p hp
    have := h.2 p hp
    simp only [Bool.or_eq_true, beq_iff_eq] at this ⊢
    rcases this with h0 | h1
    · exact Or.inl h0
    · cases hd : m.deref p with
      | none => rw [hd] at h1; cases h1
      | some e => exact Or.inr rfl
  · intro p hp e he
    have := h.2 p hp
    rw [he] at this
    simp only [Bool.or_eq_true, beq_iff_eq] at this
    rcases this with h0 | h1
    · rw [h0] at he; simp [Map.deref] at he
    · exact h1


theorem deref_ne_zero (m : Map) (p : Ptr) (e : Entity) (h : m.deref p = some e) : p ≠ 0 := by
  intro h0; rw [h0] at h; simp [Map.deref] at h

theorem activatorFromUID_self (m : Map) (p : Ptr) (e : Entity) (hd : m.deref p = some e)
    (hr : m.GetEntityFromUID e.m_uid = some p) :
    (e.m_type.isActivator = true → m.activatorFromUID e.m_uid = some p) ∧
    (e.m_type.isActivatable = true → m.activatableFromUID e.m_uid = some p) := by
  have h0 := deref_ne_zero m p e hd
  constructor
  · intro ht
    simp [Map.activatorFromUID, hr, h0, hd, ht]
  · intro ht
    simp [Map.activatableFromUID, hr, h0, hd, ht]

theorem fromUID_INVALID (m : Map) (ps : Entity)
    (hps : m.deref m.m_playerStart = some ps) (hlive : m.slotsLive = true) :
    m.activatorFromUID EntityUID.INVALID = some 0 ∧
    m.activatableFromUID EntityUID.INVALID = some 0 := by
  obtain ⟨⟨P, hP, _, hP0⟩, ⟨Q, hQ, _, hQ0⟩⟩ := activatorFromUID_spec m EntityUID.INVALID ps hps hlive
  rw [hP0 rfl] at hP
  rw [hQ0 rfl] at hQ
  exact ⟨hP, hQ⟩

/-- The main step of link reciprocity: `linkPair` on a live activator and a live
activatable of the collection keeps the links of the whole collection answered. -/
theorem linkPair_keeps_reciprocity (m : Map) (A B : Ptr) (eA eB ps : Entity)
    (hps : m.deref m.m_playerStart = some ps) (hlive : m.slotsLive = true)
    (hW : ∀ p ∈ m.m_entities, ∀ e, m.deref p = some e → m.GetEntityFromUID e.m_uid = some p)
    (hAin : A ∈ m.m_entities) (hBin : B ∈ m.m_entities)
    (hA : m.deref A = some eA) (hB : m.deref B = some eB)
    (hAt : eA.m_type.isActivator = true) (hBt : eB.m_type.isActivatable = true)
    (hR : m.linksReciprocal = true) :
    ∃ m4 : Map, m.linkPair A B = some m4 ∧ m4.linksReciprocal = true ∧
      m4.m_entities = m.m_entities ∧ m4.m_playerStart = m.m_playerStart ∧
      (∀ q, (m4.deref q).map (fun e => (e.m_uid, e.m_type, e.m_position, e.m_scale)) =
        (m.deref q).map (fun e => (e.m_uid, e.m_type, e.m_position, e.m_scale))) ∧
      (∀ e, m4.deref A = some e → e.m_activatableUID = eB.m_uid) ∧
      (∀ e, m4.deref B = some e → e.m_activatorUID = eA.m_uid) := by
  obtain ⟨m4, P, Q, hP, hQ, hlink, hent, hpst, d4⟩ := linkPair_spec m A B eA eB ps hps hlive hA hB
  have hRp := (linksReciprocal_iff m).1 hR
  obtain ⟨inv1, inv2⟩ := fromUID_INVALID m ps hps hlive
  have hres := activatorFromUID_congr m m4
    (fun q e =>
      { e with
        m_activatableUID :=
          if q = A then eB.m_uid
          else if P ≠ 0 ∧ q = P then EntityUID.INVALID else e.m_activatableUID,
        m_activatorUID :=
          if q = B then eA.m_uid
          else if Q ≠ 0 ∧ q = Q then EntityUID.INVALID else e.m_activatorUID })
    (fun _ _ => ⟨rfl, rfl⟩) hent hpst d4
  have hselfA := (activatorFromUID_self m A eA hA (hW A hAin eA hA)).1 hAt
  have hselfB := (activatorFromUID_self m B eB hB (hW B hBin eB hB)).2 hBt
  refine ⟨m4, hlink, ?_, hent, hpst, ?_, ?_, ?_⟩
  · rw [linksReciprocal_iff]
    intro p hp e4 he4
    rw [hent] at hp
    rw [d4 p] at he4
    cases he : m.deref p with
    | none => rw [he] at he4; cases he4
    | some e =>
      rw [he] at he4
      simp only [Option.map_some', Option.some.injEq] at he4
      subst he4
      have hp0 := deref_ne_zero m p e he
      have hself := activatorFromUID_self m p e he (hW p hp e he)
      obtain ⟨hr1, hr2⟩ := hRp p hp e he
      constructor
      · intro ht b eb4 hb hdb
        rw [(hres _).2.1] at hb
        rw [d4 b] at hdb
        cases heb : m.deref b with
        | none => rw [heb] at hdb; cases hdb
        | some eb =>
          rw [heb] at hdb
          simp only [Option.map_some', Option.some.injEq] at hdb
          subst hdb
          have hb0 := deref_ne_zero m b eb heb
          show (if b = B then eA.m_uid
            else if Q ≠ 0 ∧ b = Q then EntityUID.INVALID else eb.m_activatorUID) = e.m_uid
          by_cases hpA : p = A
          · subst hpA
            rw [hA] at he; cases he
            simp only [if_true] at hb
            rw [hselfB] at hb
            cases hb
            simp only [if_true]
          · rw [if_neg hpA] at hb
            by_cases hpP : P ≠ 0 ∧ p = P
            · rw [if_pos hpP] at hb
              rw [inv2] at hb
              cases hb
              exact absurd rfl hb0
            · rw [if_neg hpP] at hb
              have hpre := hr1 ht b eb hb heb
              by_cases hbB : b = B
              · subst hbB
                rw [hB] at heb; cases heb
                exfalso
                apply hpP
                rw [hpre, hself.1 ht] at hP
                cases hP
                exact ⟨hp0, rfl⟩
              · rw [if_neg hbB]
                by_cases hbQ : Q ≠ 0 ∧ b = Q
                · exfalso
                  obtain ⟨hQ0, hbQ'⟩ := hbQ
                  subst hbQ'
                  by_cases hAP : P ≠ 0 ∧ A = P
                  · rw [if_pos hAP] at hQ
                    rw [inv2] at hQ
                    cases hQ
                    exact hQ0 rfl
                  · rw [if_neg hAP] at hQ
                    have hrA := (hRp A hAin eA hA).1 hAt b eb hQ heb
                    rw [hpre] at hrA
                    have h1 := hW p hp e he
                    rw [hrA, hW A hAin eA hA] at h1
                    cases h1
                    exact hpA rfl
                · rw [if_neg hbQ]
                  exact hpre
      · intro ht a ea4 ha hda
        rw [(hres _).1] at ha
        rw [d4 a] at hda
        cases hea : m.deref a with
        | none => rw [hea] at hda; cases hda
        | some ea =>
          rw [hea] at hda
          simp only [Option.map_some', Option.some.injEq] at hda
          subst hda
          have ha0 := deref_ne_zero m a ea hea
          show (if a = A then eB.m_uid
            else if P ≠ 0 ∧ a = P then EntityUID.INVALID else ea.m_activatableUID) = e.m_uid
          by_cases hpB : p = B
          · subst hpB
            rw [hB] at he; cases he
            simp only [if_true] at ha
            rw [hselfA] at ha
            cases ha
            simp only [if_true]
          · rw [if_neg hpB] at ha
            by_cases hpQ : Q ≠ 0 ∧ p = Q
            · rw [if_pos hpQ] at ha
              rw [inv1] at ha
              cases ha
              exact absurd rfl ha0
            · rw [if_neg hpQ] at ha
              have hpre := hr2 ht a ea ha hea
              by_cases haA : a = A
              · subst haA
                rw [hA] at hea; cases hea
                simp only [if_true]
                by_cases hAP : P ≠ 0 ∧ a = P
                · have hPa : m.activatorFromUID eB.m_activatorUID = some a := by
                    rw [hP, ← hAP.2]
                  have hrB := (hRp B hBin eB hB).2 hBt a eA hPa hA
                  rw [← hrB, hpre]
                · exfalso
                  rw [if_neg hAP] at hQ
                  rw [hpre, hself.2 ht] at hQ
                  cases hQ
                  exact hpQ ⟨hp0, rfl⟩
              · rw [if_neg haA]
                by_cases haP : P ≠ 0 ∧ a = P
                · exfalso
                  obtain ⟨hP0, haP'⟩ := haP
                  subst haP'
                  have hrB := (hRp B hBin eB hB).2 hBt a ea hP hea
                  rw [hpre] at hrB
                  have h1 := hW p hp e he
                  rw [hrB, hW B hBin eB hB] at h1
                  cases h1
                  exact hpB rfl
                · rw [if_neg haP]
                  exact hpre
  · intro q
    rw [d4 q]
    cases m.deref q with
    | none => rfl
    | some e => rfl
  · intro e he
    rw [d4 A, hA] at he
    simp only [Option.map_some', Option.some.injEq] at he
    subst he
    simp
  · intro e he
    rw [d4 B, hB] at he
    simp only [Option.map_some', Option.some.injEq] at he
    subst he
    simp


theorem handlesResolve_congr (m m' : Map) (hent : m'.m_entities = m.m_entities)
    (hps : m'.m_playerStart = m.m_playerStart)
    (hkey : ∀ q, (m'.deref q).map (fun e => e.m_uid) = (m.deref q).map (fun e => e.m_uid)) :
    m'.handlesResolve = m.handlesResolve := by
  unfold Map.handlesResolve
  rw [hent, hps]
  congr 1
  · rcases deref_agree_cases m m' m.m_playerStart (hkey _) with ⟨h1, h2⟩ | ⟨e, e', h2, h1, _⟩
    · rw [h1, h2]
    · rw [h1, h2]; rfl
  · congr 1
    funext p
    congr 1
    rcases deref_agree_cases m m' p (hkey p) with ⟨h1, h2⟩ | ⟨e, e', h2, h1, hu⟩
    · rw [h1, h2]
    · rw [h1, h2]
      simp only [hu, GetEntityFromUID_congr m m' hent hps hkey]

theorem isActivator_iff (t : EntityType) :
    (t.isActivator = true ↔ t = EntityType.BUTTON ∨ t = EntityType.LEVER) ∧
    (t.isActivatable = true ↔ t = EntityType.DOOR ∨ t = EntityType.MOVING_PLATFORM) := by
  cases t <;> simp [EntityType.isActivator, EntityType.isActivatable]

/-- The part of `LinkEntities` after the pulse has been stopped. -/
theorem LinkEntities_core (m0 : Map) (entity1 entity2 : Ptr)
    (hwf : m0.handlesResolve = true)
    (h1 : entity1 ∈ m0.m_entities) (h2 : entity2 ∈ m0.m_entities)
    (h10 : entity1 ≠ 0) (h20 : entity2 ≠ 0) (hrec : m0.linksReciprocal = true) :
    ∃ (e1 e2 : Entity),
      m0.deref entity1 = some e1 ∧ m0.deref entity2 = some e2 ∧ ∃ m' : Map,
      (do let e1 ← m0.deref entity1
          if e1.m_type = EntityType.BUTTON ∨ e1.m_type = EntityType.LEVER then
            let e2 ← m0.deref entity2
            if e2.m_type = EntityType.DOOR ∨ e2.m_type = EntityType.MOVING_PLATFORM then
              m0.linkPair entity1 entity2
            else some m0
          else if e1.m_type = EntityType.DOOR ∨ e1.m_type = EntityType.MOVING_PLATFORM then
            let e2 ← m0.deref entity2
            if e2.m_type = EntityType.BUTTON ∨ e2.m_type = EntityType.LEVER then
              m0.linkPair entity2 entity1
            else some m0
          else some m0) = some m' ∧
      m'.linksReciprocal = true ∧ m'.handlesResolve = true ∧
      m'.m_entities = m0.m_entities ∧
      (∀ q, (m'.deref q).map (fun e => (e.m_uid, e.m_type, e.m_position, e.m_scale)) =
        (m0.deref q).map (fun e => (e.m_uid, e.m_type, e.m_position, e.m_scale))) ∧
      (¬ (e1.m_type.isActivator = true ∧ e2.m_type.isActivatable = true) →
        ¬ (e1.m_type.isActivatable = true ∧ e2.m_type.isActivator = true) → m' = m0) := by
  obtain ⟨⟨ps, hps⟩, hlive, hW⟩ := handlesResolve_elim m0 hwf
  have hd1 : ∃ e1, m0.deref entity1 = some e1 := by
    have := Map.slotsLive_getD m0 hlive
    unfold Map.slotsLive at hlive
    rw [List.all_eq_true] at hlive
    have := hlive entity1 h1
    simp only [Bool.or_eq_true, beq_iff_eq, Option.isSome_iff_exists] at this
    rcases this with h | h
    · exact absurd h h10
    · exact h
  have hd2 : ∃ e2, m0.deref entity2 = some e2 := by
    unfold Map.slotsLive at hlive
    rw [List.all_eq_true] at hlive
    have := hlive entity2 h2
    simp only [Bool.or_eq_true, beq_iff_eq, Option.isSome_iff_exists] at this
    rcases this with h | h
    · exact absurd h h20
    · exact h
  obtain ⟨e1, he1⟩ := hd1
  obtain ⟨e2, he2⟩ := hd2
  obtain ⟨t1a, t1b⟩ := isActivator_iff e1.m_type
  obtain ⟨t2a, t2b⟩ := isActivator_iff e2.m_type
  refine ⟨e1, e2, he1, he2, ?_⟩
  simp only [he1, he2, Option.bind_eq_bind, Option.some_bind, ← t1a, ← t1b, ← t2a, ← t2b]
  have hsame : ∀ q, (m0.deref q).map (fun e => (e.m_uid, e.m_type, e.m_position, e.m_scale)) =
      (m0.deref q).map (fun e => (e.m_uid, e.m_type, e.m_position, e.m_scale)) := fun _ => rfl
  have huid : ∀ (m4 : Map),
      (∀ q, (m4.deref q).map (fun e => (e.m_uid, e.m_type, e.m_position, e.m_scale)) =
        (m0.deref q).map (fun e => (e.m_uid, e.m_type, e.m_position, e.m_scale))) →
      ∀ q, (m4.deref q).map (fun e => e.m_uid) = (m0.deref q).map (fun e => e.m_uid) := by
    intro m4 h q
    have := congrArg (Option.map (fun (x : EntityUID × EntityType × Vec3 × ℚ) => x.1)) (h q)
    simpa [Option.map_map, Function.comp] using this
  by_cases ha1 : e1.m_type.isActivator = true
  · by_cases hb2 : e2.m_type.isActivatable = true
    · obtain ⟨m4, hl, hr, hent, hpst, hk, _, _⟩ :=
        linkPair_keeps_reciprocity m0 entity1 entity2 e1 e2 ps hps hlive hW h1 h2 he1 he2 ha1 hb2
          hrec
      refine ⟨m4, ?_, hr, ?_, hent, hk, ?_⟩
      · simp only [ha1, hb2, if_true]; exact hl
      · rw [handlesResolve_congr m0 m4 hent hpst (huid m4 hk)]; exact hwf
      · intro h; exact absurd ⟨ha1, hb2⟩ h
    · exact ⟨m0, by simp [ha1, hb2], hrec, hwf,
        rfl, hsame, fun _ _ => rfl⟩
  · by_cases hb1 : e1.m_type.isActivatable = true
    · by_cases ha2 : e2.m_type.isActivator = true
      · obtain ⟨m4, hl, hr, hent, hpst, hk, _, _⟩ :=
          linkPair_keeps_reciprocity m0 entity2 entity1 e2 e1 ps hps hlive hW h2 h1 he2 he1 ha2
            hb1 hrec
        refine ⟨m4, ?_, hr, ?_, hent, hk, ?_⟩
        · simp [ha1, hb1, ha2, hl]
        · rw [handlesResolve_congr m0 m4 hent hpst (huid m4 hk)]; exact hwf
        · intro _ h; exact absurd ⟨hb1, ha2⟩ h
      · exact ⟨m0, by simp [ha1, hb1, ha2], hrec, hwf, rfl, hsame,
          fun _ _ => rfl⟩
    · exact ⟨m0, by simp [ha1, hb1], hrec, hwf, rfl, hsame, fun _ _ => rfl⟩



/-- The handles of a map in the state of the slot-index invariant, with the salt counter
not above `2 ^ 16`, resolve: `GetEntityFromUID` returns every entity of the collection
for its own handle. -/
theorem handlesInOrder_handlesResolve (m : Map) (h : m.handlesInOrder)
    (hsalt : m.m_entityUIDSalt ≤ 2 ^ 16) : m.handlesResolve = true := by
  obtain ⟨hlen, ⟨ps, hps, hpsu⟩, hslots⟩ := h
  unfold Map.handlesResolve
  rw [Bool.and_eq_true, List.all_eq_true]
  refine ⟨by rw [hps]; rfl, ?_⟩
  intro p hp
  by_cases hp0 : p = 0
  · simp [hp0]
  · obtain ⟨i, hi, hget⟩ := List.getElem_of_mem hp
    have hgd : m.m_entities.getD i 0 = p := by
      rw [List.getD_eq_getElem?_getD, List.getElem?_eq_getElem hi, hget]; rfl
    obtain ⟨e, s, hd, hu, hs1, hs2⟩ := hslots i hi (by rw [hgd]; exact hp0)
    rw [hgd] at hd
    have hi16 : i < 2 ^ 16 := by omega
    have hs16 : s < 2 ^ 16 := by omega
    have hraw := EntityUID.fromIndexSalt_raw i s hi16 hs16
    have hinv : e.m_uid.eq EntityUID.INVALID = false := by
      rw [EntityUID.eq_false_iff, hu]
      intro hc
      have h2 := fromIndexSalt_injective i s 0xFFFF 0xFFFF hi16 hs16 (by norm_num) (by norm_num) hc
      omega
    have hnps : e.m_uid.eq ps.m_uid = false := by
      rw [EntityUID.eq_false_iff, hu, hpsu]
      exact fromIndexSalt_ne_zero i s hi16 hs16 hs1
    have hidx : e.m_uid.GetIndex = i := by
      rw [hu]; exact EntityUID.GetIndex_fromIndexSalt i s hi16 hs16
    have hself : e.m_uid.eq e.m_uid = true := (EntityUID.eq_iff _ _).2 rfl
    simp only [hd, Bool.or_eq_true, beq_iff_eq]
    right
    unfold Map.GetEntityFromUID
    simp only [hinv, Bool.false_eq_true, if_false, hps, hnps, hidx, ge_iff_le,
      Nat.not_le.2 hi, hgd, hp0, hd, hself, if_true]

/-- The two well-formedness predicates read only the heap, the collection and the
player start of a map. -/
theorem wellFormed_of_same_heap (m m0 : Map) (hheap : m0.heap = m.heap)
    (hent : m0.m_entities = m.m_entities) (hpst : m0.m_playerStart = m.m_playerStart) :
    m0.handlesResolve = m.handlesResolve ∧ m0.linksReciprocal = m.linksReciprocal := by
  cases m
  cases m0
  simp only at hheap hent hpst
  subst hheap hent hpst
  exact ⟨rfl, rfl⟩


/-- Reciprocity where handles resolve: `LinkEntities` keeps link reciprocity over the
whole collection in a map where the player start is alive and every entity of the
collection is returned by `GetEntityFromUID` for its own handle, and for two non-null
arguments taken from the collection: the call returns, the links of all activators and activatables are still
answered after it when they were before, the handles still resolve, no slot, handle,
kind, position or scale changes, and when the two arguments do not form an
activator/activatable pair (in particular when they have the same role) no entity
changes at all. -/
theorem LinkEntities_keeps_reciprocity_of_resolving_handles (m : Map)
    (entity1 entity2 : Ptr)
    (hwf : m.handlesResolve = true)
    (h1 : entity1 ∈ m.m_entities) (h2 : entity2 ∈ m.m_entities)
    (h10 : entity1 ≠ 0) (h20 : entity2 ≠ 0)
    (hrec : m.linksReciprocal = true) :
    ∃ (e1 e2 : Entity), m.deref entity1 = some e1 ∧ m.deref entity2 = some e2 ∧
      ∃ m' : Map, m.LinkEntities entity1 entity2 = some m' ∧
        m'.linksReciprocal = true ∧
        m'.handlesResolve = true ∧
        m'.m_entities = m.m_entities ∧
        (∀ q, (m'.deref q).map (fun e => (e.m_uid, e.m_type, e.m_position, e.m_scale)) =
          (m.deref q).map (fun e => (e.m_uid, e.m_type, e.m_position, e.m_scale))) ∧
        (¬ (e1.m_type.isActivator = true ∧ e2.m_type.isActivatable = true) →
          ¬ (e1.m_type.isActivatable = true ∧ e2.m_type.isActivator = true) →
          ∀ q, m'.deref q = m.deref q) := by
  obtain ⟨_, hlive, _⟩ := handlesResolve_elim m hwf
  have key : ∀ m0 : Map, m0.heap = m.heap → m0.m_entities = m.m_entities →
      m0.m_playerStart = m.m_playerStart →
      (m.LinkEntities entity1 entity2 =
        (do let e1 ← m0.deref entity1
            if e1.m_type = EntityType.BUTTON ∨ e1.m_type = EntityType.LEVER then
              let e2 ← m0.deref entity2
              if e2.m_type = EntityType.DOOR ∨ e2.m_type = EntityType.MOVING_PLATFORM then
                m0.linkPair entity1 entity2
              else some m0
            else if e1.m_type = EntityType.DOOR ∨ e1.m_type = EntityType.MOVING_PLATFORM then
              let e2 ← m0.deref entity2
              if e2.m_type = EntityType.BUTTON ∨ e2.m_type = EntityType.LEVER then
                m0.linkPair entity2 entity1
              else some m0
            else some m0)) →
      ∃ (e1 e2 : Entity), m.deref entity1 = some e1 ∧ m.deref entity2 = some e2 ∧
      ∃ m' : Map, m.LinkEntities entity1 entity2 = some m' ∧
        m'.linksReciprocal = true ∧
        m'.handlesResolve = true ∧
        m'.m_entities = m.m_entities ∧
        (∀ q, (m'.deref q).map (fun e => (e.m_uid, e.m_type, e.m_position, e.m_scale)) =
          (m.deref q).map (fun e => (e.m_uid, e.m_type, e.m_position, e.m_scale))) ∧
        (¬ (e1.m_type.isActivator = true ∧ e2.m_type.isActivatable = true) →
          ¬ (e1.m_type.isActivatable = true ∧ e2.m_type.isActivator = true) →
          ∀ q, m'.deref q = m.deref q) := by
    intro m0 hheap hent hpst htog
    have hd : ∀ q, m0.deref q = m.deref q := by
      intro q; cases q with
      | zero => rfl
      | succ a => simp only [Map.deref, hheap]
    obtain ⟨hwf0, hrec0⟩ := wellFormed_of_same_heap m m0 hheap hent hpst
    obtain ⟨e1, e2, he1, he2, m', hl, hr, hw, hen, hk, hsame⟩ :=
      LinkEntities_core m0 entity1 entity2 (hwf0.trans hwf) (hent ▸ h1) (hent ▸ h2) h10 h20
        (hrec0.trans hrec)
    refine ⟨e1, e2, (hd _).symm.trans he1, (hd _).symm.trans he2, m', ?_, hr, hw,
      hen.trans hent, fun q => (hk q).trans (by rw [hd q]), ?_⟩
    · rw [htog]
      exact hl
    · intro n1 n2 q
      rw [hsame n1 n2]
      exact hd q
  have hs : m.slotsLive = true := hlive
  by_cases hp1 : m.m_isPulsingActivatables = true
  · exact key { m with m_isPulsingActivatables := !m.m_isPulsingActivatables } rfl rfl rfl
      (by unfold Map.LinkEntities; simp only [hp1, Map.TogglePulseActivatables, hs, if_true]; rfl)
  · by_cases hp2 : m.m_isPulsingActivators = true
    · exact key { m with m_isPulsingActivators := !m.m_isPulsingActivators } rfl rfl rfl
        (by unfold Map.LinkEntities
            simp only [hp1, hp2, Map.TogglePulseActivators, hs, if_true, if_false,
              Bool.false_eq_true]
            rfl)
    · exact key m rfl rfl rfl
        (by unfold Map.LinkEntities
            simp only [hp1, hp2, if_false, Bool.false_eq_true]
            rfl)


/-- The theorem above applied to the small map whose button (address `2`) is linked with the first
door (address `3`), the button is linked with the second door (address `4`). -/
theorem LinkEntities_keeps_reciprocity_on_linkedMap :
    linkedMap.handlesResolve = true ∧ 2 ∈ linkedMap.m_entities ∧ 4 ∈ linkedMap.m_entities ∧
    linkedMap.linksReciprocal = true ∧
    ∃ (e1 e2 : Entity), linkedMap.deref 2 = some e1 ∧ linkedMap.deref 4 = some e2 ∧
      ∃ m' : Map, linkedMap.LinkEntities 2 4 = some m' ∧
        m'.linksReciprocal = true ∧
        m'.handlesResolve = true ∧
        m'.m_entities = linkedMap.m_entities ∧
        (∀ q, (m'.deref q).map (fun e => (e.m_uid, e.m_type, e.m_position, e.m_scale)) =
          (linkedMap.deref q).map (fun e => (e.m_uid, e.m_type, e.m_position, e.m_scale))) ∧
        (¬ (e1.m_type.isActivator = true ∧ e2.m_type.isActivatable = true) →
          ¬ (e1.m_type.isActivatable = true ∧ e2.m_type.isActivator = true) →
          ∀ q, m'.deref q = linkedMap.deref q) :=
  ⟨by decide!, by decide, by decide, by decide!,
    LinkEntities_keeps_reciprocity_of_resolving_handles linkedMap 2 4 (by decide!) (by decide) (by decide)
      (by decide) (by decide) (by decide!)⟩

/-- C28, failing input.  In the new map the mouse and keyboard actor places a button `X`
and a door `B`; the map is saved and loaded again, which leaves the salt counter at
`0` (`X` and `B` are now at the addresses `123` and `124`).  The floor tile of slot `0`
is deleted and `X` is cloned: the clone `A` (address `125`) is stored in slot `0` and
its handle, built from index `0` and salt `0`, is the handle of the player start.  `A`
is linked with `B`: every link is answered.  Then `LinkEntities(X, B)` is called, as
the link pick on `B` with `X` selected does.  The previous activator of `B` is looked
up by the handle `0`, which `GetEntityFromUID` resolves to the player start, not to
`A`, so `A` is not unlinked: afterwards the link of `A` still names `B`, a live door,
while `B` names `X`.  `values` lists the salt counter after loading, the raw handle
of the player start and of `A`, and the addresses of `X`, `B` and `A`; `returned` is
link reciprocity before and after the call; the rows of `links` give the handle and
the two link members of `A`, `B` and `X` before and after it. -/
theorem C28_link_after_load_leaves_old_activator_linked :
    (do let (p1, m1) ← mousePlaces {} newMap 5 0
        let (_, m2) ← mousePlaces p1 m1 4 1
        let file ← m2.Event_SaveMap
        let m3 ← Map.LoadFromFile file []
        let x := m3.m_entities.getD 121 0
        let b := m3.m_entities.getD 122 0
        let ex ← m3.deref x
        let eb ← m3.deref b
        let ps ← m3.deref m3.m_playerStart
        let (p4, m4) ←
          ({ m_hoveredEntity := m3.m_entities.getD 0 0 } :
            Player).HandleKeyboardMouseEditing_Edit_deleteKey m3
        let (p5, m5) ←
          ({ p4 with m_hoveredEntity := x } : Player).HandleKeyboardMouseEditing_Edit_LMBPressed
            true m4
        let a := p5.m_selectedEntity
        let (p6, m6) ← p5.HandleKeyboardMouseEditing_Edit_LMBReleased m5
        let ea ← m6.deref a
        let (_, m7) ← mouseLink p6 m6 a b
        let m8 ← m7.LinkEntities x b
        pure ({ values := [m3.m_entityUIDSalt, ps.m_uid.m_uid, ea.m_uid.m_uid, x, b, a],
                kinds := [ex.m_type, eb.m_type, ea.m_type],
                slots := [m8.m_entities.take 1, m8.m_entities.drop 121],
                returned := [m7.linksReciprocal, m8.linksReciprocal],
                links := [[linkFields m7 a, linkFields m7 b, linkFields m7 x],
                          [linkFields m8 a, linkFields m8 b, linkFields m8 x]] } : Report)) =
      some { values := [0, 0, 0, 123, 124, 125],
             kinds := [EntityType.BUTTON, EntityType.DOOR, EntityType.BUTTON],
             slots := [[125], [123, 124]],
             returned := [true, false],
             links :=
               [[some (⟨0⟩, ⟨0x7A0084⟩, EntityUID.INVALID),
                 some (⟨0x7A0084⟩, EntityUID.INVALID, ⟨0⟩),
                 some (⟨0x79007F⟩, EntityUID.INVALID, EntityUID.INVALID)],
                [some (⟨0⟩, ⟨0x7A0084⟩, EntityUID.INVALID),
                 some (⟨0x7A0084⟩, EntityUID.INVALID, ⟨0x79007F⟩),
                 some (⟨0x79007F⟩, ⟨0x7A0084⟩, EntityUID.INVALID)]] } := by
  decide!

/-! ### The scaling flag of the hands and the scale keys (C29, C30) -/

/-- C29, failing input.  In the new map both hands hover the floor tile of slot `0`
(address `2`).  The left hand grabs it (grip pressed), the right hand presses grip and
starts a two-handed scale, and the left hand, the passive one, releases grip: both
hands are in mode `NONE`, but the release has cleared only the flag of the left hand,
and `m_isResponsibleForScaling` of the right hand is still true; the release of the
right hand that follows, in mode `NONE`, changes nothing.  The right hand then grabs
the tile again and the left hand presses grip to start a second two-handed scale: both hands are in mode `SCALE` with the flag true, and in the next frame both
add the change of the hand distance, here `0.5`, to the scale of the tile, which goes
from `1` to `2`.  `modes` and `returned` give the mode and the flag of the left and of
the right hand after the first scale has started, after the release of the left hand,
after the release of the right hand, and after the second scale has started. -/
theorem C29_passive_release_leaves_flag_set :
    (do let (p1, m1) ← (handsHovering 2 2).HandleEditInput_gripPressed XRHand.LEFT newMap
        let (p2, m2) ← p1.HandleEditInput_gripPressed XRHand.RIGHT m1
        let (p3, m3) ← p2.HandleEditInput_gripReleased XRHand.LEFT m2
        let (q3, n3) ← p3.HandleEditInput_gripReleased XRHand.RIGHT m3
        let (p4, m4) ← q3.HandleEditInput_gripPressed XRHand.RIGHT n3
        let (p5, m5) ← p4.HandleEditInput_gripPressed XRHand.LEFT m4
        let e5 ← m5.deref 2
        let m6 ← p5.m_leftController.HandleEditInput_gripHeld_scale m5 (1 / 2)
        let m7 ← p5.m_rightController.HandleEditInput_gripHeld_scale m6 (1 / 2)
        let e7 ← m7.deref 2
        pure ({ modes := [p2.m_leftController.m_actionState, p2.m_rightController.m_actionState,
                          p3.m_leftController.m_actionState, p3.m_rightController.m_actionState,
                          q3.m_leftController.m_actionState, q3.m_rightController.m_actionState,
                          p5.m_leftController.m_actionState, p5.m_rightController.m_actionState],
                returned := [p2.m_leftController.m_isResponsibleForScaling,
                             p2.m_rightController.m_isResponsibleForScaling,
                             p3.m_leftController.m_isResponsibleForScaling,
                             p3.m_rightController.m_isResponsibleForScaling,
                             q3.m_leftController.m_isResponsibleForScaling,
                             q3.m_rightController.m_isResponsibleForScaling,
                             p5.m_leftController.m_isResponsibleForScaling,
                             p5.m_rightController.m_isResponsibleForScaling],
                scales := [e5.m_scale, e7.m_scale] } : Report)) =
      some { modes := [ActionType.SCALE, ActionType.SCALE, ActionType.NONE, ActionType.NONE,
                       ActionType.NONE, ActionType.NONE, ActionType.SCALE, ActionType.SCALE],
             returned := [false, true, false, true, false, true, true, true],
             scales := [1, 2] } := by
  decide!

/-- C30, failing input.  In the new map the mouse and keyboard actor hovers the floor
tile of slot `0` (address `2`, scale `1`), selects it with the space key, so that the
tile is both its selected and its hovered entity, and presses the down arrow once.
The block scales the selected entity and then, in a second `if` that is not an `else`,
the hovered entity: two Scale records are pushed, holding the scales `1` and `0.9`,
and the scale of the tile is `0.8`.  One `UndoLastAction` brings the scale to `0.9`,
not to `1`.  `scales` lists the scale before the key press, after it and after the
undo, followed by the scales held in the two records, top first. -/
theorem C30_down_arrow_scales_selected_entity_twice :
    (do let (p1, m1) ← ({ m_hoveredEntity := 2 } : Player).HandleKeyboardMouseEditing_Edit_spaceKey
          newMap
        let e1 ← m1.deref 2
        let (p2, m2) ← p1.HandleKeyboardMouseEditing_Edit_downArrow m1
        let e2 ← m2.deref 2
        let (_, m3) ← p2.UndoLastAction m2
        let e3 ← m3.deref 2
        pure ({ values := [p1.m_selectedEntity, p1.m_hoveredEntity],
                undoStacks := [p1.m_undoActionStack.map Action.summary,
                               p2.m_undoActionStack.map Action.summary],
                scales := [e1.m_scale, e2.m_scale, e3.m_scale] ++
                  p2.m_undoActionStack.map (fun a => a.m_actionEntityPreviousScale) } :
              Report)) =
      some { values := [2, 2],
             undoStacks := [[], [(ActionType.SCALE, [2]), (ActionType.SCALE, [2])]],
             scales := [1, 4 / 5, 9 / 10, 9 / 10, 1] } := by
  decide!

end ArchiLeap
